import Mathlib

/-!
# Hospital management system: discharge billing and invoice workflow

A shallow embedding of the Express route handlers in `routes/discharge.js`,
`routes/appointment.js` and `routes/invoices.js` together with the Mongoose schemas
in `models/`, followed by the properties established about them.

Conventions of the embedding.

* The document store is a record of lists, one list per collection; a handler is a
  function from the store and the request to a reply and the store afterwards.
* Dates are integers (milliseconds since the epoch, as `Date` subtraction yields them).
* JavaScript numbers are IEEE 754 doubles: `JsNumber` holds a finite double as the
  rational number it denotes, and every arithmetic operation rounds its exact result to
  the nearest double, ties to even (`toDouble`).  The sign of zero is not represented.
* A number in a JSON request body is written as the value of its literal;
  `JSON.parse` turns it into the nearest double.
* Object ids are natural numbers; a request always carries a well-formed id.
-/

namespace Hospital

/-! ## JavaScript values and `parseInt` -/

/-- Object ids of stored documents. -/
abbrev ObjectId := Nat

/-- Roles carried by `req.user.role`. -/
inductive Role where
  | admin
  | doctor
  | patient
  deriving DecidableEq, Repr

/-- A value found under a key of a JSON request body; `undefined` is a missing key,
and `num q` is a number whose literal has the value `q`, which `JSON.parse` reads as the
double `toDouble q`. -/
inductive JsVal where
  | undefined
  | null
  | bool (b : Bool)
  | num (q : ℚ)
  | str (s : String)
  deriving DecidableEq

/-- The characters `parseInt` skips at the start of its argument
(ECMAScript `WhiteSpace` and `LineTerminator`). -/
def isJsWhiteSpace (c : Char) : Bool :=
  c.val = 0x09 || c.val = 0x0A || c.val = 0x0B || c.val = 0x0C || c.val = 0x0D ||
  c.val = 0x20 || c.val = 0xA0 || c.val = 0x1680 ||
  (0x2000 ≤ c.val && c.val ≤ 0x200A) ||
  c.val = 0x2028 || c.val = 0x2029 || c.val = 0x202F || c.val = 0x205F ||
  c.val = 0x3000 || c.val = 0xFEFF

/-- Value of a character as a digit of the given radix (10 or 16). -/
def digitValue (radix : Nat) (c : Char) : Option Nat :=
  if '0' ≤ c ∧ c ≤ '9' then some (c.toNat - '0'.toNat)
  else if radix = 16 ∧ 'a' ≤ c ∧ c ≤ 'f' then some (c.toNat - 'a'.toNat + 10)
  else if radix = 16 ∧ 'A' ≤ c ∧ c ≤ 'F' then some (c.toNat - 'A'.toNat + 10)
  else none

/-- Reads the longest prefix of digits; `acc` is the value read so far and `seen`
records whether a digit was read. No digit at all gives `none` (`NaN`). -/
def readDigits (radix : Nat) : List Char → Nat → Bool → Option Nat
  | [], acc, seen => if seen then some acc else none
  | c :: cs, acc, seen =>
    match digitValue radix c with
    | some d => readDigits radix cs (acc * radix + d) true
    | none => if seen then some acc else none

/-- Unsigned part of `parseInt`: an optional `0x`/`0X` prefix selects radix 16. -/
def parseUnsigned : List Char → Option Nat
  | '0' :: 'x' :: cs => readDigits 16 cs 0 false
  | '0' :: 'X' :: cs => readDigits 16 cs 0 false
  | cs => readDigits 10 cs 0 false

/-- `parseInt(s)` for a string, without a radix argument: leading white space is
dropped, a sign is read, then the longest run of digits; `none` is `NaN`. -/
def parseIntChars (cs : List Char) : Option Int :=
  match cs.dropWhile isJsWhiteSpace with
  | '-' :: rest => (parseUnsigned rest).map (fun n => -(n : Int))
  | '+' :: rest => (parseUnsigned rest).map (fun n => (n : Int))
  | rest => (parseUnsigned rest).map (fun n => (n : Int))

/-- A JavaScript number: `NaN`, a finite double held as the rational number it
denotes, or an infinity. -/
inductive JsNumber where
  | nan
  | finite (q : ℚ)
  | infinity (negative : Bool)
  deriving DecidableEq

/-- Numerals denote the finite number of that value. -/
instance (n : Nat) : OfNat JsNumber n := ⟨.finite n⟩

/-- The test `isNaN`. -/
def JsNumber.isNaN : JsNumber → Bool
  | .nan => true
  | _ => false

/-- The comparison `x > 0`. -/
def JsNumber.gtZero : JsNumber → Bool
  | .nan => false
  | .finite q => decide (0 < q)
  | .infinity negative => !negative

/-- The natural number nearest to `num / den`, the even one of two that are equally
near. -/
def roundHalfEven (num den : Nat) : Nat :=
  let f := num / den
  let r := num % den
  if 2 * r < den then f
  else if den < 2 * r then f + 1
  else if f % 2 = 0 then f else f + 1

/-- The binary logarithm by repeated halving, at most `fuel` times. -/
def log2Fuel : Nat → Nat → Nat
  | 0, _ => 0
  | fuel + 1, n => if 2 ≤ n then log2Fuel fuel (n / 2) + 1 else 0

/-- The binary logarithm `⌊log2 n⌋` of a positive natural number. -/
def natLog2 (n : Nat) : Nat :=
  log2Fuel n n

/-- The exponent `e` with `2 ^ e ≤ n / d < 2 ^ (e + 1)`, for positive `n` and `d`. -/
def floorLog2 (n d : Nat) : Int :=
  let e : Int := (natLog2 n : Int) - (natLog2 d : Int)
  if 0 ≤ e then (if d * 2 ^ e.toNat ≤ n then e else e - 1)
  else (if d ≤ n * 2 ^ (-e).toNat then e else e - 1)

/-- The Number value of a rational number (IEEE 754 binary64, round to nearest, ties
to even): the nearest multiple of `2 ^ k`, where `k` leaves 53 significant bits and is
at least the exponent `-1074` of the subnormal numbers; an infinity when that multiple
reaches `2 ^ 1024`. -/
def toDouble (q : ℚ) : JsNumber :=
  if q = 0 then .finite 0
  else
    let n := q.num.natAbs
    let d := q.den
    let k : Int := max (floorLog2 n d - 52) (-1074)
    if 0 ≤ k then
      let m := roundHalfEven n (d * 2 ^ k.toNat) * 2 ^ k.toNat
      if 2 ^ 1024 ≤ m then .infinity (decide (q < 0))
      else .finite (if q < 0 then -(m : ℚ) else (m : ℚ))
    else
      let m := roundHalfEven (n * 2 ^ (-k).toNat) d
      .finite (if q < 0 then -((m : ℚ) / ((2 ^ (-k).toNat : Nat) : ℚ))
        else (m : ℚ) / ((2 ^ (-k).toNat : Nat) : ℚ))

/-- The operator `+` on numbers. -/
def nanAdd : JsNumber → JsNumber → JsNumber
  | .finite a, .finite b => toDouble (a + b)
  | .finite _, .infinity t => .infinity t
  | .infinity s, .finite _ => .infinity s
  | .infinity s, .infinity t => if s = t then .infinity s else .nan
  | _, _ => .nan

/-- The operator `*` on numbers. -/
def nanMul : JsNumber → JsNumber → JsNumber
  | .finite a, .finite b => toDouble (a * b)
  | .finite a, .infinity t => if a = 0 then .nan else .infinity (xor (decide (a < 0)) t)
  | .infinity s, .finite b => if b = 0 then .nan else .infinity (xor s (decide (b < 0)))
  | .infinity s, .infinity t => .infinity (xor s t)
  | _, _ => .nan

/-- Number of decimal digits of a positive natural number. -/
def decimalLength (n : Nat) : Nat :=
  (Nat.toDigits 10 n).length

/-- The exponent `n` with `10 ^ (n - 1) ≤ num / den < 10 ^ n`, for positive `num`
and `den`. -/
def decimalExponent (num den : Nat) : Int :=
  let c : Int := (decimalLength num : Int) - (decimalLength den : Int)
  if 0 ≤ c then (if den * 10 ^ c.toNat ≤ num then c + 1 else c)
  else (if den ≤ num * 10 ^ (-c).toNat then c + 1 else c)

/-- The rational number `s * 10 ^ j`. -/
def scale10 (s : Nat) (j : Int) : ℚ :=
  if 0 ≤ j then ((s * 10 ^ j.toNat : Nat) : ℚ) else (s : ℚ) / ((10 ^ (-j).toNat : Nat) : ℚ)

/-- The natural number `⌊v / 10 ^ j⌋` for a non-negative `v`. -/
def floorScaled (v : ℚ) (j : Int) : Nat :=
  if 0 ≤ j then v.num.natAbs / (v.den * 10 ^ j.toNat)
  else (v.num.natAbs * 10 ^ (-j).toNat) / v.den

/-- Removes the zeros at the end of `s`, counting them into the exponent. -/
def stripZeros : Nat → Nat → Int → Nat × Int
  | 0, s, j => (s, j)
  | fuel + 1, s, j => if s ≠ 0 ∧ s % 10 = 0 then stripZeros fuel (s / 10) (j + 1) else (s, j)

/-- The search of `Number::toString` for the digits of a positive double `v` with
`10 ^ (n - 1) ≤ v < 10 ^ n`: the least number `k` of digits for which a number
`s * 10 ^ (n - k)` has the Number value `v`, and of the two candidates next to `v` the
nearer one (the even one if equally near). The result is `s` with the exponent of its
last digit. Seventeen digits are enough for every double. -/
def shortestFrom (v : ℚ) (n : Int) : Nat → Nat → Nat × Int
  | 0, k => (floorScaled v (n - k), n - k)
  | fuel + 1, k =>
    let j : Int := n - k
    let lo := floorScaled v j
    let hi := lo + 1
    let okLo := decide (toDouble (scale10 lo j) = .finite v)
    let okHi := decide (toDouble (scale10 hi j) = .finite v)
    if okLo && okHi then
      let dLo := v - scale10 lo j
      let dHi := scale10 hi j - v
      if dLo < dHi then (lo, j)
      else if dHi < dLo then (hi, j)
      else if lo % 2 = 0 then (lo, j) else (hi, j)
    else if okLo then (lo, j)
    else if okHi then (hi, j)
    else shortestFrom v n fuel (k + 1)

/-- The digits `s` of a positive double and the exponent of the last of them, as
`Number::toString` chooses them, `s` not ending in a zero. -/
def shortestDigits (v : ℚ) : Nat × Int :=
  let r := shortestFrom v (decimalExponent v.num.natAbs v.den) 17 1
  stripZeros 20 r.1 r.2

/-- The string of a positive double given its digits `s` and the exponent `j` of the
last of them, by the cases of `Number::toString` on `n = k + j`, `k` the number of
digits: positional notation for `-6 < n ≤ 21`, exponent notation otherwise. -/
def positiveNumberString (s : Nat) (j : Int) : String :=
  let digits := Nat.toDigits 10 s
  let k : Nat := digits.length
  let n : Int := k + j
  if (k : Int) ≤ n ∧ n ≤ 21 then
    String.mk (digits ++ List.replicate j.toNat '0')
  else if 0 < n ∧ n ≤ 21 then
    String.mk (digits.take n.toNat ++ ['.'] ++ digits.drop n.toNat)
  else if -6 < n ∧ n ≤ 0 then
    String.mk (['0', '.'] ++ List.replicate (-n).toNat '0' ++ digits)
  else
    let e : Int := n - 1
    let exponent := (if e < 0 then "-" else "+") ++ toString e.natAbs
    if k = 1 then String.mk digits ++ "e" ++ exponent
    else String.mk (digits.take 1 ++ ['.'] ++ digits.drop 1) ++ "e" ++ exponent

/-- The string of a non-zero finite double by the search for its shortest digits. -/
def searchedNumberString (q : ℚ) : String :=
  (if q < 0 then "-" else "") ++
    positiveNumberString (shortestDigits |q|).1 (shortestDigits |q|).2

/-- The string of a number, as a template literal or `String(x)` gives it
(`Number::toString` with radix 10). An integer of magnitude at most `2 ^ 53` is a
double whose neighbours are at least `1` away from it, so the digits found by the
search are its decimal digits; the second case gives them directly. -/
def jsNumberString : JsNumber → String
  | .nan => "NaN"
  | .infinity negative => if negative then "-Infinity" else "Infinity"
  | .finite q =>
    if q = 0 then "0"
    else if q.den = 1 ∧ q.num.natAbs ≤ 2 ^ 53 then
      (if q < 0 then "-" else "") ++ toString q.num.natAbs
    else searchedNumberString q

/-- `parseInt(s)` for a string: the integer that `parseIntChars` reads, as a Number. -/
def parseIntString (cs : List Char) : JsNumber :=
  match parseIntChars cs with
  | some n => toDouble n
  | none => .nan

/-- The function `parseInt` of the discharge handler applied to a body value. The
argument is first turned into a string: `undefined`, `null` and booleans become the
strings `undefined`, `null`, `true`, `false`, none of which starts with a digit, and a
number becomes its `Number::toString`, so that its fraction is dropped and of a number
in exponent notation (`5e-7`, `1.2e+21`) only the leading digit is read. -/
def parseInt : JsVal → JsNumber
  | .undefined => .nan
  | .null => .nan
  | .bool _ => .nan
  | .num q => parseIntString (jsNumberString (toDouble q)).data
  | .str s => parseIntString s.data

/-- Number of UTF-16 code units of a string, the `length` that the `maxlength`
validator compares. -/
def jsLength (s : String) : Nat :=
  (s.data.map (fun c => if c.val < 0x10000 then 1 else 2)).sum

/-- The `required` and `maxlength` validators of a String path. -/
def validString (maxlength : Nat) (s : String) : Bool :=
  s ≠ "" && jsLength s ≤ maxlength

/-! ## Documents and the store -/

/-- The part of a `User` document that the handlers read. -/
structure User where
  id : ObjectId
  firstName : String
  lastName : String
  role : Role
  deriving DecidableEq

/-- Schema `models/Doctor.js`, the fields the handlers read. -/
structure Doctor where
  id : ObjectId
  user : ObjectId
  status : Bool
  deriving DecidableEq

/-- Schema `models/Patient.js`. -/
structure Patient where
  id : ObjectId
  user : ObjectId
  address : String
  mobile : String
  symptoms : String
  assignedDoctorId : Option ObjectId
  admitDate : Int
  status : Bool
  createdAt : Int
  deriving DecidableEq

/-- Schema `models/PatientDischargeDetails.js`, a stored document. -/
structure PatientDischargeDetails where
  id : ObjectId
  patientId : ObjectId
  patientName : String
  assignedDoctorName : String
  address : String
  mobile : String
  symptoms : String
  admitDate : Int
  releaseDate : Int
  daySpent : Int
  roomCharge : JsNumber
  medicineCost : JsNumber
  doctorFee : JsNumber
  otherCharge : JsNumber
  total : JsNumber
  createdAt : Int
  deriving DecidableEq

/-- Schema `models/Appointment.js`. `status` is a Boolean path without `required`,
so it can hold `null` (`none`). -/
structure Appointment where
  id : ObjectId
  patientId : ObjectId
  doctorId : ObjectId
  patientName : String
  doctorName : String
  appointmentDate : Int
  description : String
  status : Option Bool
  createdAt : Int
  deriving DecidableEq

/-- An entry of `items` or `additionalCharges` of an invoice. -/
structure InvoiceItem where
  description : String
  amount : JsNumber
  deriving DecidableEq

/-- Schema `models/Invoice.js`. `invoiceNumber` is `none` on a document built by
`new Invoice({...})` that was given no number. -/
structure Invoice where
  id : ObjectId
  invoiceNumber : Option String
  appointment : ObjectId
  patient : ObjectId
  doctor : ObjectId
  items : List InvoiceItem
  subtotal : JsNumber
  tax : JsNumber
  total : JsNumber
  status : String
  appointmentFee : JsNumber
  consultationFee : JsNumber
  additionalCharges : List InvoiceItem
  paymentDate : Option Int
  createdAt : Int
  updatedAt : Int
  deriving DecidableEq

/-- The collections of the database. -/
structure Store where
  users : List User
  doctors : List Doctor
  patients : List Patient
  appointments : List Appointment
  invoices : List Invoice
  discharges : List PatientDischargeDetails
  deriving DecidableEq

/-- What a handler takes from its environment: the clock read by `new Date()`, the
clock read when schema defaults and timestamps are filled in, and the id given to a
newly constructed document. -/
structure Env where
  now : Int
  docNow : Int
  newId : ObjectId
  deriving DecidableEq

/-- The reply of a handler: `res.status(code).json(body)` or an error message. -/
inductive Reply (α : Type) where
  | json (status : Nat) (body : α)
  | fail (status : Nat) (message : String)
  deriving DecidableEq

/-- `User.findById`. -/
def findUser (s : Store) (id : ObjectId) : Option User :=
  s.users.find? (fun u => u.id = id)

/-- `Doctor.findById`. -/
def findDoctor (s : Store) (id : ObjectId) : Option Doctor :=
  s.doctors.find? (fun d => d.id = id)

/-- `Patient.findById`. -/
def findPatient (s : Store) (id : ObjectId) : Option Patient :=
  s.patients.find? (fun p => p.id = id)

/-- `Appointment.findById`. -/
def findAppointment (s : Store) (id : ObjectId) : Option Appointment :=
  s.appointments.find? (fun a => a.id = id)

/-- `Invoice.findById`. -/
def findInvoice (s : Store) (id : ObjectId) : Option Invoice :=
  s.invoices.find? (fun i => i.id = id)

/-- `Invoice.findOne({ appointment })`. -/
def findInvoiceByAppointment (s : Store) (appointment : ObjectId) : Option Invoice :=
  s.invoices.find? (fun i => i.appointment = appointment)

/-- The template string of first and last name separated by one space. -/
def fullName (u : User) : String :=
  u.firstName ++ " " ++ u.lastName

/-! ## Discharge (`routes/discharge.js`) -/

/-- Milliseconds in a day, `1000 * 60 * 60 * 24`. -/
def msPerDay : Int := 1000 * 60 * 60 * 24

/-- The expression `Math.ceil((releaseDate - admitDate) / (1000 * 60 * 60 * 24))`. -/
def daySpent (releaseDate admitDate : Int) : Int :=
  Int.ceil (((releaseDate - admitDate : Int) : ℚ) / (msPerDay : ℚ))

/-- Body of `POST /api/discharge/:patientId`. -/
structure DischargeBody where
  roomCharge : JsVal
  medicineCost : JsVal
  doctorFee : JsVal
  otherCharge : JsVal
  deriving DecidableEq

/-- The object handed to `new PatientDischargeDetails({...})`, before casting. -/
structure DischargeDraft where
  patientId : ObjectId
  patientName : String
  assignedDoctorName : String
  address : String
  mobile : String
  symptoms : String
  admitDate : Int
  releaseDate : Int
  daySpent : Int
  roomCharge : JsNumber
  medicineCost : JsNumber
  doctorFee : JsNumber
  otherCharge : JsNumber
  total : JsNumber

/-- `dischargeDetails.save()`: the Number paths must hold numbers (`NaN` does not
cast, an infinity does) and the String paths must pass `required` and `maxlength`;
then the document is inserted. `none` is the rejected promise. -/
def saveDischarge (s : Store) (env : Env) (d : DischargeDraft) :
    Option (PatientDischargeDetails × Store) :=
  if !d.roomCharge.isNaN && !d.medicineCost.isNaN && !d.doctorFee.isNaN &&
      !d.otherCharge.isNaN && !d.total.isNaN &&
      validString 40 d.patientName && validString 40 d.assignedDoctorName &&
      validString 40 d.address && validString 20 d.mobile &&
      validString 100 d.symptoms then
    let doc : PatientDischargeDetails :=
      { id := env.newId
        patientId := d.patientId
        patientName := d.patientName
        assignedDoctorName := d.assignedDoctorName
        address := d.address
        mobile := d.mobile
        symptoms := d.symptoms
        admitDate := d.admitDate
        releaseDate := d.releaseDate
        daySpent := d.daySpent
        roomCharge := d.roomCharge
        medicineCost := d.medicineCost
        doctorFee := d.doctorFee
        otherCharge := d.otherCharge
        total := d.total
        createdAt := env.docNow }
    some (doc, { s with discharges := s.discharges ++ [doc] })
  else none

/-- Handler of `POST /api/discharge/:patientId` (it runs behind `authorize('admin')`).
A populated `user` that is missing makes the name template throw, which the `catch`
turns into the 500 reply, as it does a rejected `save`. -/
def postDischarge (s : Store) (env : Env) (patientId : ObjectId) (body : DischargeBody) :
    Reply PatientDischargeDetails × Store :=
  match findPatient s patientId with
  | none => (.fail 404 "Patient not found", s)
  | some patient =>
    match patient.assignedDoctorId.bind (findDoctor s) with
    | none => (.fail 404 "Assigned doctor not found", s)
    | some doctor =>
      let releaseDate := env.now
      let days := daySpent releaseDate patient.admitDate
      let total :=
        nanAdd (nanAdd (nanAdd (nanMul (parseInt body.roomCharge) (.finite days))
          (parseInt body.medicineCost)) (parseInt body.doctorFee))
          (parseInt body.otherCharge)
      match findUser s patient.user, findUser s doctor.user with
      | some patientUser, some doctorUser =>
        let draft : DischargeDraft :=
          { patientId := patient.id
            patientName := fullName patientUser
            assignedDoctorName := fullName doctorUser
            address := patient.address
            mobile := patient.mobile
            symptoms := patient.symptoms
            admitDate := patient.admitDate
            releaseDate := releaseDate
            daySpent := days
            roomCharge := nanMul (parseInt body.roomCharge) (.finite days)
            medicineCost := parseInt body.medicineCost
            doctorFee := parseInt body.doctorFee
            otherCharge := parseInt body.otherCharge
            total := total }
        match saveDischarge s env draft with
        | some (doc, s') => (.json 200 doc, s')
        | none => (.fail 500 "Server error", s)
      | _, _ => (.fail 500 "Server error", s)

/-- The object returned by `GET /api/discharge/details/:patientId`. -/
structure PatientData where
  patientId : ObjectId
  name : String
  mobile : String
  address : String
  symptoms : String
  admitDate : Int
  todayDate : Int
  day : Int
  assignedDoctorName : String
  deriving DecidableEq

/-- Handler of `GET /api/discharge/details/:patientId`. -/
def getDischargeDetails (s : Store) (env : Env) (patientId : ObjectId) : Reply PatientData :=
  match findPatient s patientId with
  | none => .fail 404 "Patient not found"
  | some patient =>
    let doctor := patient.assignedDoctorId.bind (findDoctor s)
    let releaseDate := env.now
    let days := daySpent releaseDate patient.admitDate
    match findUser s patient.user with
    | none => .fail 500 "Server error"
    | some patientUser =>
      let doctorName : Option String :=
        match doctor with
        | none => some "Not Assigned"
        | some d => (findUser s d.user).map fullName
      match doctorName with
      | none => .fail 500 "Server error"
      | some assignedDoctorName =>
        .json 200
          { patientId := patient.id
            name := fullName patientUser
            mobile := patient.mobile
            address := patient.address
            symptoms := patient.symptoms
            admitDate := patient.admitDate
            todayDate := releaseDate
            day := days
            assignedDoctorName := assignedDoctorName }

/-! ## Invoices (`models/Invoice.js`) -/

/-- The literal `0.1` of the tax computation: the double nearest to one tenth. -/
def taxRate : JsNumber := toDouble (1 / 10)

/-- The expression `items.reduce((sum, item) => sum + item.amount, 0)`. -/
def itemsSubtotal (items : List InvoiceItem) : JsNumber :=
  items.foldl (fun sum item => nanAdd sum item.amount) (.finite 0)

/-- The method `padStart(n, '0')` on a string of digits. -/
def padStart (n : Nat) (s : String) : String :=
  String.mk (List.replicate (n - s.length) '0') ++ s

/-- The number the `pre('save')` hook builds from `countDocuments()`. -/
def makeInvoiceNumber (count : Nat) : String :=
  "INV-" ++ padStart 6 (toString (count + 1))

/-- The `pre('save')` hook of the invoice schema: a document whose `invoiceNumber`
is falsy (absent or empty) is given the next number. -/
def preSaveInvoice (count : Nat) (inv : Invoice) : Invoice :=
  match inv.invoiceNumber with
  | none => { inv with invoiceNumber := some (makeInvoiceNumber count) }
  | some n =>
    if n = "" then { inv with invoiceNumber := some (makeInvoiceNumber count) } else inv

/-- The `enum` of the `status` path. -/
def invoiceStatuses : List String := ["pending", "paid", "overdue"]

/-- The `required` validator of `invoiceNumber`. -/
def hasInvoiceNumber (inv : Invoice) : Bool :=
  match inv.invoiceNumber with
  | none => false
  | some n => n ≠ ""

/-- The validators of the entries of `items`: `description` is required and `amount`
is a required Number, to which `NaN` does not cast. -/
def validItems (items : List InvoiceItem) : Bool :=
  items.all (fun item => item.description ≠ "" && !item.amount.isNaN)

/-- The validators of an invoice document apart from the `enum` of `status`: the
required `invoiceNumber`, the entries of `items`, and the Number paths, none of which
may hold `NaN`. -/
def validInvoicePaths (inv : Invoice) : Bool :=
  hasInvoiceNumber inv && validItems inv.items &&
    !inv.subtotal.isNaN && !inv.tax.isNaN && !inv.total.isNaN &&
    !inv.appointmentFee.isNaN && !inv.consultationFee.isNaN &&
    inv.additionalCharges.all (fun charge => !charge.amount.isNaN)

/-- The validation that `save()` runs on an invoice document. It covers every path of
a new document and every loaded path of a stored one, changed or not. -/
def validInvoice (inv : Invoice) : Bool :=
  validInvoicePaths inv && invoiceStatuses.contains inv.status

/-- `invoice.save()` on a document made by `new Invoice({...})`. Mongoose runs its
validation as the first `pre('save')` step, ahead of the hooks a schema declares, so
`required` on `invoiceNumber` is checked before `preSaveInvoice` could fill it in.
After the hook the unique indexes on `_id` and on `invoiceNumber` decide whether the
insert succeeds. `none` is the rejected promise. -/
def insertInvoice (s : Store) (inv : Invoice) : Option Store :=
  if validInvoice inv then
    let inv' := preSaveInvoice s.invoices.length inv
    if s.invoices.any (fun other => other.id = inv'.id) then none
    else if s.invoices.any (fun other => other.invoiceNumber = inv'.invoiceNumber) then none
    else some { s with invoices := s.invoices ++ [inv'] }
  else none

/-- `invoice.save()` on a document loaded from the store whose `items`,
`additionalCharges` and totals were changed: the document is validated, the hook runs,
and the stored document with the same `_id` (unique in a collection) is replaced.
`timestamps` sets `updatedAt` when the document was modified, and leaves it when every
assigned value equals the stored one. -/
def updateInvoiceItems (s : Store) (env : Env) (inv : Invoice) : Option (Invoice × Store) :=
  if validInvoice inv then
    let inv' :=
      { preSaveInvoice s.invoices.length inv with
        updatedAt := if findInvoice s inv.id = some inv then inv.updatedAt else env.docNow }
    some (inv', { s with invoices := s.invoices.map (fun i => if i.id = inv.id then inv' else i) })
  else none

/-! ## Appointment update (`routes/appointment.js`) -/

/-- Body of `PUT /api/appointment/:id`. `description` is a JSON string or absent. -/
structure AppointmentUpdate where
  description : Option String
  status : JsVal
  deriving DecidableEq

/-- The cast Mongoose applies when a Boolean path is assigned: the outer `none` is a
cast error, `some none` is `null`. -/
def castBoolean : JsVal → Option (Option Bool)
  | .bool b => some (some b)
  | .null => some none
  | .undefined => some none
  | .num q =>
    if toDouble q = .finite 1 then some (some true)
    else if toDouble q = .finite 0 then some (some false)
    else none
  | .str s =>
    if s = "true" ∨ s = "1" ∨ s = "yes" then some (some true)
    else if s = "false" ∨ s = "0" ∨ s = "no" then some (some false)
    else none

/-- The constant `appointmentFee`. -/
def appointmentFee : JsNumber := .finite 100

/-- The expression `value || current` for a string value that may be absent. -/
def orCurrent (value : Option String) (current : String) : String :=
  match value with
  | none => current
  | some v => if v = "" then current else v

/-- The validation that `save()` runs on an appointment document, on every loaded path
whether it was changed or not: the three String paths are required and bounded. -/
def validAppointment (appointment : Appointment) : Bool :=
  validString 40 appointment.patientName && validString 40 appointment.doctorName &&
    validString 500 appointment.description

/-- The document `new Invoice({...})` built in the approval branch of the appointment
update; `status`, `consultationFee` and `additionalCharges` take their schema
defaults. -/
def approvalInvoice (env : Env) (appointment : Appointment) : Invoice :=
  let items : List InvoiceItem := [⟨"Appointment Fee", appointmentFee⟩]
  let subtotal := itemsSubtotal items
  let tax := nanMul subtotal taxRate
  let total := nanAdd subtotal tax
  { id := env.newId
    invoiceNumber := none
    appointment := appointment.id
    patient := appointment.patientId
    doctor := appointment.doctorId
    items := items
    subtotal := subtotal
    tax := tax
    total := total
    status := "pending"
    appointmentFee := appointmentFee
    consultationFee := .finite 0
    additionalCharges := []
    paymentDate := none
    createdAt := env.docNow
    updatedAt := env.docNow }

/-- The `try { ... } catch (invoiceError) { ... }` block of the appointment update:
an invoice is looked up by appointment and, when there is none, one is built and
saved; a rejected save is logged and leaves the store as it was. -/
def autoCreateInvoice (s : Store) (env : Env) (appointment : Appointment) : Store :=
  match findInvoiceByAppointment s appointment.id with
  | some _ => s
  | none =>
    match insertInvoice s (approvalInvoice env appointment) with
    | some s' => s'
    | none => s

/-- Handler of `PUT /api/appointment/:id` for an authenticated user with the given
role. A truthy `description` replaces the stored one. A status that does not cast, or
a document that does not pass the validation, rejects `appointment.save()` and gives
the 500 reply with nothing written. -/
def putAppointment (s : Store) (env : Env) (role : Role) (id : ObjectId)
    (body : AppointmentUpdate) : Reply Appointment × Store :=
  match findAppointment s id with
  | none => (.fail 404 "Appointment not found", s)
  | some appointment =>
    let previousStatus := appointment.status
    let newStatus : Option (Option Bool) :=
      if role = .admin ∧ body.status ≠ .undefined then castBoolean body.status
      else some appointment.status
    match newStatus with
    | some status =>
      let saved : Appointment :=
        { appointment with
          status := status
          description := orCurrent body.description appointment.description }
      if validAppointment saved then
        let s1 : Store :=
          { s with appointments := s.appointments.map (fun a => if a.id = id then saved else a) }
        let s2 : Store :=
          if role = .admin ∧ body.status = .bool true ∧ previousStatus = some false then
            autoCreateInvoice s1 env saved
          else s1
        (.json 200 saved, s2)
      else (.fail 500 "Server error", s)
    | none => (.fail 500 "Server error", s)

/-! ## Invoice routes (`routes/invoices.js`) -/

/-- The fee `appointment.status === 'completed' ? 200 : 0` of `POST /generate`:
`status` is a Boolean path, and no Boolean or `null` is strictly equal to a string. -/
def consultationFee (_status : Option Bool) : JsNumber := .finite 0

/-- The list `items` that `POST /api/invoices/generate` builds from the additional
charges, whose amounts are JSON numbers. -/
def generateItems (status : Option Bool) (additionalCharges : List InvoiceItem) :
    List InvoiceItem :=
  let items : List InvoiceItem := [⟨"Appointment Fee", appointmentFee⟩]
  let items :=
    if (consultationFee status).gtZero then
      items ++ [⟨"Consultation Fee", consultationFee status⟩]
    else items
  items ++ additionalCharges

/-- The values `subtotal`, `tax` and `total` of `POST /api/invoices/generate`. -/
def generateTotals (status : Option Bool) (additionalCharges : List InvoiceItem) :
    JsNumber × JsNumber × JsNumber :=
  let subtotal := itemsSubtotal (generateItems status additionalCharges)
  let tax := nanMul subtotal taxRate
  let total := nanAdd subtotal tax
  (subtotal, tax, total)

/-- An entry of `charges` in the body of `PUT /api/invoices/:invoiceId/add-charges`,
as the document array casts it: `amount` is the double it casts to, `none` when it is
missing or does not cast to a number; `description` is `none` when it is missing. -/
structure Charge where
  description : Option String
  amount : Option JsNumber
  deriving DecidableEq

/-- A pushed charge as a valid entry of `items`: the amount is a number and the
required description is present. -/
def castCharge (c : Charge) : Option InvoiceItem :=
  match c.description, c.amount with
  | some d, some a => if d = "" then none else some ⟨d, a⟩
  | _, _ => none

/-- All pushed charges as entries, or `none` when one of them is invalid. -/
def castCharges : List Charge → Option (List InvoiceItem)
  | [] => some []
  | c :: cs =>
    match castCharge c, castCharges cs with
    | some item, some items => some (item :: items)
    | _, _ => none

/-- Handler of `PUT /api/invoices/:invoiceId/add-charges`; `charges` is `none` when
the body has no such array (then `forEach` throws). An invalid charge, a total that is
`NaN` or a stored path that does not pass the validation makes the save reject. All end
in the 500 reply with nothing written. -/
def putAddCharges (s : Store) (env : Env) (invoiceId : ObjectId)
    (charges : Option (List Charge)) : Reply Invoice × Store :=
  match findInvoice s invoiceId with
  | none => (.fail 404 "Invoice not found", s)
  | some invoice =>
    match charges.bind castCharges with
    | none => (.fail 500 "Server error", s)
    | some newItems =>
      let items := invoice.items ++ newItems
      let additionalCharges := invoice.additionalCharges ++ newItems
      let subtotal := itemsSubtotal items
      let tax := nanMul subtotal taxRate
      let total := nanAdd subtotal tax
      let changed : Invoice :=
        { invoice with
          items := items
          additionalCharges := additionalCharges
          subtotal := subtotal
          tax := tax
          total := total }
      match updateInvoiceItems s env changed with
      | some (updatedInvoice, s') => (.json 200 updatedInvoice, s')
      | none => (.fail 500 "Server error", s)

/-- Rounding to two decimal places (halves upward), the `round(x, 2)` of the
specification's `computeInvoiceTotals`; the handlers do not call it. -/
def specRound2 (q : ℚ) : ℚ :=
  (Int.floor (q * 100 + 1 / 2) : ℚ) / 100

/-- The HTTP status of a reply. -/
def Reply.status {α : Type} : Reply α → Nat
  | .json status _ => status
  | .fail status _ => status

/-- Whether a reply is a client error, a status from 400 to 499. -/
def Reply.isClientError {α : Type} (r : Reply α) : Bool :=
  400 ≤ r.status && r.status ≤ 499

/-- The body of a successful reply. -/
def Reply.body? {α : Type} : Reply α → Option α
  | .json _ body => some body
  | .fail _ _ => none

/-- The value `req.user` that the `auth` middleware of `router.use(auth)` attaches to
a request of an authenticated user. Handlers behind the same middleware in
`routes/appointment.js` branch on the roles admin, doctor and patient, so a user of
any role reaches the handlers. -/
structure ReqUser where
  id : ObjectId
  role : Role
  deriving DecidableEq

/-- Handler of `PUT /api/appointment/:id/approve` (it runs behind
`authorize('admin')`): `findByIdAndUpdate(id, { status: true }, { new: true })`. -/
def putApprove (s : Store) (id : ObjectId) : Reply Appointment × Store :=
  match findAppointment s id with
  | none => (.fail 404 "Appointment not found", s)
  | some appointment =>
    let updated : Appointment := { appointment with status := some true }
    (.json 200 updated,
      { s with appointments := s.appointments.map (fun a => if a.id = id then updated else a) })

/-- Body of `POST /api/invoices/generate`; `additionalCharges` defaults to the empty
list and its amounts are JSON numbers. -/
structure GenerateBody where
  appointmentId : ObjectId
  additionalCharges : List InvoiceItem
  deriving DecidableEq

/-- The property `appointment.patient` read by `POST /generate`. The appointment schema
declares the paths `patientId` and `doctorId` and no path `patient`, so there is
nothing for `.populate('patient')` to fill and the property is `undefined`. -/
def Appointment.patient (_appointment : Appointment) : Option Patient := none

/-- The property `appointment.doctor` read by `POST /generate`, `undefined` for the
same reason. -/
def Appointment.doctor (_appointment : Appointment) : Option Doctor := none

/-- The document `new Invoice({...})` of `POST /generate`. -/
def generateInvoice (env : Env) (body : GenerateBody) (status : Option Bool)
    (patient doctor : ObjectId) : Invoice :=
  { id := env.newId
    invoiceNumber := none
    appointment := body.appointmentId
    patient := patient
    doctor := doctor
    items := generateItems status body.additionalCharges
    subtotal := (generateTotals status body.additionalCharges).1
    tax := (generateTotals status body.additionalCharges).2.1
    total := (generateTotals status body.additionalCharges).2.2
    status := "pending"
    appointmentFee := appointmentFee
    consultationFee := consultationFee status
    additionalCharges := body.additionalCharges
    paymentDate := none
    createdAt := env.docNow
    updatedAt := env.docNow }

/-- Handler of `POST /api/invoices/generate`. `strictPopulate` is the Mongoose option
of that name (on by default from Mongoose 6; earlier versions behave as with it off):
when on, populating the undeclared paths rejects the query for a found appointment;
when off, the populate calls do nothing. Reading `_id` of the undefined
`appointment.patient` throws. Both end in the `catch` and its 500 reply. The reply
body is the invoice read back with `findById`. -/
def postGenerate (strictPopulate : Bool) (s : Store) (env : Env) (body : GenerateBody) :
    Reply (Option Invoice) × Store :=
  match findAppointment s body.appointmentId with
  | none => (.fail 404 "Appointment not found", s)
  | some appointment =>
    if strictPopulate then (.fail 500 "Server error", s)
    else
      match findInvoiceByAppointment s body.appointmentId with
      | some _ => (.fail 400 "Invoice already exists for this appointment", s)
      | none =>
        match appointment.patient, appointment.doctor with
        | some patient, some doctor =>
          let invoice := generateInvoice env body appointment.status patient.id doctor.id
          match insertInvoice s invoice with
          | some s' => (.json 201 (findInvoice s' invoice.id), s')
          | none => (.fail 500 "Server error", s)
        | _, _ => (.fail 500 "Server error", s)

/-- Newest first: the order of `.sort('-createdAt')`. -/
def newestFirst (invoices : List Invoice) : List Invoice :=
  invoices.insertionSort (fun a b => a.createdAt ≥ b.createdAt)

/-- Handler of `GET /api/invoices/patient/:patientId` for the authenticated user
`user`, which the handler does not read. -/
def getPatientInvoices (s : Store) (_user : ReqUser) (patientId : ObjectId) :
    Reply (List Invoice) :=
  .json 200 (newestFirst (s.invoices.filter (fun i => i.patient = patientId)))

/-- The profile `Patient.findOne({ user: req.user.id })` of a user. -/
def findPatientByUser (s : Store) (userId : ObjectId) : Option Patient :=
  s.patients.find? (fun p => p.user = userId)

/-- The route `PUT /api/invoices/:invoiceId/add-charges` for the authenticated user
`user`: the handler `putAddCharges`, which does not read `req.user`. -/
def addChargesAs (s : Store) (env : Env) (_user : ReqUser) (invoiceId : ObjectId)
    (charges : Option (List Charge)) : Reply Invoice × Store :=
  putAddCharges s env invoiceId charges

/-- The value under `paymentDate` in the body of the status route: missing or falsy,
a truthy value that casts to a date, or a truthy value that does not. -/
inductive PaymentDate where
  | absent
  | date (t : Int)
  | invalid
  deriving DecidableEq

/-- Body of `PUT /api/invoices/:invoiceId/status`; `status` is a JSON string. -/
structure StatusBody where
  status : String
  paymentDate : PaymentDate
  deriving DecidableEq

/-- `invoice.save()` on a stored document `stored` whose `status` and `paymentDate`
were assigned, giving `changed`: the document is validated, on every loaded path
whether it was changed or not; the hook runs and the stored document with the same
`_id` is replaced. `timestamps` sets `updatedAt` only when the document was modified.
`none` is the rejected promise. -/
def updateInvoiceStatus (s : Store) (env : Env) (stored changed : Invoice) : Option Store :=
  if validInvoice changed then
    let hooked := preSaveInvoice s.invoices.length changed
    let saved := if changed = stored then hooked else { hooked with updatedAt := env.docNow }
    some { s with invoices := s.invoices.map (fun i => if i.id = stored.id then saved else i) }
  else none

/-- The assignments `invoice.status = status` and, for the status `paid` with a truthy
`paymentDate`, `invoice.paymentDate = paymentDate`; `none` when the date does not cast. -/
def assignStatus (invoice : Invoice) (body : StatusBody) : Option Invoice :=
  let withStatus : Invoice := { invoice with status := body.status }
  if body.status = "paid" then
    match body.paymentDate with
    | .absent => some withStatus
    | .date t => some { withStatus with paymentDate := some t }
    | .invalid => none
  else some withStatus

/-- Handler of `PUT /api/invoices/:invoiceId/status` for the authenticated user `user`,
which the handler does not read. A `paymentDate` that does not cast to a date, a
status outside the `enum` or a stored path that does not pass the validation makes the
save reject, which the `catch` answers with 500. -/
def putInvoiceStatus (s : Store) (env : Env) (_user : ReqUser) (invoiceId : ObjectId)
    (body : StatusBody) : Reply String × Store :=
  match findInvoice s invoiceId with
  | none => (.fail 404 "Invoice not found", s)
  | some invoice =>
    match (assignStatus invoice body).bind (updateInvoiceStatus s env invoice) with
    | some s' => (.json 200 "Invoice status updated successfully", s')
    | none => (.fail 500 "Server error", s)

/-- A call of one of the routes that may create an invoice or approve an appointment. -/
inductive Call where
  | update (env : Env) (role : Role) (id : ObjectId) (body : AppointmentUpdate)
  | approve (id : ObjectId)
  | generate (env : Env) (body : GenerateBody)

/-- The store after one call. -/
def step (strictPopulate : Bool) (s : Store) : Call → Store
  | .update env role id body => (putAppointment s env role id body).2
  | .approve id => (putApprove s id).2
  | .generate env body => (postGenerate strictPopulate s env body).2

/-- The store after a sequence of calls, one after the other. -/
def run (strictPopulate : Bool) (s : Store) (calls : List Call) : Store :=
  calls.foldl (step strictPopulate) s

/-- The invoices of an appointment. -/
def invoicesFor (s : Store) (appointment : ObjectId) : List Invoice :=
  s.invoices.filter (fun i => i.appointment = appointment)

/-- The effect of an operation on the invoices: none, or one invoice appended for an
appointment that had none. -/
def AddsAtMostOne (s s' : Store) : Prop :=
  s'.invoices = s.invoices ∨
    ∃ inv, s'.invoices = s.invoices ++ [inv] ∧ invoicesFor s inv.appointment = []

/-! ## Discharge bill and views (`routes/discharge.js`, `routes/patient.js`, `routes/doctor.js`) -/

/-- Newest first: the order of `.sort('-createdAt')` on discharge details. -/
def newestDischargeFirst (docs : List PatientDischargeDetails) : List PatientDischargeDetails :=
  docs.insertionSort (fun a b => a.createdAt ≥ b.createdAt)

/-- The query `PatientDischargeDetails.findOne({ patientId }).sort('-createdAt')`. -/
def latestDischarge (s : Store) (patientId : ObjectId) : Option PatientDischargeDetails :=
  (newestDischargeFirst (s.discharges.filter (fun d => d.patientId = patientId))).head?

/-- The document sent by `GET /api/discharge/:patientId/pdf`: the file name of the
`Content-Disposition` header and the arguments of the `doc.text` calls in order. -/
structure Bill where
  filename : String
  lines : List String
  deriving DecidableEq

/-- The `doc.text` calls of the PDF route; `toDateString` is `Date.prototype.toDateString`
of the server, which depends on its time zone. -/
def renderBill (toDateString : Int → String) (d : PatientDischargeDetails) : Bill :=
  { filename := "bill-" ++ d.patientName ++ ".pdf"
    lines :=
      [ "HOSPITAL BILL",
        "Patient Name: " ++ d.patientName,
        "Assigned Doctor: " ++ d.assignedDoctorName,
        "Address: " ++ d.address,
        "Mobile: " ++ d.mobile,
        "Symptoms: " ++ d.symptoms,
        "Admit Date: " ++ toDateString d.admitDate,
        "Release Date: " ++ toDateString d.releaseDate,
        "Days Spent: " ++ jsNumberString (.finite d.daySpent),
        "BILL DETAILS",
        "Room Charge (" ++ jsNumberString (.finite d.daySpent) ++ " days): $" ++
          jsNumberString d.roomCharge,
        "Medicine Cost: $" ++ jsNumberString d.medicineCost,
        "Doctor Fee: $" ++ jsNumberString d.doctorFee,
        "Other Charges: $" ++ jsNumberString d.otherCharge,
        "TOTAL: $" ++ jsNumberString d.total ] }

/-- The characters that `res.setHeader` accepts in a header value: the tab and the
code units `U+0020` to `U+007E` and `U+0080` to `U+00FF`. -/
def validHeaderChar (c : Char) : Bool :=
  c.val = 0x09 || (0x20 ≤ c.val && c.val ≤ 0x7E) || (0x80 ≤ c.val && c.val ≤ 0xFF)

/-- Whether `res.setHeader` accepts a header value; it throws on any other. -/
def validHeaderValue (value : String) : Bool :=
  value.data.all validHeaderChar

/-- The value of the `Content-Disposition` header of the PDF route. -/
def contentDisposition (d : PatientDischargeDetails) : String :=
  "attachment; filename=bill-" ++ d.patientName ++ ".pdf"

/-- Handler of `GET /api/discharge/:patientId/pdf` (it runs behind
`authorize('admin')`). When `res.setHeader` throws on the `Content-Disposition` value,
nothing has been sent yet and the `catch` answers with 500. -/
def getDischargePdf (toDateString : Int → String) (s : Store) (patientId : ObjectId) :
    Reply Bill :=
  match latestDischarge s patientId with
  | none => .fail 404 "Discharge details not found"
  | some dischargeDetails =>
    if validHeaderValue (contentDisposition dischargeDetails) then
      .json 200 (renderBill toDateString dischargeDetails)
    else .fail 500 "Server error"

/-- The virtual `name` of a patient document loaded without `.populate('user')`:
`this.user` is then an ObjectId, which is truthy and has no properties `firstName`
and `lastName`, so the template string is built from two `undefined`. -/
def Patient.name (_patient : Patient) : String :=
  "undefined" ++ " " ++ "undefined"

/-- The fields `GET /api/patient/discharge` adds for a discharged patient. -/
structure DischargedFields where
  patientId : ObjectId
  patientName : String
  assignedDoctorName : String
  address : String
  mobile : String
  symptoms : String
  admitDate : Int
  releaseDate : Int
  daySpent : Int
  medicineCost : JsNumber
  roomCharge : JsNumber
  doctorFee : JsNumber
  otherCharge : JsNumber
  total : JsNumber
  deriving DecidableEq

/-- The object sent by `GET /api/patient/discharge`. -/
structure DischargeView where
  isDischarged : Bool
  patient : Patient
  fields : Option DischargedFields
  deriving DecidableEq

/-- Handler of `GET /api/patient/discharge` for the authenticated user with the given
id (it runs behind `authorize('patient')`). -/
def getPatientDischarge (s : Store) (userId : ObjectId) : Reply DischargeView :=
  match findPatientByUser s userId with
  | none => .fail 404 "Patient profile not found"
  | some patient =>
    match latestDischarge s patient.id with
    | none => .json 200 { isDischarged := false, patient := patient, fields := none }
    | some dischargeDetails =>
      .json 200
        { isDischarged := true
          patient := patient
          fields := some
            { patientId := patient.id
              patientName := patient.name
              assignedDoctorName := dischargeDetails.assignedDoctorName
              address := patient.address
              mobile := patient.mobile
              symptoms := patient.symptoms
              admitDate := patient.admitDate
              releaseDate := dischargeDetails.releaseDate
              daySpent := dischargeDetails.daySpent
              medicineCost := dischargeDetails.medicineCost
              roomCharge := dischargeDetails.roomCharge
              doctorFee := dischargeDetails.doctorFee
              otherCharge := dischargeDetails.otherCharge
              total := dischargeDetails.total } }

/-- Body of `PUT /api/patient/profile`; each value is a JSON string or absent. -/
structure ProfileBody where
  address : Option String
  mobile : Option String
  symptoms : Option String
  deriving DecidableEq

/-- Handler of `PUT /api/patient/profile` for the authenticated user with the given id
(it runs behind `authorize('patient')`). `patient.save()` validates every loaded path,
changed or not; a value that is empty or longer than its `maxlength` rejects the save,
which the `catch` answers with 500. -/
def putProfile (s : Store) (userId : ObjectId) (body : ProfileBody) : Reply Patient × Store :=
  match findPatientByUser s userId with
  | none => (.fail 404 "Patient profile not found", s)
  | some patient =>
    let changed : Patient :=
      { patient with
        address := orCurrent body.address patient.address
        mobile := orCurrent body.mobile patient.mobile
        symptoms := orCurrent body.symptoms patient.symptoms }
    if validString 40 changed.address && validString 20 changed.mobile &&
        validString 100 changed.symptoms then
      (.json 200 changed,
        { s with patients := s.patients.map (fun p => if p.id = patient.id then changed else p) })
    else (.fail 500 "Server error", s)

/-- The filter `{ patientId: { $exists: true } }`: `patientId` is a required path of the
appointment schema, so every stored appointment has it. -/
def patientIdExists (_appointment : Appointment) : Bool := true

/-- Handler of `DELETE /api/admin/users/:id` for the authenticated admin with id
`adminId` (it runs behind `authorize('admin')`). `findOneAndDelete` and
`findByIdAndDelete` remove the first matching document, `deleteMany` every
appointment matching its filter. -/
def deleteUser (s : Store) (adminId : ObjectId) (id : ObjectId) : Reply String × Store :=
  match findUser s id with
  | none => (.fail 404 "User not found", s)
  | some user =>
    if adminId = id then (.fail 400 "Cannot delete your own account", s)
    else
      let s1 : Store :=
        match user.role with
        | .doctor => { s with doctors := s.doctors.eraseP (fun d => d.user = user.id) }
        | .patient =>
          { s with
            patients := s.patients.eraseP (fun p => p.user = user.id)
            appointments := s.appointments.filter (fun a => !patientIdExists a) }
        | .admin => s
      (.json 200 "User deleted successfully",
        { s1 with users := s1.users.eraseP (fun u => u.id = id) })

/-- The query `PatientDischargeDetails.find({ assignedDoctorName })` with the name built
from `req.user.firstName` and `req.user.lastName`. -/
def dischargesNamed (s : Store) (reqUser : User) : List PatientDischargeDetails :=
  s.discharges.filter (fun d => d.assignedDoctorName = fullName reqUser)

/-- Handler of `GET /api/doctor/discharged-patients` for the authenticated user `reqUser`
(it runs behind `authorize('doctor')`). -/
def getDischargedPatients (s : Store) (reqUser : User) : Reply (List PatientDischargeDetails) :=
  .json 200 (newestDischargeFirst (dischargesNamed s reqUser))

/-- The profile `Doctor.findOne({ user: req.user.id })` of a user. -/
def findDoctorByUser (s : Store) (userId : ObjectId) : Option Doctor :=
  s.doctors.find? (fun d => d.user = userId)

/-- The object sent by `GET /api/doctor/dashboard`. -/
structure DoctorDashboard where
  patientCount : Nat
  appointmentCount : Nat
  patientDischarged : Nat
  appointments : List Appointment
  doctor : Doctor
  deriving DecidableEq

/-- Handler of `GET /api/doctor/dashboard` for the authenticated user `reqUser` (it runs
behind `authorize('doctor')`). -/
def getDoctorDashboard (s : Store) (reqUser : User) : Reply DoctorDashboard :=
  match findDoctorByUser s reqUser.id with
  | none => .fail 404 "Doctor profile not found"
  | some doctor =>
    .json 200
      { patientCount :=
          (s.patients.filter (fun p => p.status && p.assignedDoctorId = some doctor.id)).length
        appointmentCount :=
          (s.appointments.filter
            (fun a => a.status = some true && a.doctorId = doctor.id)).length
        patientDischarged := (dischargesNamed s reqUser).length
        appointments :=
          ((s.appointments.filter (fun a => a.status = some true && a.doctorId = doctor.id)
            ).insertionSort (fun a b => a.createdAt ≥ b.createdAt)).take 10
        doctor := doctor }

/-! ## Invoice numbers over runs -/

/-- The number read from the digits that follow `INV-` in an invoice number. -/
def invoiceNumberValue (number : String) : Option Nat :=
  readDigits 10 (number.data.drop 4) 0 false

/-- An operation that creates an invoice or saves a stored invoice again: a call of a
creating route, `new Invoice(invoice).save()` on the model, or a call of the add-charges
or the status route. -/
inductive InvoiceOp where
  | creating (call : Call)
  | saveNew (invoice : Invoice)
  | addCharges (env : Env) (user : ReqUser) (id : ObjectId) (charges : Option (List Charge))
  | setStatus (env : Env) (user : ReqUser) (id : ObjectId) (body : StatusBody)

/-- The store after one such call. -/
def stepInvoiceOp (strictPopulate : Bool) (s : Store) : InvoiceOp → Store
  | .creating call => step strictPopulate s call
  | .saveNew invoice => (insertInvoice s invoice).getD s
  | .addCharges env user id charges => (addChargesAs s env user id charges).2
  | .setStatus env user id body => (putInvoiceStatus s env user id body).2

/-- The store after a sequence of such calls, one after the other. -/
def runInvoiceOps (strictPopulate : Bool) (s : Store) (ops : List InvoiceOp) : Store :=
  ops.foldl (stepInvoiceOp strictPopulate) s

/-- The pairs of `_id` and `invoiceNumber` of the stored invoices, in store order. -/
def invoiceNumbers (s : Store) : List (ObjectId × Option String) :=
  s.invoices.map (fun i => (i.id, i.invoiceNumber))

/-- A save of a stored invoice replaces it by a document with the same id and number,
or leaves the invoices as they were. -/
def ResavesInvoice (s s' : Store) : Prop :=
  s'.invoices = s.invoices ∨
    ∃ id old inv', findInvoice s id = some old ∧ inv'.id = old.id ∧
      inv'.invoiceNumber = old.invoiceNumber ∧
      s'.invoices = s.invoices.map (fun i => if i.id = id then inv' else i)

/-! ## Sample data -/

/-- A store with two patients admitted at time 0, the first assigned to the one
doctor and the second unassigned, one pending appointment and one invoice. -/
def sampleStore : Store :=
  { users := [⟨1, "Ann", "Lee", .patient⟩, ⟨2, "Bob", "Ray", .doctor⟩, ⟨3, "Cy", "Dow", .patient⟩]
    doctors := [⟨10, 2, true⟩]
    patients := [⟨20, 1, "1 Main St", "555-0100", "cough", some 10, 0, true, 0⟩,
                 ⟨21, 3, "2 Side St", "555-0101", "fever", none, 0, true, 0⟩]
    appointments := [⟨50, 20, 10, "Ann Lee", "Bob Ray", 0, "check-up", some false, 0⟩,
                     ⟨51, 21, 10, "Cy Dow", "Bob Ray", 0, "follow-up", some true, 0⟩]
    invoices := [⟨40, some "INV-000001", 51, 21, 10, [⟨"Appointment Fee", 100⟩], 100, 10, 110,
                  "pending", 100, 0, [], none, 0, 0⟩]
    discharges := [] }

/-- The request of scenario A: rate 50, medicine 20, doctor fee 100, other 10. -/
def bodyA : DischargeBody := ⟨.num 50, .num 20, .num 100, .num 10⟩

/-- Five days after the admission of the sample patients. -/
def envA : Env := ⟨5 * 86400000, 5 * 86400000, 30⟩

/-- The document scenario A stores. -/
def docA : PatientDischargeDetails :=
  { id := 30, patientId := 20, patientName := "Ann Lee", assignedDoctorName := "Bob Ray"
    address := "1 Main St", mobile := "555-0100", symptoms := "cough"
    admitDate := 0, releaseDate := 5 * 86400000, daySpent := 5
    roomCharge := 250, medicineCost := 20, doctorFee := 100, otherCharge := 10
    total := 380, createdAt := 5 * 86400000 }

/-- A request with a decimal rate as the form sends it and a decimal medicine cost
as a JSON number. -/
def bodyDecimal : DischargeBody := ⟨.str "50.5", .num (41 / 2), .num 0, .num 0⟩

/-- Two days after the admission of the sample patients. -/
def envTwoDays : Env := ⟨2 * 86400000, 2 * 86400000, 30⟩

/-- The document stored for `bodyDecimal` after two days. -/
def docDecimal : PatientDischargeDetails :=
  { docA with releaseDate := 2 * 86400000, daySpent := 2, roomCharge := 100, medicineCost := 20
              doctorFee := 0, otherCharge := 0, total := 120, createdAt := 2 * 86400000 }

/-- The instant of admission of the sample patients. -/
def envSameInstant : Env := ⟨0, 0, 30⟩

/-- The document stored when scenario A is requested at the instant of admission. -/
def docSameInstant : PatientDischargeDetails :=
  { docA with releaseDate := 0, daySpent := 0, roomCharge := 0, total := 130, createdAt := 0 }

/-- Three days before the admission of the sample patients. -/
def envBefore : Env := ⟨-(3 * 86400000), -(3 * 86400000), 30⟩

/-- The document stored when scenario A is requested three days before admission. -/
def docBefore : PatientDischargeDetails :=
  { docA with releaseDate := -(3 * 86400000), daySpent := -3, roomCharge := .finite (-150)
              total := .finite (-20), createdAt := -(3 * 86400000) }

/-- A request with a negative medicine cost. -/
def bodyNegative : DischargeBody := ⟨.num 50, .str "-20", .num 100, .num 10⟩

/-- The document stored for `bodyNegative` after five days. -/
def docNegative : PatientDischargeDetails :=
  { docA with medicineCost := .finite (-20), total := 340 }

/-- A request whose doctor fee is not numeric. -/
def bodyNotNumeric : DischargeBody := ⟨.num 50, .num 20, .str "free", .num 10⟩

/-- The charge of scenario D. -/
def chargesD : List Charge := [⟨some "X-ray", some 50⟩]

/-- The invoice of the sample store after scenario D. -/
def invoiceD : Invoice :=
  ⟨40, some "INV-000001", 51, 21, 10, [⟨"Appointment Fee", 100⟩, ⟨"X-ray", 50⟩], 150, 15, 165,
    "pending", 100, 0, [⟨"X-ray", 50⟩], none, 0, 5 * 86400000⟩

/-- The double of the JSON number `0.01`. -/
def cent : JsNumber := .finite (5764607523034235 / 576460752303423488)

/-- A charge of one cent. -/
def chargesCent : List Charge := [⟨some "Swab", some cent⟩]

/-- The invoice of the sample store after a charge of one cent: the subtotal is the
double `100.01`, the tax the double `10.001000000000001` and the total the double
`110.01100000000001`. -/
def invoiceCent : Invoice :=
  ⟨40, some "INV-000001", 51, 21, 10, [⟨"Appointment Fee", 100⟩, ⟨"Swab", cent⟩],
    .finite (7037578105208177 / 70368744177664), .finite (2815031242083271 / 281474976710656),
    .finite (7741335915728995 / 70368744177664), "pending", 100, 0, [⟨"Swab", cent⟩], none, 0,
    5 * 86400000⟩

/-- A charge of one unit. -/
def chargesOne : List Charge := [⟨some "Fee", some 1⟩]

/-- The invoice of the sample store after a charge of one unit: the subtotal is 101,
the tax the double `10.100000000000001` and the total the double `111.1`. -/
def invoiceOne : Invoice :=
  ⟨40, some "INV-000001", 51, 21, 10, [⟨"Appointment Fee", 100⟩, ⟨"Fee", 1⟩],
    101, .finite (1421448632388813 / 140737488355328),
    .finite (3908983739069235 / 35184372088832), "pending", 100, 0, [⟨"Fee", 1⟩], none, 0,
    5 * 86400000⟩

/-- The sample appointment 50 once approved. -/
def approved50 : Appointment := ⟨50, 20, 10, "Ann Lee", "Bob Ray", 0, "check-up", some true, 0⟩

/-- The invoice of the sample store. -/
def invoice40 : Invoice :=
  ⟨40, some "INV-000001", 51, 21, 10, [⟨"Appointment Fee", 100⟩], 100, 10, 110,
    "pending", 100, 0, [], none, 0, 0⟩

/-- The sample invoice once marked paid with a payment date. -/
def invoicePaid : Invoice :=
  { invoice40 with status := "paid", paymentDate := some 1000, updatedAt := 5 * 86400000 }

/-- The sample invoice once marked paid without a payment date. -/
def invoicePaidUndated : Invoice :=
  { invoice40 with status := "paid", updatedAt := 5 * 86400000 }

/-- The sample invoice once marked overdue. -/
def invoiceOverdue : Invoice :=
  { invoice40 with status := "overdue", updatedAt := 5 * 86400000 }

/-- The sample store in which the one item of the invoice has lost its description. -/
def storeBrokenInvoice : Store :=
  { sampleStore with invoices := [{ invoice40 with items := [⟨"", 100⟩] }] }

/-- The patient user of the sample store whose profile is patient 20. -/
def userAnn : ReqUser := ⟨1, .patient⟩

/-- The doctor user of the sample store. -/
def userBob : ReqUser := ⟨2, .doctor⟩

/-- An admin user. -/
def userAdmin : ReqUser := ⟨9, .admin⟩

/-- A run on the approved sample appointment 51, which has an invoice: it is approved
again, reset, approved once more through both routes, and an invoice is requested. -/
def sampleCalls : List Call :=
  [.update envA .admin 51 ⟨none, .bool true⟩, .update envA .admin 51 ⟨none, .bool false⟩,
   .update envA .admin 51 ⟨none, .bool true⟩, .approve 51, .generate envA ⟨51, []⟩]

/-- The sample store after scenario A, the discharge of patient 20. -/
def storeAfterA : Store := { sampleStore with discharges := [docA] }

/-- The body by which the sample patient moves to a new address. -/
def bodyMove : ProfileBody := ⟨some "9 New Rd", none, none⟩

/-- The sample patient 20 after the move. -/
def patientMoved : Patient := ⟨20, 1, "9 New Rd", "555-0100", "cough", some 10, 0, true, 0⟩

/-- The store after scenario A and the move. -/
def storeMoved : Store :=
  { storeAfterA with
    patients := [patientMoved, ⟨21, 3, "2 Side St", "555-0101", "fever", none, 0, true, 0⟩] }

/-- A later discharge document of the sample patient 20. -/
def docLater : PatientDischargeDetails :=
  { docA with id := 31, releaseDate := 6 * 86400000, daySpent := 6, roomCharge := 300
              total := 430, createdAt := 6 * 86400000 }

/-- A store in which the sample patient 20 has two discharge documents. -/
def storeTwoDischarges : Store := { sampleStore with discharges := [docLater, docA] }

/-- The sample store in which the first patient is called Łukasz Nowak. -/
def storeNowak : Store :=
  { sampleStore with
    users := [⟨1, "Łukasz", "Nowak", .patient⟩, ⟨2, "Bob", "Ray", .doctor⟩,
              ⟨3, "Cy", "Dow", .patient⟩] }

/-- The document scenario A stores for that patient. -/
def docNowak : PatientDischargeDetails := { docA with patientName := "Łukasz Nowak" }

/-- The store after scenario A for that patient. -/
def storeNowakAfter : Store := { storeNowak with discharges := [docNowak] }

/-- A stand-in for the date formatting of the server. -/
def sampleDate (t : Int) : String := "day " ++ jsNumberString (.finite (t / 86400000 : Int))

/-- The sample store with a second doctor who is also called Bob Ray. -/
def storeTwoBobs : Store :=
  { sampleStore with
    users := sampleStore.users ++ [⟨4, "Bob", "Ray", .doctor⟩]
    doctors := sampleStore.doctors ++ [⟨11, 4, true⟩] }

/-- The second doctor called Bob Ray, as `req.user`. -/
def secondBob : User := ⟨4, "Bob", "Ray", .doctor⟩

/-- The sample store without its invoice. -/
def storeNoInvoices : Store := { sampleStore with invoices := [] }

/-- A new invoice document for the sample appointment 50 that carries the number
`INV-000007`. -/
def invoiceSeven : Invoice :=
  { invoice40 with id := 60, invoiceNumber := some "INV-000007", appointment := 50, patient := 20 }

/-- Another new document with the same number. -/
def invoiceSevenAgain : Invoice := { invoiceSeven with id := 61, appointment := 51, patient := 21 }

/-- A new invoice document for the sample appointment 51 that carries the number
`INV-000003`. -/
def invoiceThree : Invoice :=
  { invoice40 with id := 62, invoiceNumber := some "INV-000003" }

/-- A run that saves new documents, saves stored invoices again and approves. -/
def sampleSaves : List InvoiceOp :=
  [.saveNew invoiceSeven, .saveNew invoiceSevenAgain, .saveNew invoiceThree,
   .saveNew (approvalInvoice envA approved50), .addCharges envA userBob 60 (some chargesD),
   .setStatus envA userAdmin 62 ⟨"paid", .date 1000⟩,
   .creating (.update envA .admin 50 ⟨none, .bool true⟩), .creating (.generate envA ⟨50, []⟩)]


/-! ## Lemmas on decimal strings -/

theorem digitValue_digitChar (m : Nat) (h : m < 10) :
    digitValue 10 (Nat.digitChar m) = some m := by
  interval_cases m <;> decide

theorem toDigitsCore_spec (fuel : Nat) : ∀ (n : Nat) (ds : List Char), n < fuel →
    ∃ digs : List Char, Nat.toDigitsCore 10 fuel n ds = digs ++ ds ∧ digs ≠ [] ∧
      n < 10 ^ digs.length ∧
      (∀ c ∈ digs, ∃ d, d < 10 ∧ c = Nat.digitChar d) ∧
      (∀ acc seen rest, readDigits 10 (digs ++ rest) acc seen =
        readDigits 10 rest (acc * 10 ^ digs.length + n) true) := by
  induction fuel with
  | zero => intro n ds h; omega
  | succ fuel ih =>
    intro n ds h
    unfold Nat.toDigitsCore
    simp only
    by_cases hz : n / 10 = 0
    · have hn : n < 10 := by omega
      rw [if_pos hz]
      refine ⟨[Nat.digitChar (n % 10)], rfl, by simp, by simpa using hn, ?_, ?_⟩
      · intro c hc
        simp only [List.mem_singleton] at hc
        exact ⟨n % 10, Nat.mod_lt _ (by decide), hc⟩
      · intro acc seen rest
        have hv := digitValue_digitChar (n % 10) (Nat.mod_lt _ (by decide))
        simp only [List.singleton_append, readDigits, hv, List.length_singleton, pow_one]
        rw [Nat.mod_eq_of_lt hn]
        rfl
    · rw [if_neg hz]
      obtain ⟨digs, hd, hne, hlt, hall, hread⟩ :=
        ih (n / 10) (Nat.digitChar (n % 10) :: ds) (by omega)
      refine ⟨digs ++ [Nat.digitChar (n % 10)], ?_, by simp, ?_, ?_, ?_⟩
      · rw [hd]; simp
      · rw [List.length_append, List.length_singleton, pow_succ]
        omega
      · intro c hc
        rcases List.mem_append.mp hc with hc | hc
        · exact hall c hc
        · simp only [List.mem_singleton] at hc
          exact ⟨n % 10, Nat.mod_lt _ (by decide), hc⟩
      · intro acc seen rest
        have hv := digitValue_digitChar (n % 10) (Nat.mod_lt _ (by decide))
        rw [List.append_assoc, hread]
        simp only [List.singleton_append, readDigits, hv, List.length_append,
          List.length_singleton, pow_succ]
        congr 1
        have := Nat.div_add_mod n 10
        nlinarith [this]

/-- The decimal digits of a natural number read back as that number, also after
leading zeros, and none of them is anything but a digit. -/
theorem toString_nat_spec (n : Nat) :
    (toString n).data ≠ [] ∧ n < 10 ^ (toString n).length ∧
    (∀ c ∈ (toString n).data, ∃ d, d < 10 ∧ c = Nat.digitChar d) ∧
    (∀ acc seen rest, readDigits 10 ((toString n).data ++ rest) acc seen =
      readDigits 10 rest (acc * 10 ^ (toString n).length + n) true) := by
  obtain ⟨digs, hd, hne, hlt, hall, hread⟩ := toDigitsCore_spec (n + 1) n [] (by omega)
  have hdata : (toString n).data = digs := by
    show (Nat.toDigits 10 n).asString.data = digs
    simp only [Nat.toDigits, hd, List.append_nil, List.asString]
  have hlen : (toString n).length = digs.length := by
    rw [String.length, hdata]
  rw [hdata, hlen]
  exact ⟨hne, hlt, hall, hread⟩


theorem isDigit_digitChar (d : Nat) (h : d < 10) : (Nat.digitChar d).isDigit = true := by
  interval_cases d <;> decide

theorem readDigits_zeros (n k : Nat) (seen : Bool) :
    readDigits 10 (List.replicate k '0' ++ (toString n).data) 0 seen = some n := by
  induction k generalizing seen with
  | zero =>
    have h := (toString_nat_spec n).2.2.2 0 seen []
    simp only [List.append_nil, Nat.zero_mul, Nat.zero_add] at h
    simpa [readDigits] using h
  | succ k ih =>
    have hv : digitValue 10 '0' = some 0 := by decide
    simp only [List.replicate_succ, List.cons_append, readDigits, hv]
    exact ih true

theorem digitChar_not_special (d : Nat) (h : d < 10) :
    Nat.digitChar d ≠ 'x' ∧ Nat.digitChar d ≠ 'X' ∧ Nat.digitChar d ≠ '-' ∧
    Nat.digitChar d ≠ '+' ∧ isJsWhiteSpace (Nat.digitChar d) = false := by
  interval_cases d <;> decide

theorem parseUnsigned_toString (n : Nat) : parseUnsigned (toString n).data = some n := by
  obtain ⟨-, -, hall, hread⟩ := toString_nat_spec n
  have hval : readDigits 10 (toString n).data 0 false = some n := by
    have h := hread 0 false []
    simp only [List.append_nil, Nat.zero_mul, Nat.zero_add] at h
    simpa [readDigits] using h
  unfold parseUnsigned
  split
  · rename_i cs heq
    exfalso
    obtain ⟨d, hd, hx⟩ := hall 'x' (by rw [heq]; simp)
    exact (digitChar_not_special d hd).1 hx.symm
  · rename_i cs heq
    exfalso
    obtain ⟨d, hd, hx⟩ := hall 'X' (by rw [heq]; simp)
    exact (digitChar_not_special d hd).2.1 hx.symm
  · exact hval

theorem dropWhile_toString (n : Nat) :
    (toString n).data.dropWhile isJsWhiteSpace = (toString n).data := by
  obtain ⟨hne, -, hall, -⟩ := toString_nat_spec n
  cases hcs : (toString n).data with
  | nil => exact absurd hcs hne
  | cons c rest =>
    obtain ⟨d, hd, hc⟩ := hall c (by rw [hcs]; simp)
    have hw : isJsWhiteSpace c = false := by
      rw [hc]
      exact (digitChar_not_special d hd).2.2.2.2
    simp [List.dropWhile, hw]


/-- The decimal string of an integer reads back, with `parseInt`, as that integer. -/
theorem parseIntChars_intString (n : Int) :
    parseIntChars ((if n < 0 then "-" else "") ++ toString n.natAbs).data = some n := by
  obtain ⟨hne, -, hall, -⟩ := toString_nat_spec n.natAbs
  split
  · rename_i hneg
    have hdata : ("-" ++ toString n.natAbs).data = '-' :: (toString n.natAbs).data := by
      simp [String.data_append]
    rw [hdata]
    unfold parseIntChars
    have hw : isJsWhiteSpace '-' = false := by decide
    simp only [List.dropWhile, hw, parseUnsigned_toString, Option.map_some']
    have : -(n.natAbs : Int) = n := by omega
    simpa using this
  · rename_i hpos
    have hdata : ("" ++ toString n.natAbs).data = (toString n.natAbs).data := by
      simp [String.data_append]
    rw [hdata]
    unfold parseIntChars
    rw [dropWhile_toString]
    split
    · rename_i rest heq
      exfalso
      obtain ⟨d, hd, hx⟩ := hall '-' (by rw [heq]; simp)
      exact (digitChar_not_special d hd).2.2.1 hx.symm
    · rename_i rest heq
      exfalso
      obtain ⟨d, hd, hx⟩ := hall '+' (by rw [heq]; simp)
      exact (digitChar_not_special d hd).2.2.2.1 hx.symm
    · simp only [parseUnsigned_toString, Option.map_some']
      have : (n.natAbs : Int) = n := by omega
      simpa using this

/-! ## Lemmas on doubles -/

theorem roundHalfEven_one (x : Nat) : roundHalfEven x 1 = x := by
  simp [roundHalfEven, Nat.mod_one]

theorem log2Fuel_eq (fuel : Nat) : ∀ n, n ≤ fuel → log2Fuel fuel n = Nat.log2 n := by
  induction fuel with
  | zero =>
    intro n h
    have h0 : n = 0 := by omega
    subst h0
    rw [Nat.log2]
    simp [log2Fuel]
  | succ fuel ih =>
    intro n h
    rw [Nat.log2]
    unfold log2Fuel
    by_cases h2 : 2 ≤ n
    · rw [if_pos h2, if_pos h2, ih (n / 2) (by omega)]
    · rw [if_neg h2, if_neg h2]

theorem natLog2_eq (n : Nat) : natLog2 n = Nat.log2 n :=
  log2Fuel_eq n n (Nat.le_refl n)

theorem floorLog2_one (a : Nat) (ha : a ≠ 0) : floorLog2 a 1 = (Nat.log2 a : Int) := by
  have hself : 2 ^ Nat.log2 a ≤ a := Nat.log2_self_le ha
  have h1 : Nat.log2 1 = 0 := by decide!
  unfold floorLog2
  rw [natLog2_eq, natLog2_eq]
  simp only [h1, Nat.cast_zero, sub_zero, Nat.cast_nonneg, if_true, Int.toNat_ofNat, one_mul,
    hself]

/-- An integer of magnitude at most `2 ^ 53` is a double. -/
theorem toDouble_intCast (n : Int) (h : n.natAbs ≤ 2 ^ 53) :
    toDouble (n : ℚ) = .finite (n : ℚ) := by
  by_cases h0 : n = 0
  · subst h0
    simp [toDouble]
  · have ha : n.natAbs ≠ 0 := Int.natAbs_ne_zero.mpr h0
    have hq : (n : ℚ) ≠ 0 := by exact_mod_cast h0
    have hself : 2 ^ Nat.log2 n.natAbs ≤ n.natAbs := Nat.log2_self_le ha
    have hlog : Nat.log2 n.natAbs < 54 := (Nat.log2_lt ha).mpr (by omega)
    have hsign : (if (n : ℚ) < 0 then -((n.natAbs : ℕ) : ℚ) else ((n.natAbs : ℕ) : ℚ)) = (n : ℚ) := by
      split
      · rename_i hneg
        have : n < 0 := by exact_mod_cast hneg
        rw [Nat.cast_natAbs, abs_of_neg this]
        push_cast
        ring
      · rename_i hpos
        have : ¬ n < 0 := by exact_mod_cast hpos
        rw [Nat.cast_natAbs, abs_of_nonneg (by omega)]
    unfold toDouble
    rw [if_neg hq]
    simp only [Rat.num_intCast, Rat.den_intCast, floorLog2_one _ ha]
    by_cases hk : (0 : Int) ≤ max ((Nat.log2 n.natAbs : Int) - 52) (-1074)
    · rw [if_pos hk]
      have hmax : max ((Nat.log2 n.natAbs : Int) - 52) (-1074) = (Nat.log2 n.natAbs : Int) - 52 := by
        omega
      rw [hmax] at hk ⊢
      have hcase : Nat.log2 n.natAbs = 52 ∨ Nat.log2 n.natAbs = 53 := by omega
      rcases hcase with h52 | h53
      · have hm : roundHalfEven n.natAbs (1 * 2 ^ ((52 : Int) - 52).toNat) * 2 ^ ((52 : Int) - 52).toNat
            = n.natAbs := by
          simp [roundHalfEven_one]
        rw [h52]
        simp only [Nat.cast_ofNat]
        rw [hm]
        have hsmall : ¬ 2 ^ 1024 ≤ n.natAbs := by
          have : (2 : Nat) ^ 53 < 2 ^ 1024 := by norm_num
          omega
        rw [if_neg hsmall, hsign]
      · have hval : n.natAbs = 2 ^ 53 := by
          rw [h53] at hself
          omega
        have hm : roundHalfEven n.natAbs (1 * 2 ^ ((53 : Int) - 52).toNat) * 2 ^ ((53 : Int) - 52).toNat
            = n.natAbs := by
          rw [hval]
          decide
        rw [h53]
        simp only [Nat.cast_ofNat]
        rw [hm]
        have hsmall : ¬ 2 ^ 1024 ≤ n.natAbs := by
          have : (2 : Nat) ^ 53 < 2 ^ 1024 := by norm_num
          omega
        rw [if_neg hsmall, hsign]
    · rw [if_neg hk]
      have hmax : max ((Nat.log2 n.natAbs : Int) - 52) (-1074) = (Nat.log2 n.natAbs : Int) - 52 := by
        omega
      rw [hmax]
      rw [roundHalfEven_one]
      have hpow : ((2 ^ (-((Nat.log2 n.natAbs : Int) - 52)).toNat : ℕ) : ℚ) ≠ 0 := by
        positivity
      have hdiv : ((n.natAbs * 2 ^ (-((Nat.log2 n.natAbs : Int) - 52)).toNat : ℕ) : ℚ) /
          ((2 ^ (-((Nat.log2 n.natAbs : Int) - 52)).toNat : ℕ) : ℚ) = ((n.natAbs : ℕ) : ℚ) := by
        rw [Nat.cast_mul]
        field_simp
      rw [hdiv, hsign]

/-- The string of an integer of magnitude at most `2 ^ 53` is its decimal string. -/
theorem jsNumberString_intCast (n : Int) (h : n.natAbs ≤ 2 ^ 53) :
    jsNumberString (.finite (n : ℚ)) = (if n < 0 then "-" else "") ++ toString n.natAbs := by
  unfold jsNumberString
  by_cases h0 : n = 0
  · subst h0
    decide
  · have hq : (n : ℚ) ≠ 0 := by exact_mod_cast h0
    have hlt : ((n : ℚ) < 0) = (n < 0) := by simp
    simp only [if_neg hq, Rat.num_intCast, Rat.den_intCast, h, and_self, if_true, hlt]

/-- The function `parseInt` gives an integer of magnitude at most `2 ^ 53` that is sent
as a JSON number back unchanged. -/
theorem parseInt_num_intCast (n : Int) (h : n.natAbs ≤ 2 ^ 53) :
    parseInt (.num (n : ℚ)) = .finite (n : ℚ) := by
  simp only [parseInt, toDouble_intCast n h, jsNumberString_intCast n h, parseIntString,
    parseIntChars_intString]

theorem nanAdd_intCast (a b : Int) (h : (a + b).natAbs ≤ 2 ^ 53) :
    nanAdd (.finite (a : ℚ)) (.finite (b : ℚ)) = .finite ((a + b : Int) : ℚ) := by
  simp only [nanAdd]
  rw [← Int.cast_add]
  exact toDouble_intCast _ h

theorem nanMul_intCast (a b : Int) (h : (a * b).natAbs ≤ 2 ^ 53) :
    nanMul (.finite (a : ℚ)) (.finite (b : ℚ)) = .finite ((a * b : Int) : ℚ) := by
  simp only [nanMul]
  rw [← Int.cast_mul]
  exact toDouble_intCast _ h

theorem nanAdd_nan_left (b : JsNumber) : nanAdd .nan b = .nan := by
  cases b <;> rfl

theorem nanAdd_nan_right (a : JsNumber) : nanAdd a .nan = .nan := by
  cases a <;> rfl

theorem nanMul_nan_left (b : JsNumber) : nanMul .nan b = .nan := by
  cases b <;> rfl

theorem toDouble_ne_nan (q : ℚ) : toDouble q ≠ .nan := by
  unfold toDouble
  split
  · simp
  · simp only
    split
    · split <;> simp
    · simp


/-! ## The rounding error of a double -/

theorem roundHalfEven_error (num den : Nat) (hden : 0 < den) :
    |((roundHalfEven num den : Nat) : ℚ) - (num : ℚ) / (den : ℚ)| ≤ 1 / 2 := by
  have hd : (0 : ℚ) < (den : ℚ) := by exact_mod_cast hden
  have hdiv : (num : ℚ) / (den : ℚ) = ((num / den : Nat) : ℚ) + ((num % den : Nat) : ℚ) / (den : ℚ) := by
    have h := Nat.div_add_mod num den
    have h' : ((den * (num / den) + num % den : Nat) : ℚ) = (num : ℚ) := by rw [h]
    push_cast at h'
    field_simp
    linarith
  have hr : ((num % den : Nat) : ℚ) < (den : ℚ) := by exact_mod_cast Nat.mod_lt num hden
  have hr0 : (0 : ℚ) ≤ ((num % den : Nat) : ℚ) := by positivity
  rw [hdiv]
  unfold roundHalfEven
  simp only
  have key1 : 2 * (num % den) < den →
      |((num / den : Nat) : ℚ) - (((num / den : Nat) : ℚ) + ((num % den : Nat) : ℚ) / (den : ℚ))|
        ≤ 1 / 2 := by
    intro h1
    have h1' : 2 * ((num % den : Nat) : ℚ) < (den : ℚ) := by exact_mod_cast h1
    rw [abs_le]
    constructor
    · have : ((num % den : Nat) : ℚ) / (den : ℚ) ≤ 1 / 2 := by
        rw [div_le_iff₀ hd]; linarith
      linarith
    · have : 0 ≤ ((num % den : Nat) : ℚ) / (den : ℚ) := by positivity
      linarith
  have key2 : den ≤ 2 * (num % den) →
      |((num / den + 1 : Nat) : ℚ) - (((num / den : Nat) : ℚ) + ((num % den : Nat) : ℚ) / (den : ℚ))|
        ≤ 1 / 2 := by
    intro h1
    have h1' : (den : ℚ) ≤ 2 * ((num % den : Nat) : ℚ) := by exact_mod_cast h1
    push_cast
    rw [abs_le]
    constructor
    · have : ((num % den : Nat) : ℚ) / (den : ℚ) ≤ 1 := by
        rw [div_le_iff₀ hd]; linarith
      push_cast at this
      linarith
    · have : 1 / 2 ≤ ((num % den : Nat) : ℚ) / (den : ℚ) := by
        rw [le_div_iff₀ hd]; linarith
      push_cast at this
      linarith
  have key3 : 2 * (num % den) ≤ den →
      |((num / den : Nat) : ℚ) - (((num / den : Nat) : ℚ) + ((num % den : Nat) : ℚ) / (den : ℚ))|
        ≤ 1 / 2 := by
    intro h1
    have h1' : 2 * ((num % den : Nat) : ℚ) ≤ (den : ℚ) := by exact_mod_cast h1
    rw [abs_le]
    constructor
    · have : ((num % den : Nat) : ℚ) / (den : ℚ) ≤ 1 / 2 := by
        rw [div_le_iff₀ hd]; linarith
      linarith
    · have : 0 ≤ ((num % den : Nat) : ℚ) / (den : ℚ) := by positivity
      linarith
  by_cases c1 : 2 * (num % den) < den
  · rw [if_pos c1]
    exact key1 c1
  · rw [if_neg c1]
    by_cases c2 : den < 2 * (num % den)
    · rw [if_pos c2]
      exact key2 (by omega)
    · rw [if_neg c2]
      split
      · exact key3 (by omega)
      · exact key2 (by omega)

/-- The exponent found by `floorLog2` is not above the binary logarithm. -/
theorem floorLog2_le (n d : Nat) (hn : 0 < n) (hd : 0 < d) :
    (2 : ℚ) ^ (floorLog2 n d) ≤ (n : ℚ) / (d : ℚ) := by
  have hdq : (0 : ℚ) < (d : ℚ) := by exact_mod_cast hd
  have hn1 : 2 ^ Nat.log2 n ≤ n := Nat.log2_self_le (by omega)
  have hd1 : d < 2 ^ (Nat.log2 d + 1) := by
    have := (Nat.log2_lt (n := d) (k := Nat.log2 d + 1) (by omega)).mp (by omega)
    exact this
  have hn1q : (2 : ℚ) ^ (Nat.log2 n) ≤ (n : ℚ) := by exact_mod_cast hn1
  have hd1q : (d : ℚ) < (2 : ℚ) ^ (Nat.log2 d + 1) := by exact_mod_cast hd1
  have two_pos : (0 : ℚ) < 2 := by norm_num
  have hlow : (2 : ℚ) ^ (((Nat.log2 n : Int) - (Nat.log2 d : Int)) - 1) ≤ (n : ℚ) / (d : ℚ) := by
    rw [le_div_iff₀ hdq]
    have e1 : (2 : ℚ) ^ (((Nat.log2 n : Int) - (Nat.log2 d : Int)) - 1) *
        (2 : ℚ) ^ ((Nat.log2 d : Int) + 1) = (2 : ℚ) ^ (Nat.log2 n : Int) := by
      rw [← zpow_add₀ (by norm_num : (2 : ℚ) ≠ 0)]
      congr 1
      ring
    have e2 : (2 : ℚ) ^ ((Nat.log2 d : Int) + 1) = (2 : ℚ) ^ (Nat.log2 d + 1) := by
      rw [← zpow_natCast]
      push_cast
      rfl
    have e3 : (2 : ℚ) ^ (Nat.log2 n : Int) = (2 : ℚ) ^ (Nat.log2 n) := zpow_natCast _ _
    have hp : (0 : ℚ) < (2 : ℚ) ^ (((Nat.log2 n : Int) - (Nat.log2 d : Int)) - 1) :=
      zpow_pos two_pos _
    calc (2 : ℚ) ^ (((Nat.log2 n : Int) - (Nat.log2 d : Int)) - 1) * (d : ℚ)
        ≤ (2 : ℚ) ^ (((Nat.log2 n : Int) - (Nat.log2 d : Int)) - 1) *
            (2 : ℚ) ^ ((Nat.log2 d : Int) + 1) := by
          rw [e2]
          exact mul_le_mul_of_nonneg_left hd1q.le hp.le
      _ = (2 : ℚ) ^ (Nat.log2 n) := by rw [e1, e3]
      _ ≤ (n : ℚ) := hn1q
  unfold floorLog2
  rw [natLog2_eq, natLog2_eq]
  simp only
  by_cases h0 : (0 : Int) ≤ (Nat.log2 n : Int) - (Nat.log2 d : Int)
  · rw [if_pos h0]
    by_cases h1 : d * 2 ^ ((Nat.log2 n : Int) - (Nat.log2 d : Int)).toNat ≤ n
    · rw [if_pos h1]
      rw [le_div_iff₀ hdq]
      have h1q : ((d * 2 ^ ((Nat.log2 n : Int) - (Nat.log2 d : Int)).toNat : Nat) : ℚ) ≤ (n : ℚ) := by
        exact_mod_cast h1
      have e : (2 : ℚ) ^ ((Nat.log2 n : Int) - (Nat.log2 d : Int)) =
          (2 : ℚ) ^ (((Nat.log2 n : Int) - (Nat.log2 d : Int)).toNat) := by
        rw [← zpow_natCast, Int.toNat_of_nonneg h0]
      rw [e]
      push_cast at h1q
      linarith
    · rw [if_neg h1]
      exact hlow
  · rw [if_neg h0]
    by_cases h1 : d ≤ n * 2 ^ (-((Nat.log2 n : Int) - (Nat.log2 d : Int))).toNat
    · rw [if_pos h1]
      rw [le_div_iff₀ hdq]
      have h1q : (d : ℚ) ≤ ((n * 2 ^ (-((Nat.log2 n : Int) - (Nat.log2 d : Int))).toNat : Nat) : ℚ) := by
        exact_mod_cast h1
      have hneg : (0 : Int) ≤ -((Nat.log2 n : Int) - (Nat.log2 d : Int)) := by omega
      have e : (2 : ℚ) ^ ((Nat.log2 n : Int) - (Nat.log2 d : Int)) =
          ((2 : ℚ) ^ ((-((Nat.log2 n : Int) - (Nat.log2 d : Int))).toNat))⁻¹ := by
        rw [← zpow_natCast, Int.toNat_of_nonneg hneg, zpow_neg, inv_inv]
      rw [e]
      push_cast at h1q
      have hp : (0 : ℚ) < (2 : ℚ) ^ ((-((Nat.log2 n : Int) - (Nat.log2 d : Int))).toNat) := by
        positivity
      rw [inv_mul_le_iff₀ hp]
      linarith
    · rw [if_neg h1]
      exact hlow


theorem abs_eq_natAbs_div_den (q : ℚ) : |q| = (q.num.natAbs : ℚ) / (q.den : ℚ) := by
  have h := Rat.num_div_den q
  have hd : (0 : ℚ) < (q.den : ℚ) := by exact_mod_cast q.den_pos
  conv_lhs => rw [← h]
  rw [abs_div, abs_of_pos hd, Nat.cast_natAbs, Int.cast_abs]

theorem abs_scale_up (r n d p : ℚ) (hd : 0 < d) (hp : 0 < p)
    (hr : |r - n / (d * p)| ≤ 1 / 2) : |r * p - n / d| ≤ p / 2 := by
  have e : r * p - n / d = (r - n / (d * p)) * p := by
    field_simp
    ring
  rw [e, abs_mul, abs_of_pos hp]
  calc |r - n / (d * p)| * p ≤ 1 / 2 * p := mul_le_mul_of_nonneg_right hr hp.le
    _ = p / 2 := by ring

theorem abs_scale_down (r n d p : ℚ) (hd : 0 < d) (hp : 0 < p)
    (hr : |r - n * p / d| ≤ 1 / 2) : |r / p - n / d| ≤ p⁻¹ / 2 := by
  have e : r / p - n / d = (r - n * p / d) * p⁻¹ := by
    field_simp
    ring
  rw [e, abs_mul, abs_of_pos (inv_pos.mpr hp)]
  calc |r - n * p / d| * p⁻¹ ≤ 1 / 2 * p⁻¹ :=
        mul_le_mul_of_nonneg_right hr (inv_pos.mpr hp).le
    _ = p⁻¹ / 2 := by ring

/-- The distance of a number from its double, when the double is finite: the relative
error is at most `2 ^ -53`, apart from the absolute error `2 ^ -1075` of the subnormal
range. -/
theorem toDouble_error (q v : ℚ) (h : toDouble q = .finite v) :
    |v - q| ≤ |q| / 2 ^ 53 + 1 / 2 ^ 1075 := by
  by_cases h0 : q = 0
  · subst h0
    simp only [toDouble, if_true, JsNumber.finite.injEq] at h
    subst h
    norm_num
  · have hn : 0 < q.num.natAbs := Int.natAbs_pos.mpr (Rat.num_ne_zero.mpr h0)
    have hd : 0 < q.den := q.den_pos
    have hdq : (0 : ℚ) < (q.den : ℚ) := by exact_mod_cast hd
    have habs := abs_eq_natAbs_div_den q
    have hle := floorLog2_le q.num.natAbs q.den hn hd
    rw [← habs] at hle
    have two_pos : (0 : ℚ) < 2 := by norm_num
    -- the bound for the chosen exponent
    have hk : ∀ k : Int, k = max (floorLog2 q.num.natAbs q.den - 52) (-1074) →
        (2 : ℚ) ^ k / 2 ≤ |q| / 2 ^ 53 + 1 / 2 ^ 1075 := by
      intro k hk
      have h1 : (2 : ℚ) ^ (floorLog2 q.num.natAbs q.den - 52) / 2 ≤ |q| / 2 ^ 53 := by
        rw [zpow_sub₀ (by norm_num : (2 : ℚ) ≠ 0)]
        have e52 : (2 : ℚ) ^ (52 : Int) = 2 ^ 52 := by norm_num
        rw [e52, div_div]
        have : (2 : ℚ) ^ 52 * 2 = 2 ^ 53 := by norm_num
        rw [this]
        exact div_le_div_of_nonneg_right hle (by positivity)
      have h2 : (2 : ℚ) ^ (-1074 : Int) / 2 = 1 / 2 ^ 1075 := by
        rw [zpow_neg]
        have e : (2 : ℚ) ^ (1074 : Int) = 2 ^ 1074 := by norm_num
        rw [e]
        have e' : (2 : ℚ) ^ 1075 = 2 ^ 1074 * 2 := by rw [pow_succ]
        rw [e']
        field_simp
      have hq0 : (0 : ℚ) ≤ |q| / 2 ^ 53 := by positivity
      have hq1 : (0 : ℚ) ≤ 1 / 2 ^ 1075 := by positivity
      rcases max_cases (floorLog2 q.num.natAbs q.den - 52) (-1074) with ⟨hm, -⟩ | ⟨hm, -⟩
      · rw [hk, hm]; linarith
      · rw [hk, hm, h2]; linarith
    -- the value found is within half of `2 ^ k` of `|q|`
    have hsign : ∀ x : ℚ, |x - abs q| ≤ |q| / 2 ^ 53 + 1 / 2 ^ 1075 →
        |(if q < 0 then -x else x) - q| ≤ |q| / 2 ^ 53 + 1 / 2 ^ 1075 := by
      intro x hx
      split
      · rename_i hneg
        have : |q| = -q := abs_of_neg hneg
        rw [this] at hx ⊢
        have e : -x - q = -(x - -q) := by ring
        rw [e, abs_neg]
        exact hx
      · rename_i hpos
        have : |q| = q := abs_of_nonneg (not_lt.mp hpos)
        rw [this] at hx ⊢
        exact hx
    unfold toDouble at h
    rw [if_neg h0] at h
    simp only at h
    by_cases hkk : (0 : Int) ≤ max (floorLog2 q.num.natAbs q.den - 52) (-1074)
    · rw [if_pos hkk] at h
      split at h
      · simp at h
      · simp only [JsNumber.finite.injEq] at h
        rw [← h]
        apply hsign
        have hb := hk _ rfl
        have hr := roundHalfEven_error q.num.natAbs
          (q.den * 2 ^ (max (floorLog2 q.num.natAbs q.den - 52) (-1074)).toNat)
          (by positivity)
        have hpow : (2 : ℚ) ^ (max (floorLog2 q.num.natAbs q.den - 52) (-1074)) =
            (2 : ℚ) ^ ((max (floorLog2 q.num.natAbs q.den - 52) (-1074)).toNat) := by
          rw [← zpow_natCast, Int.toNat_of_nonneg hkk]
        rw [hpow] at hb
        have hp : (0 : ℚ) < (2 : ℚ) ^ ((max (floorLog2 q.num.natAbs q.den - 52) (-1074)).toNat) := by
          positivity
        rw [habs]
        rw [habs] at hb
        refine le_trans ?_ hb
        push_cast at hr ⊢
        exact abs_scale_up _ _ _ _ hdq hp hr
    · rw [if_neg hkk] at h
      simp only [JsNumber.finite.injEq] at h
      have hneg : (0 : Int) ≤ -(max (floorLog2 q.num.natAbs q.den - 52) (-1074)) := by omega
      have hv : v = if q < 0 then
          -(((roundHalfEven (q.num.natAbs *
              2 ^ (-(max (floorLog2 q.num.natAbs q.den - 52) (-1074))).toNat) q.den : Nat) : ℚ) /
            ((2 ^ (-(max (floorLog2 q.num.natAbs q.den - 52) (-1074))).toNat : Nat) : ℚ))
          else ((roundHalfEven (q.num.natAbs *
              2 ^ (-(max (floorLog2 q.num.natAbs q.den - 52) (-1074))).toNat) q.den : Nat) : ℚ) /
            ((2 ^ (-(max (floorLog2 q.num.natAbs q.den - 52) (-1074))).toNat : Nat) : ℚ) := by
        rw [← h]
      rw [hv]
      apply hsign
      have hb := hk _ rfl
      have hr := roundHalfEven_error
        (q.num.natAbs * 2 ^ (-(max (floorLog2 q.num.natAbs q.den - 52) (-1074))).toNat) q.den hd
      have hpow : (2 : ℚ) ^ (max (floorLog2 q.num.natAbs q.den - 52) (-1074)) =
          ((2 : ℚ) ^ ((-(max (floorLog2 q.num.natAbs q.den - 52) (-1074))).toNat))⁻¹ := by
        rw [← zpow_natCast, Int.toNat_of_nonneg hneg, zpow_neg, inv_inv]
      rw [hpow] at hb
      have hp : (0 : ℚ) <
          (2 : ℚ) ^ ((-(max (floorLog2 q.num.natAbs q.den - 52) (-1074))).toNat) := by
        positivity
      rw [habs]
      rw [habs] at hb
      refine le_trans ?_ hb
      push_cast at hr ⊢
      exact abs_scale_down _ _ _ _ hdq hp hr


theorem toDouble_isNaN (q : ℚ) : (toDouble q).isNaN = false := by
  have h := toDouble_ne_nan q
  cases hq : toDouble q with
  | nan => exact absurd hq h
  | finite v => rfl
  | infinity negative => rfl

theorem isNaN_finite (q : ℚ) : (JsNumber.finite q).isNaN = false := rfl

theorem nanAdd_finite_isNaN (a : JsNumber) (q : ℚ) (h : a.isNaN = false) :
    (nanAdd a (.finite q)).isNaN = false := by
  cases a with
  | nan => simp [JsNumber.isNaN] at h
  | finite v => exact toDouble_isNaN _
  | infinity negative => rfl

/-- Sums of integers whose magnitudes add up to at most `2 ^ 53` are exact. -/
theorem nanAdd_sum_intCast (a b c d : Int)
    (h : a.natAbs + b.natAbs + c.natAbs + d.natAbs ≤ 2 ^ 53) :
    nanAdd (nanAdd (nanAdd (.finite (a : ℚ)) (.finite (b : ℚ))) (.finite (c : ℚ)))
      (.finite (d : ℚ)) = .finite ((a + b + c + d : Int) : ℚ) := by
  rw [nanAdd_intCast a b (by omega), nanAdd_intCast (a + b) c (by omega),
    nanAdd_intCast (a + b + c) d (by omega)]

/-! ## Lemmas on the discharge handler -/

theorem daySpent_bounds (releaseDate admitDate : Int) :
    (daySpent releaseDate admitDate - 1) * msPerDay < releaseDate - admitDate ∧
    releaseDate - admitDate ≤ daySpent releaseDate admitDate * msPerDay := by
  have hpos : (0 : ℚ) < (msPerDay : ℚ) := by norm_num [msPerDay]
  have h1 := Int.le_ceil (((releaseDate - admitDate : Int) : ℚ) / (msPerDay : ℚ))
  have h2 := Int.ceil_lt_add_one (((releaseDate - admitDate : Int) : ℚ) / (msPerDay : ℚ))
  rw [div_le_iff₀ hpos] at h1
  rw [← sub_lt_iff_lt_add, lt_div_iff₀ hpos] at h2
  unfold daySpent
  constructor
  · exact_mod_cast h2
  · exact_mod_cast h1

theorem daySpent_pos {releaseDate admitDate : Int} (h : admitDate < releaseDate) :
    1 ≤ daySpent releaseDate admitDate := by
  have hb := (daySpent_bounds releaseDate admitDate).2
  have hm : (0 : Int) < msPerDay := by decide
  by_contra hc
  push_neg at hc
  have h0 : daySpent releaseDate admitDate ≤ 0 := by omega
  have := mul_nonpos_of_nonpos_of_nonneg h0 hm.le
  omega

theorem daySpent_nonpos {releaseDate admitDate : Int} (h : releaseDate ≤ admitDate) :
    daySpent releaseDate admitDate ≤ 0 := by
  have hb := (daySpent_bounds releaseDate admitDate).1
  have hm : (0 : Int) < msPerDay := by decide
  by_contra hc
  push_neg at hc
  have h0 : 0 ≤ daySpent releaseDate admitDate - 1 := by omega
  have := mul_nonneg h0 hm.le
  omega

theorem daySpent_self (t : Int) : daySpent t t = 0 := by
  simp [daySpent]

theorem saveDischarge_some {s : Store} {env : Env} {d : DischargeDraft}
    {doc : PatientDischargeDetails} {s' : Store} (h : saveDischarge s env d = some (doc, s')) :
    doc.roomCharge = d.roomCharge ∧ doc.medicineCost = d.medicineCost ∧
    doc.doctorFee = d.doctorFee ∧ doc.otherCharge = d.otherCharge ∧
    doc.total = d.total ∧ doc.daySpent = d.daySpent ∧ doc.admitDate = d.admitDate ∧
    doc.releaseDate = d.releaseDate ∧ doc.patientId = d.patientId ∧
    s' = { s with discharges := s.discharges ++ [doc] } ∧
    doc.assignedDoctorName = d.assignedDoctorName ∧
    (doc.roomCharge.isNaN = false ∧ doc.medicineCost.isNaN = false ∧
      doc.doctorFee.isNaN = false ∧ doc.otherCharge.isNaN = false ∧
      doc.total.isNaN = false) := by
  unfold saveDischarge at h
  split at h
  · rename_i hv
    simp only [Option.some.injEq, Prod.mk.injEq] at h
    obtain ⟨rfl, rfl⟩ := h
    simp only [Bool.and_eq_true, Bool.not_eq_true'] at hv
    simp only [and_self, true_and]
    exact ⟨hv.1.1.1.1.1.1.1.1.1, hv.1.1.1.1.1.1.1.1.2, hv.1.1.1.1.1.1.1.2, hv.1.1.1.1.1.1.2,
      hv.1.1.1.1.1.2⟩
  · simp at h

theorem saveDischarge_total_nan {s : Store} {env : Env} {d : DischargeDraft}
    (h : d.total = .nan) : saveDischarge s env d = none := by
  unfold saveDischarge
  rw [h]
  simp [JsNumber.isNaN]

/-- What a successful discharge reply tells about the request and the stored document. -/
theorem postDischarge_json {s : Store} {env : Env} {pid : ObjectId} {body : DischargeBody}
    {st : Nat} {doc : PatientDischargeDetails} {s' : Store}
    (h : postDischarge s env pid body = (.json st doc, s')) :
    ∃ patient, findPatient s pid = some patient ∧
      st = 200 ∧ doc.patientId = patient.id ∧
      doc.admitDate = patient.admitDate ∧ doc.releaseDate = env.now ∧
      doc.daySpent = daySpent env.now patient.admitDate ∧
      doc.roomCharge = nanMul (parseInt body.roomCharge) (.finite doc.daySpent) ∧
      doc.medicineCost = parseInt body.medicineCost ∧
      doc.doctorFee = parseInt body.doctorFee ∧
      doc.otherCharge = parseInt body.otherCharge ∧
      doc.total = nanAdd (nanAdd (nanAdd doc.roomCharge doc.medicineCost) doc.doctorFee)
        doc.otherCharge ∧
      (doc.roomCharge.isNaN = false ∧ doc.medicineCost.isNaN = false ∧
        doc.doctorFee.isNaN = false ∧ doc.otherCharge.isNaN = false ∧
        doc.total.isNaN = false) ∧
      s' = { s with discharges := s.discharges ++ [doc] } := by
  unfold postDischarge at h
  split at h
  · simp at h
  · rename_i patient hp
    split at h
    · simp at h
    · simp only at h
      split at h
      · split at h
        · rename_i doc0 s0 hsave
          simp only [Prod.mk.injEq, Reply.json.injEq] at h
          obtain ⟨⟨rfl, rfl⟩, rfl⟩ := h
          have hs := saveDischarge_some hsave
          simp only at hs
          obtain ⟨h1, h2, h3, h4, h5, h6, h7, h8, h9, h10, -, h12⟩ := hs
          refine ⟨patient, hp, rfl, h9, h7, h8, h6, ?_, h2, h3, h4, ?_, h12, h10⟩
          · rw [h1, h6]
          · rw [h5, h1, h2, h3, h4]
        · simp at h
      · simp at h

/-- The day count shown by the details route is the one for its own two dates. -/
theorem getDischargeDetails_day {s : Store} {env : Env} {pid : ObjectId} {st : Nat}
    {data : PatientData} (h : getDischargeDetails s env pid = .json st data) :
    data.day = daySpent data.todayDate data.admitDate := by
  unfold getDischargeDetails at h
  split at h
  · simp at h
  · simp only at h
    split at h
    · simp at h
    · split at h
      · simp at h
      · simp only [Reply.json.injEq] at h
        obtain ⟨-, rfl⟩ := h
        rfl

/-- A request is accepted whenever the patient, the assigned doctor and their users
are found, the snapshot strings pass the schema and the four charges parse to finite
numbers. -/
theorem postDischarge_accepts {s : Store} {env : Env} {pid : ObjectId} {body : DischargeBody}
    {patient : Patient} {doctor : Doctor} {patientUser doctorUser : User} {r m f o : ℚ}
    (hp : findPatient s pid = some patient)
    (hd : patient.assignedDoctorId.bind (findDoctor s) = some doctor)
    (hpu : findUser s patient.user = some patientUser)
    (hdu : findUser s doctor.user = some doctorUser)
    (hv : validString 40 (fullName patientUser) = true ∧
      validString 40 (fullName doctorUser) = true ∧ validString 40 patient.address = true ∧
      validString 20 patient.mobile = true ∧ validString 100 patient.symptoms = true)
    (hr : parseInt body.roomCharge = .finite r) (hm : parseInt body.medicineCost = .finite m)
    (hf : parseInt body.doctorFee = .finite f) (ho : parseInt body.otherCharge = .finite o) :
    ∃ doc, postDischarge s env pid body =
        (.json 200 doc, { s with discharges := s.discharges ++ [doc] }) ∧
      doc.daySpent = daySpent env.now patient.admitDate ∧
      doc.roomCharge = nanMul (.finite r) (.finite doc.daySpent) ∧
      doc.medicineCost = .finite m ∧
      doc.total = nanAdd (nanAdd (nanAdd (nanMul (.finite r) (.finite doc.daySpent))
        (.finite m)) (.finite f)) (.finite o) := by
  obtain ⟨v1, v2, v3, v4, v5⟩ := hv
  have n1 : (nanMul (.finite r) (.finite ((daySpent env.now patient.admitDate : Int) : ℚ))).isNaN
      = false := toDouble_isNaN _
  have n2 := nanAdd_finite_isNaN _ m n1
  have n3 := nanAdd_finite_isNaN _ f n2
  have n4 := nanAdd_finite_isNaN _ o n3
  unfold postDischarge
  simp only [hp, hd, hpu, hdu, hr, hm, hf, ho, saveDischarge, v1, v2, v3, v4, v5, n1, n4,
    isNaN_finite, Bool.not_false, Bool.and_self, if_true]
  exact ⟨_, rfl, rfl, rfl, rfl, rfl⟩


theorem natAbs_le_of_abs_le {a : Int} (h : |a| ≤ 2 ^ 53) : a.natAbs ≤ 2 ^ 53 := by
  rw [Int.abs_eq_natAbs] at h
  exact_mod_cast h

theorem natAbs_sum_le {a b c d : Int} (h : |a| + |b| + |c| + |d| ≤ 2 ^ 53) :
    a.natAbs + b.natAbs + c.natAbs + d.natAbs ≤ 2 ^ 53 := by
  simp only [Int.abs_eq_natAbs] at h
  exact_mod_cast h

/-! ## Discharge billing -/

/-- C1 (as amended). The total stored by a successful discharge is
`parseInt(roomCharge) * daySpent + parseInt(medicineCost) + parseInt(doctorFee) +
parseInt(otherCharge)`, the four body values being read with `parseInt` and every
operation being one of double arithmetic; when the four are integers sent as JSON
numbers, the rate of magnitude at most `2 ^ 53` and the magnitudes of
`rate * daySpent` and of the three other charges adding up to at most `2 ^ 53`, this is
exactly `rate * daySpent + medicineCost + doctorFee + otherCharge`. -/
theorem discharge_total_reads_parseInt (s : Store) (env : Env) (pid : ObjectId)
    (body : DischargeBody) (st : Nat) (doc : PatientDischargeDetails) (s' : Store)
    (h : postDischarge s env pid body = (.json st doc, s')) :
    doc ∈ s'.discharges ∧
    doc.total = nanAdd (nanAdd (nanAdd
      (nanMul (parseInt body.roomCharge) (.finite doc.daySpent))
      (parseInt body.medicineCost)) (parseInt body.doctorFee)) (parseInt body.otherCharge) ∧
    (∀ rate medicineCost doctorFee otherCharge : Int,
      body = ⟨.num rate, .num medicineCost, .num doctorFee, .num otherCharge⟩ →
      |rate| ≤ 2 ^ 53 →
      |rate * doc.daySpent| + |medicineCost| + |doctorFee| + |otherCharge| ≤ 2 ^ 53 →
      doc.total =
        .finite ((rate * doc.daySpent + medicineCost + doctorFee + otherCharge : Int) : ℚ)) := by
  obtain ⟨patient, -, -, -, -, -, -, hrc, hmc, hdf, hoc, htot, -, hs⟩ := postDischarge_json h
  have htotal : doc.total = nanAdd (nanAdd (nanAdd
      (nanMul (parseInt body.roomCharge) (.finite doc.daySpent))
      (parseInt body.medicineCost)) (parseInt body.doctorFee)) (parseInt body.otherCharge) := by
    rw [htot, hrc, hmc, hdf, hoc]
  refine ⟨by simp [hs], htotal, ?_⟩
  intro rate medicineCost doctorFee otherCharge hb h1 h2
  subst hb
  have hsum := natAbs_sum_le h2
  have hr := natAbs_le_of_abs_le h1
  rw [htotal]
  simp only
  rw [parseInt_num_intCast rate hr, parseInt_num_intCast medicineCost (by omega),
    parseInt_num_intCast doctorFee (by omega), parseInt_num_intCast otherCharge (by omega),
    nanMul_intCast rate doc.daySpent (by omega), nanAdd_sum_intCast _ _ _ _ hsum]

/-- Witness for C1: scenario A on the sample store, total `50 * 5 + 20 + 100 + 10`. -/
theorem discharge_total_reads_parseInt_witness :
    docA ∈ ({ sampleStore with discharges := [docA] } : Store).discharges ∧
    docA.total = .finite ((50 * docA.daySpent + 20 + 100 + 10 : Int) : ℚ) :=
  have h := discharge_total_reads_parseInt sampleStore envA 20 bodyA 200 docA
    { sampleStore with discharges := [docA] } (by decide!)
  ⟨h.1, h.2.2 50 20 100 10 (by decide!) (by decide!) (by decide!)⟩

/-- Counterexample to C1: with the decimal rate 50.5 and the decimal medicine cost 20.5
over two days the stored total is 120, not `50.5 * 2 + 20.5 + 0 + 0 = 121.5`. Beyond
`2 ^ 53` integers are rounded as well: the string `9007199254740993` is read as
`9007199254740992`, and the rate `1801439850948199` times 5 days gives
`9007199254740996`. -/
theorem discharge_total_truncates_decimals :
    postDischarge sampleStore envTwoDays 20 bodyDecimal =
      (.json 200 docDecimal, { sampleStore with discharges := [docDecimal] }) ∧
    docDecimal.daySpent = 2 ∧ docDecimal.total = 120 ∧
    docDecimal.total ≠ .finite ((101 / 2) * (docDecimal.daySpent : ℚ) + 41 / 2 + 0 + 0) ∧
    parseInt (.str "9007199254740993") = .finite 9007199254740992 ∧
    nanMul (parseInt (.num 1801439850948199)) (.finite 5) = .finite 9007199254740996 := by
  decide!

/-- C2 (as amended). The day count of the discharge workflow, stored by the discharge
route and shown by the details route, is the ceiling of the elapsed milliseconds over
86 400 000: it is the least integer `n` with `release - admit ≤ n * 86400000`. For
`release ≥ admit` it is non-negative, it is at least 1 exactly when `release > admit`,
and a release at the instant of admission counts 0 days. -/
theorem daySpent_is_ceiling (admitDate releaseDate : Int) (h : admitDate ≤ releaseDate) :
    daySpent releaseDate admitDate =
      Int.ceil (((releaseDate - admitDate : Int) : ℚ) / 86400000) ∧
    (daySpent releaseDate admitDate - 1) * 86400000 < releaseDate - admitDate ∧
    releaseDate - admitDate ≤ daySpent releaseDate admitDate * 86400000 ∧
    0 ≤ daySpent releaseDate admitDate ∧
    (1 ≤ daySpent releaseDate admitDate ↔ admitDate < releaseDate) ∧
    (releaseDate = admitDate → daySpent releaseDate admitDate = 0) ∧
    (∀ (s : Store) (env : Env) (pid : ObjectId) (body : DischargeBody) (st : Nat)
        (doc : PatientDischargeDetails) (s' : Store),
      postDischarge s env pid body = (.json st doc, s') →
      doc.daySpent = daySpent doc.releaseDate doc.admitDate) ∧
    (∀ (s : Store) (env : Env) (pid : ObjectId) (st : Nat) (data : PatientData),
      getDischargeDetails s env pid = .json st data →
      data.day = daySpent data.todayDate data.admitDate) := by
  have hb := daySpent_bounds releaseDate admitDate
  have hm : msPerDay = 86400000 := by decide
  rw [hm] at hb
  refine ⟨by simp [daySpent, msPerDay], hb.1, hb.2, ?_, ⟨?_, daySpent_pos⟩, ?_, ?_, ?_⟩
  · omega
  · intro h1
    by_contra hc
    have : releaseDate ≤ admitDate := by omega
    have := daySpent_nonpos this
    omega
  · intro he
    rw [he]
    exact daySpent_self admitDate
  · intro s env pid body st doc s' hpost
    obtain ⟨patient, -, -, -, ha, hrel, hday, -⟩ := postDischarge_json hpost
    rw [hday, hrel, ha]
  · intro s env pid st data hget
    exact getDischargeDetails_day hget

/-- Witness for C2: five days and one millisecond count as six days. -/
theorem daySpent_is_ceiling_witness :
    daySpent 432000001 0 = 6 ∧
    (daySpent 432000001 0 - 1) * 86400000 < 432000001 - 0 ∧
    432000001 - 0 ≤ daySpent 432000001 0 * 86400000 ∧
    1 ≤ daySpent 432000001 0 :=
  have h := daySpent_is_ceiling 0 432000001 (by decide)
  ⟨by decide!, h.2.1, h.2.2.1, h.2.2.2.2.1.mpr (by decide)⟩

/-- Counterexample to C2: a discharge at the instant of admission stores 0 days, so
the day count is not at least 1. -/
theorem discharge_same_instant_zero_days :
    postDischarge sampleStore envSameInstant 20 bodyA =
      (.json 200 docSameInstant, { sampleStore with discharges := [docSameInstant] }) ∧
    docSameInstant.releaseDate = docSameInstant.admitDate ∧
    docSameInstant.daySpent = 0 ∧
    ¬ 1 ≤ daySpent docSameInstant.releaseDate docSameInstant.admitDate := by
  decide!

/-- C3 (as amended). A release time before the admission date does not make the
discharge fail: when the patient, the assigned doctor and their users exist, the
snapshot strings pass the schema and the four charges parse, the request succeeds and
stores one document whose day count is the ceiling of the negative difference, hence
at most 0; its room charge is the parsed rate times that day count and its total the
sum with the three other parsed charges, in double arithmetic, which is exact for
integers while the magnitudes add up to at most `2 ^ 53`. -/
theorem discharge_before_admission_succeeds (s : Store) (env : Env) (pid : ObjectId)
    (body : DischargeBody) (patient : Patient) (doctor : Doctor)
    (patientUser doctorUser : User) (r m f o : ℚ)
    (hp : findPatient s pid = some patient)
    (hd : patient.assignedDoctorId.bind (findDoctor s) = some doctor)
    (hpu : findUser s patient.user = some patientUser)
    (hdu : findUser s doctor.user = some doctorUser)
    (hv : validString 40 (fullName patientUser) = true ∧
      validString 40 (fullName doctorUser) = true ∧ validString 40 patient.address = true ∧
      validString 20 patient.mobile = true ∧ validString 100 patient.symptoms = true)
    (hr : parseInt body.roomCharge = .finite r) (hm : parseInt body.medicineCost = .finite m)
    (hf : parseInt body.doctorFee = .finite f) (ho : parseInt body.otherCharge = .finite o)
    (hlate : env.now < patient.admitDate) :
    ∃ doc, postDischarge s env pid body =
        (.json 200 doc, { s with discharges := s.discharges ++ [doc] }) ∧
      doc.daySpent = daySpent env.now patient.admitDate ∧ doc.daySpent ≤ 0 ∧
      doc.roomCharge = nanMul (.finite r) (.finite doc.daySpent) ∧
      doc.total = nanAdd (nanAdd (nanAdd (nanMul (.finite r) (.finite doc.daySpent))
        (.finite m)) (.finite f)) (.finite o) ∧
      (∀ ri mi fi oi : Int, r = ri → m = mi → f = fi → o = oi →
        |ri * doc.daySpent| + |mi| + |fi| + |oi| ≤ 2 ^ 53 →
        doc.roomCharge = .finite ((ri * doc.daySpent : Int) : ℚ) ∧
        doc.total = .finite ((ri * doc.daySpent + mi + fi + oi : Int) : ℚ)) := by
  obtain ⟨doc, h1, h2, h3, -, h5⟩ := postDischarge_accepts hp hd hpu hdu hv hr hm hf ho
  refine ⟨doc, h1, h2, ?_, h3, h5, ?_⟩
  · rw [h2]
    exact daySpent_nonpos hlate.le
  · intro ri mi fi oi er em ef eo hsum
    subst er em ef eo
    have hs := natAbs_sum_le hsum
    rw [h3, h5, nanMul_intCast ri doc.daySpent (by omega), nanAdd_sum_intCast _ _ _ _ hs]
    exact ⟨rfl, rfl⟩

/-- Witness for C3: scenario A requested three days before the admission date. -/
theorem discharge_before_admission_succeeds_witness :
    ∃ doc, postDischarge sampleStore envBefore 20 bodyA =
        (.json 200 doc, { sampleStore with discharges := sampleStore.discharges ++ [doc] }) ∧
      doc.daySpent = daySpent envBefore.now 0 ∧ doc.daySpent ≤ 0 ∧
      doc.roomCharge = nanMul (.finite 50) (.finite doc.daySpent) ∧
      doc.total = nanAdd (nanAdd (nanAdd (nanMul (.finite 50) (.finite doc.daySpent))
        (.finite 20)) (.finite 100)) (.finite 10) :=
  have h := discharge_before_admission_succeeds sampleStore envBefore 20 bodyA
    ⟨20, 1, "1 Main St", "555-0100", "cough", some 10, 0, true, 0⟩ ⟨10, 2, true⟩
    ⟨1, "Ann", "Lee", .patient⟩ ⟨2, "Bob", "Ray", .doctor⟩ 50 20 100 10
    (by decide) (by decide) (by decide) (by decide) (by decide) (by decide!) (by decide!)
    (by decide!) (by decide!) (by decide)
  h.elim fun doc hd => ⟨doc, hd.1, hd.2.1, hd.2.2.1, hd.2.2.2.1, hd.2.2.2.2.1⟩

/-- Counterexample to C3: requested three days before the admission date, the discharge
replies 200 and persists a document with `daySpent = -3` and `roomCharge = -150`. -/
theorem discharge_before_admission_persists :
    envBefore.now < docBefore.admitDate ∧
    postDischarge sampleStore envBefore 20 bodyA =
      (.json 200 docBefore, { sampleStore with discharges := [docBefore] }) ∧
    docBefore.daySpent = -3 ∧ docBefore.roomCharge = .finite (-150) := by
  decide!

/-- C4 (as amended). A discharge request in which one of the four charges reads as
`NaN` under `parseInt` persists nothing: the store is unchanged and the reply is one of
the two 404 replies or the 500 reply `Server error`, the latter whenever the patient and
the assigned doctor are found. Negative values are not rejected. -/
theorem discharge_nan_charge_not_persisted (s : Store) (env : Env) (pid : ObjectId)
    (body : DischargeBody)
    (h : parseInt body.roomCharge = .nan ∨ parseInt body.medicineCost = .nan ∨
      parseInt body.doctorFee = .nan ∨ parseInt body.otherCharge = .nan) :
    (postDischarge s env pid body).2 = s ∧
    ((postDischarge s env pid body).1 = .fail 404 "Patient not found" ∨
      (postDischarge s env pid body).1 = .fail 404 "Assigned doctor not found" ∨
      (postDischarge s env pid body).1 = .fail 500 "Server error") ∧
    (∀ patient doctor, findPatient s pid = some patient →
      patient.assignedDoctorId.bind (findDoctor s) = some doctor →
      (postDischarge s env pid body).1 = .fail 500 "Server error") := by
  have key : ∀ patient doctor, findPatient s pid = some patient →
      patient.assignedDoctorId.bind (findDoctor s) = some doctor →
      postDischarge s env pid body = (.fail 500 "Server error", s) := by
    intro patient doctor hp hd
    unfold postDischarge
    simp only [hp, hd]
    split
    · rw [saveDischarge_total_nan]
      rcases h with h | h | h | h <;>
        simp [h, nanMul_nan_left, nanAdd_nan_left, nanAdd_nan_right]
    · rfl
  cases hp : findPatient s pid with
  | none =>
    have : postDischarge s env pid body = (.fail 404 "Patient not found", s) := by
      unfold postDischarge; simp only [hp]
    simp [this]
  | some patient =>
    cases hd : patient.assignedDoctorId.bind (findDoctor s) with
    | none =>
      have : postDischarge s env pid body = (.fail 404 "Assigned doctor not found", s) := by
        unfold postDischarge; simp only [hp, hd]
      refine ⟨by simp [this], by simp [this], ?_⟩
      intro patient' doctor' hp' hd'
      cases hp'
      rw [hd] at hd'
      cases hd'
    | some doctor =>
      have := key patient doctor hp hd
      simp [this]

/-- Witness for C4: a doctor fee of `free` on the sample store. -/
theorem discharge_nan_charge_not_persisted_witness :
    (postDischarge sampleStore envA 20 bodyNotNumeric).2 = sampleStore ∧
    (postDischarge sampleStore envA 20 bodyNotNumeric).1 = .fail 500 "Server error" :=
  have h := discharge_nan_charge_not_persisted sampleStore envA 20 bodyNotNumeric
    (Or.inr (Or.inr (Or.inl (by decide))))
  ⟨h.1, h.2.2 ⟨20, 1, "1 Main St", "555-0100", "cough", some 10, 0, true, 0⟩ ⟨10, 2, true⟩
    (by decide) (by decide)⟩

/-- Counterexample to C4: a medicine cost of `-20` is accepted; the reply is 200 and a
document with `medicineCost = -20` is persisted. -/
theorem discharge_negative_charge_persists :
    parseInt bodyNegative.medicineCost = .finite (-20) ∧
    postDischarge sampleStore envA 20 bodyNegative =
      (.json 200 docNegative, { sampleStore with discharges := [docNegative] }) ∧
    docNegative.medicineCost = .finite (-20) := by
  decide!

/-- C5 (as amended). Every document persisted by the discharge handler is consistent
with the request as `parseInt` reads it: its day count is the ceiling for its own
dates, its `roomCharge` is `parseInt(roomCharge)` of the request times its `daySpent`,
the other three charges are the `parseInt` of theirs, and its `total` is the sum of its
stored `roomCharge`, `medicineCost`, `doctorFee` and `otherCharge`, added from left to
right; no stored number is `NaN`. The product and the sums are those of double
arithmetic: they are exact when the values are integers whose magnitudes add up to at
most `2 ^ 53`. -/
theorem discharge_record_consistent (s : Store) (env : Env) (pid : ObjectId)
    (body : DischargeBody) (st : Nat) (doc : PatientDischargeDetails) (s' : Store)
    (h : postDischarge s env pid body = (.json st doc, s')) :
    s'.discharges = s.discharges ++ [doc] ∧
    doc.daySpent = daySpent doc.releaseDate doc.admitDate ∧
    doc.roomCharge = nanMul (parseInt body.roomCharge) (.finite doc.daySpent) ∧
    doc.medicineCost = parseInt body.medicineCost ∧
    doc.doctorFee = parseInt body.doctorFee ∧
    doc.otherCharge = parseInt body.otherCharge ∧
    doc.total = nanAdd (nanAdd (nanAdd doc.roomCharge doc.medicineCost) doc.doctorFee)
      doc.otherCharge ∧
    (doc.roomCharge.isNaN = false ∧ doc.medicineCost.isNaN = false ∧
      doc.doctorFee.isNaN = false ∧ doc.otherCharge.isNaN = false ∧
      doc.total.isNaN = false) ∧
    (∀ rate : Int, parseInt body.roomCharge = .finite rate → |rate * doc.daySpent| ≤ 2 ^ 53 →
      doc.roomCharge = .finite ((rate * doc.daySpent : Int) : ℚ)) ∧
    (∀ a b c d : Int, doc.roomCharge = .finite a → doc.medicineCost = .finite b →
      doc.doctorFee = .finite c → doc.otherCharge = .finite d →
      |a| + |b| + |c| + |d| ≤ 2 ^ 53 →
      doc.total = .finite ((a + b + c + d : Int) : ℚ)) := by
  obtain ⟨patient, -, -, -, ha, hrel, hday, hrc, hmc, hdf, hoc, htot, hnan, hs⟩ :=
    postDischarge_json h
  refine ⟨by simp [hs], ?_, hrc, hmc, hdf, hoc, htot, hnan, ?_, ?_⟩
  · rw [hday, hrel, ha]
  · intro rate hr hb
    rw [hrc, hr, nanMul_intCast rate doc.daySpent (natAbs_le_of_abs_le hb)]
  · intro a b c d ea eb ec ed hsum
    rw [htot, ea, eb, ec, ed, nanAdd_sum_intCast _ _ _ _ (natAbs_sum_le hsum)]

/-- Witness for C5: scenario A, a 5-day stay at rate 50 with 20, 100 and 10, stores
`roomCharge = 250` and `total = 380`. -/
theorem discharge_record_consistent_witness :
    docA.daySpent = 5 ∧ docA.roomCharge = 250 ∧ docA.total = 380 ∧
    docA.daySpent = daySpent docA.releaseDate docA.admitDate ∧
    docA.total = .finite ((250 + 20 + 100 + 10 : Int) : ℚ) :=
  have h := discharge_record_consistent sampleStore envA 20 bodyA 200 docA
    { sampleStore with discharges := [docA] } (by decide!)
  ⟨by decide, by decide!, by decide!, h.2.1,
    h.2.2.2.2.2.2.2.2.2 250 20 100 10 (by decide!) (by decide!) (by decide!) (by decide!)
      (by decide!)⟩

/-- Counterexample to C5: for the rate 50.5 of the request and a stored day count of 2
the stored `roomCharge` is 100, not `50.5 * 2 = 101`. -/
theorem discharge_room_charge_truncates_rate :
    bodyDecimal.roomCharge = .str "50.5" ∧
    (postDischarge sampleStore envTwoDays 20 bodyDecimal).2.discharges = [docDecimal] ∧
    docDecimal.daySpent = 2 ∧ docDecimal.roomCharge = 100 ∧
    docDecimal.roomCharge ≠ .finite ((101 / 2) * (docDecimal.daySpent : ℚ)) := by
  decide!

/-- C6. The discharge replies 404 and leaves the store unchanged, persisting no
document, whenever the patient id is not found, the patient has no assigned doctor, or
the assigned doctor's record is not found. -/
theorem discharge_not_found (s : Store) (env : Env) (pid : ObjectId) (body : DischargeBody)
    (h : findPatient s pid = none ∨
      ∃ patient, findPatient s pid = some patient ∧
        (patient.assignedDoctorId = none ∨
          ∃ did, patient.assignedDoctorId = some did ∧ findDoctor s did = none)) :
    (∃ message, (postDischarge s env pid body).1 = .fail 404 message) ∧
    (postDischarge s env pid body).1.body? = none ∧
    (postDischarge s env pid body).2 = s := by
  rcases h with hp | ⟨patient, hp, hd⟩
  · have : postDischarge s env pid body = (.fail 404 "Patient not found", s) := by
      unfold postDischarge; simp only [hp]
    simp [this, Reply.body?]
  · have hnone : patient.assignedDoctorId.bind (findDoctor s) = none := by
      rcases hd with hd | ⟨did, hd, hf⟩
      · simp [hd]
      · simp [hd, hf]
    have : postDischarge s env pid body = (.fail 404 "Assigned doctor not found", s) := by
      unfold postDischarge; simp only [hp, hnone]
    simp [this, Reply.body?]

/-- Witness for C6: scenario E, the sample patient 21 has no assigned doctor. -/
theorem discharge_not_found_witness :
    (∃ message, (postDischarge sampleStore envA 21 bodyA).1 = .fail 404 message) ∧
    (postDischarge sampleStore envA 21 bodyA).1.body? = none ∧
    (postDischarge sampleStore envA 21 bodyA).2 = sampleStore :=
  discharge_not_found sampleStore envA 21 bodyA
    (Or.inr ⟨⟨21, 3, "2 Side St", "555-0101", "fever", none, 0, true, 0⟩, by decide,
      Or.inl rfl⟩)


/-! ## Lemmas on invoices -/

theorem taxRate_eq : taxRate = .finite (3602879701896397 / 36028797018963968) := by
  decide!

/-- The stored tax is within a relative `2 ^ -52` of the exact tenth of the subtotal,
apart from the absolute error of the subnormal range. -/
theorem tax_error (q t : ℚ) (h : nanMul (.finite q) taxRate = .finite t) :
    |t - q / 10| ≤ |q| / 10 / 2 ^ 52 + 1 / 2 ^ 1075 := by
  rw [taxRate_eq] at h
  simp only [nanMul] at h
  have herr := toDouble_error _ _ h
  have hc : |q * (3602879701896397 / 36028797018963968)| =
      |q| * (3602879701896397 / 36028797018963968) := by
    rw [abs_mul, abs_of_pos (by norm_num : (0 : ℚ) < 3602879701896397 / 36028797018963968)]
  rw [hc] at herr
  have hdiff : |q * (3602879701896397 / 36028797018963968) - q / 10| =
      |q| * (1 / 180143985094819840) := by
    have e : q * (3602879701896397 / 36028797018963968) - q / 10 =
        q * (1 / 180143985094819840) := by ring
    rw [e, abs_mul, abs_of_pos (by norm_num : (0 : ℚ) < 1 / 180143985094819840)]
  have htri : |t - q / 10| ≤ |t - q * (3602879701896397 / 36028797018963968)| +
      |q * (3602879701896397 / 36028797018963968) - q / 10| := by
    have e : t - q / 10 = (t - q * (3602879701896397 / 36028797018963968)) +
        (q * (3602879701896397 / 36028797018963968) - q / 10) := by ring
    rw [e]
    exact abs_add _ _
  rw [hdiff] at htri
  have hq : (0 : ℚ) ≤ |q| := abs_nonneg q
  have hnum : |q| * (3602879701896397 / 36028797018963968) / 2 ^ 53 +
      |q| * (1 / 180143985094819840) ≤ |q| / 10 / 2 ^ 52 := by
    have e : |q| / 10 / 2 ^ 52 - (|q| * (3602879701896397 / 36028797018963968) / 2 ^ 53 +
        |q| * (1 / 180143985094819840)) =
        |q| * (1 / 10 / 2 ^ 52 - ((3602879701896397 / 36028797018963968) / 2 ^ 53 +
          1 / 180143985094819840)) := by ring
    have hpos : (0 : ℚ) ≤ 1 / 10 / 2 ^ 52 - ((3602879701896397 / 36028797018963968) / 2 ^ 53 +
          1 / 180143985094819840) := by norm_num
    have := mul_nonneg hq hpos
    linarith
  linarith

/-- The stored total is within a relative `2 ^ -53` of the exact sum of subtotal and
tax, apart from the absolute error of the subnormal range. -/
theorem total_error (q t u : ℚ) (h : nanAdd (.finite q) (.finite t) = .finite u) :
    |u - (q + t)| ≤ |q + t| / 2 ^ 53 + 1 / 2 ^ 1075 := by
  simp only [nanAdd] at h
  exact toDouble_error _ _ h

theorem foldl_nanAdd_intCast (amounts : List Int) :
    ∀ (items : List InvoiceItem) (acc : Int),
      items.map (fun item => item.amount) = amounts.map (fun a => JsNumber.finite (a : ℚ)) →
      acc.natAbs + (amounts.map Int.natAbs).sum ≤ 2 ^ 53 →
      items.foldl (fun sum item => nanAdd sum item.amount) (.finite (acc : ℚ)) =
        .finite ((acc + amounts.sum : Int) : ℚ) := by
  induction amounts with
  | nil =>
    intro items acc hmap _
    have : items = [] := by simpa using hmap
    subst this
    simp
  | cons a rest ih =>
    intro items acc hmap hb
    cases items with
    | nil => simp at hmap
    | cons item tail =>
      simp only [List.map_cons] at hmap
      have hhead : item.amount = JsNumber.finite (a : ℚ) := List.head_eq_of_cons_eq hmap
      have htail := List.tail_eq_of_cons_eq hmap
      simp only [List.map_cons, List.sum_cons] at hb
      simp only [List.foldl_cons, hhead]
      rw [nanAdd_intCast acc a (by omega), ih tail (acc + a) htail (by omega)]
      simp only [List.sum_cons]
      congr 2
      ring

/-- The subtotal of items with integer amounts whose magnitudes add up to at most
`2 ^ 53` is their exact sum. -/
theorem itemsSubtotal_exact (items : List InvoiceItem) (amounts : List Int)
    (hmap : items.map (fun item => item.amount) = amounts.map (fun a => JsNumber.finite (a : ℚ)))
    (hb : (amounts.map Int.natAbs).sum ≤ 2 ^ 53) :
    itemsSubtotal items = .finite ((amounts.sum : Int) : ℚ) := by
  have h := foldl_nanAdd_intCast amounts items 0 hmap (by simpa using hb)
  unfold itemsSubtotal
  simpa using h

theorem find_replace_invoice (l : List Invoice) (id : ObjectId) (x y : Invoice)
    (hx : x.id = id) (h : l.find? (fun i => i.id = id) = some y) :
    (l.map (fun i => if i.id = id then x else i)).find? (fun i => i.id = id) = some x := by
  induction l with
  | nil => simp at h
  | cons a as ih =>
    by_cases ha : a.id = id
    · simp [List.find?, ha, hx]
    · have h' : as.find? (fun i => i.id = id) = some y := by
        simpa [List.find?, ha] using h
      simp [List.find?, ha, ih h']

theorem findInvoice_id {s : Store} {id : ObjectId} {inv : Invoice}
    (h : findInvoice s id = some inv) : inv.id = id := by
  unfold findInvoice at h
  have := List.find?_some h
  simpa using this

theorem preSaveInvoice_fields (count : Nat) (inv : Invoice) :
    (preSaveInvoice count inv).id = inv.id ∧
    (preSaveInvoice count inv).items = inv.items ∧
    (preSaveInvoice count inv).additionalCharges = inv.additionalCharges ∧
    (preSaveInvoice count inv).subtotal = inv.subtotal ∧
    (preSaveInvoice count inv).tax = inv.tax ∧
    (preSaveInvoice count inv).total = inv.total := by
  unfold preSaveInvoice
  split
  · simp
  · split <;> simp

/-- What a successful add-charges reply tells about the stored invoice. -/
theorem putAddCharges_json {s : Store} {env : Env} {id : ObjectId}
    {charges : Option (List Charge)} {st : Nat} {inv' : Invoice} {s' : Store}
    (h : putAddCharges s env id charges = (.json st inv', s')) :
    ∃ old new, findInvoice s id = some old ∧ charges.bind castCharges = some new ∧
      st = 200 ∧ inv'.items = old.items ++ new ∧
      inv'.additionalCharges = old.additionalCharges ++ new ∧
      inv'.subtotal = itemsSubtotal (old.items ++ new) ∧
      inv'.tax = nanMul inv'.subtotal taxRate ∧ inv'.total = nanAdd inv'.subtotal inv'.tax ∧
      findInvoice s' id = some inv' := by
  unfold putAddCharges at h
  split at h
  · simp at h
  · rename_i old hold
    split at h
    · simp at h
    · rename_i new hnew
      simp only at h
      split at h
      · rename_i upd s1 hupd
        simp only [Prod.mk.injEq, Reply.json.injEq] at h
        obtain ⟨⟨rfl, rfl⟩, rfl⟩ := h
        unfold updateInvoiceItems at hupd
        split at hupd
        · simp only [Option.some.injEq, Prod.mk.injEq] at hupd
          obtain ⟨rfl, rfl⟩ := hupd
          have hid := findInvoice_id hold
          subst hid
          obtain ⟨p1, p2, p3, p4, p5, p6⟩ := preSaveInvoice_fields s.invoices.length
            { old with
              items := old.items ++ new
              additionalCharges := old.additionalCharges ++ new
              subtotal := itemsSubtotal (old.items ++ new)
              tax := nanMul (itemsSubtotal (old.items ++ new)) taxRate
              total := nanAdd (itemsSubtotal (old.items ++ new))
                (nanMul (itemsSubtotal (old.items ++ new)) taxRate) }
          simp only at p1 p2 p3 p4 p5 p6
          refine ⟨old, new, hold, hnew, rfl, p2, p3, p4, ?_, ?_, ?_⟩
          · simp only [p4, p5]
          · simp only [p4, p5, p6]
          · exact find_replace_invoice _ _ _ old p1 hold
        · simp at hupd
      · simp at h

theorem insertInvoice_approvalInvoice (s : Store) (env : Env) (appointment : Appointment) :
    insertInvoice s (approvalInvoice env appointment) = none := by
  simp [insertInvoice, validInvoice, validInvoicePaths, approvalInvoice, hasInvoiceNumber]

theorem autoCreateInvoice_invoices (s : Store) (env : Env) (appointment : Appointment) :
    (autoCreateInvoice s env appointment).invoices = s.invoices := by
  unfold autoCreateInvoice
  split
  · rfl
  · rw [insertInvoice_approvalInvoice]

theorem approvalInvoice_totals (env : Env) (appointment : Appointment) :
    (approvalInvoice env appointment).subtotal = 100 ∧
    (approvalInvoice env appointment).tax = 10 ∧
    (approvalInvoice env appointment).total = 110 := by
  have h1 : itemsSubtotal [⟨"Appointment Fee", appointmentFee⟩] = 100 := by decide!
  have h2 : nanMul 100 taxRate = 10 := by decide!
  have h3 : nanAdd 100 10 = 110 := by decide!
  simp only [approvalInvoice, h1, h2, h3, and_self]

/-! ## Invoice totals -/

/-- C7. The invoice document built when an appointment is approved has
`subtotal = Σ amounts = 100`, `tax = subtotal * 0.10 = 10` and `total = subtotal + tax
= 110`; and after every successful add-charges call the stored invoice has the old
items followed by the new ones, `subtotal` equal to the sum of the amounts of all its
items, recomputed from the first item on over old and new items, `tax = subtotal *
0.10` and `total = subtotal + tax`. Sum, product and `0.10` are those of JavaScript's
double arithmetic; the sum is the exact one when the amounts are integers whose
magnitudes add up to at most `2 ^ 53`. -/
theorem invoice_totals_recomputed (s : Store) (env : Env) (id : ObjectId)
    (charges : Option (List Charge)) (st : Nat) (inv' : Invoice) (s' : Store)
    (h : putAddCharges s env id charges = (.json st inv', s')) :
    (∀ (env0 : Env) (appointment : Appointment),
      (approvalInvoice env0 appointment).subtotal =
        itemsSubtotal (approvalInvoice env0 appointment).items ∧
      (approvalInvoice env0 appointment).tax =
        nanMul (approvalInvoice env0 appointment).subtotal taxRate ∧
      (approvalInvoice env0 appointment).total =
        nanAdd (approvalInvoice env0 appointment).subtotal
          (approvalInvoice env0 appointment).tax ∧
      (approvalInvoice env0 appointment).subtotal = 100 ∧
      (approvalInvoice env0 appointment).tax = 10 ∧
      (approvalInvoice env0 appointment).total = 110) ∧
    findInvoice s' id = some inv' ∧
    inv'.subtotal = itemsSubtotal inv'.items ∧
    inv'.tax = nanMul inv'.subtotal taxRate ∧
    inv'.total = nanAdd inv'.subtotal inv'.tax ∧
    (∃ old new, findInvoice s id = some old ∧ charges.bind castCharges = some new ∧
      inv'.items = old.items ++ new ∧
      inv'.subtotal = itemsSubtotal (old.items ++ new)) ∧
    (∀ amounts : List Int,
      inv'.items.map (fun item => item.amount) =
        amounts.map (fun a => JsNumber.finite (a : ℚ)) →
      (amounts.map Int.natAbs).sum ≤ 2 ^ 53 →
      inv'.subtotal = .finite ((amounts.sum : Int) : ℚ)) := by
  obtain ⟨old, new, hold, hnew, -, hitems, -, hsub, htax, htot, hfind⟩ := putAddCharges_json h
  have hsub' : inv'.subtotal = itemsSubtotal inv'.items := by rw [hsub, hitems]
  refine ⟨?_, hfind, hsub', htax, htot, ⟨old, new, hold, hnew, hitems, hsub⟩, ?_⟩
  · intro env0 appointment
    obtain ⟨t1, t2, t3⟩ := approvalInvoice_totals env0 appointment
    exact ⟨rfl, rfl, rfl, t1, t2, t3⟩
  · intro amounts hmap hb
    rw [hsub']
    exact itemsSubtotal_exact _ _ hmap hb

/-- Witness for C7: scenario D, adding `X-ray` for 50 to the sample invoice with
subtotal 100 stores subtotal 150, tax 15 and total 165. -/
theorem invoice_totals_recomputed_witness :
    findInvoice { sampleStore with invoices := [invoiceD] } 40 = some invoiceD ∧
    invoiceD.subtotal = 150 ∧ invoiceD.tax = 15 ∧ invoiceD.total = 165 ∧
    invoiceD.tax = nanMul invoiceD.subtotal taxRate ∧
    invoiceD.total = nanAdd invoiceD.subtotal invoiceD.tax ∧
    invoiceD.subtotal = .finite (([100, 50] : List Int).sum : Int) :=
  have h := invoice_totals_recomputed sampleStore envA 40 (some chargesD) 200 invoiceD
    { sampleStore with invoices := [invoiceD] } (by decide!)
  ⟨h.2.1, by decide!, by decide!, by decide!, h.2.2.2.1, h.2.2.2.2.1,
    h.2.2.2.2.2.2 [100, 50] (by decide!) (by decide!)⟩

/-- C8 (as amended). The tax stored by add-charges is the double product
`subtotal * 0.1` without any rounding to decimal places, and the total is the double
sum `subtotal + tax`, the subtotal being the sum of the amounts of all items; the same
holds for the values computed by `POST /generate`. The stored tax differs from the
exact tenth of the subtotal by at most the relative error `2 ^ -52` of the double
arithmetic, and the stored total from the exact sum by at most `2 ^ -53`. -/
theorem invoice_tax_unrounded (s : Store) (env : Env) (id : ObjectId)
    (charges : Option (List Charge)) (st : Nat) (inv' : Invoice) (s' : Store)
    (h : putAddCharges s env id charges = (.json st inv', s')) :
    findInvoice s' id = some inv' ∧
    inv'.subtotal = itemsSubtotal inv'.items ∧
    inv'.tax = nanMul inv'.subtotal taxRate ∧
    inv'.total = nanAdd inv'.subtotal inv'.tax ∧
    (∀ q t : ℚ, inv'.subtotal = .finite q → inv'.tax = .finite t →
      |t - q / 10| ≤ |q| / 10 / 2 ^ 52 + 1 / 2 ^ 1075) ∧
    (∀ q t u : ℚ, inv'.subtotal = .finite q → inv'.tax = .finite t →
      inv'.total = .finite u → |u - (q + t)| ≤ |q + t| / 2 ^ 53 + 1 / 2 ^ 1075) ∧
    (∀ (status : Option Bool) (additionalCharges : List InvoiceItem),
      (generateTotals status additionalCharges).1 =
        itemsSubtotal (generateItems status additionalCharges) ∧
      (generateTotals status additionalCharges).2.1 =
        nanMul (generateTotals status additionalCharges).1 taxRate ∧
      (generateTotals status additionalCharges).2.2 =
        nanAdd (generateTotals status additionalCharges).1
          (generateTotals status additionalCharges).2.1) := by
  obtain ⟨old, new, -, -, -, hitems, -, hsub, htax, htot, hfind⟩ := putAddCharges_json h
  refine ⟨hfind, ?_, htax, htot, ?_, ?_, ?_⟩
  · rw [hsub, hitems]
  · intro q t hq ht
    rw [hq, ht] at htax
    exact tax_error q t htax.symm
  · intro q t u hq ht hu
    rw [hq, ht, hu] at htot
    exact total_error q t u htot.symm
  · intro status additionalCharges
    exact ⟨rfl, rfl, rfl⟩

/-- Witness for C8: scenario D stores tax 15 for subtotal 150 and total 165. -/
theorem invoice_tax_unrounded_witness :
    invoiceD.tax = nanMul invoiceD.subtotal taxRate ∧
    invoiceD.total = nanAdd invoiceD.subtotal invoiceD.tax ∧
    |(15 : ℚ) - 150 / 10| ≤ |(150 : ℚ)| / 10 / 2 ^ 52 + 1 / 2 ^ 1075 :=
  have h := invoice_tax_unrounded sampleStore envA 40 (some chargesD) 200 invoiceD
    { sampleStore with invoices := [invoiceD] } (by decide!)
  ⟨h.2.2.1, h.2.2.2.1, h.2.2.2.2.1 150 15 (by decide!) (by decide!)⟩

/-- Counterexample to C8: adding a charge of 0.01 to the sample invoice gives the
subtotal 100.01 and stores the tax 10.001000000000001, whereas `subtotal * 0.10`
rounded to 2 decimal places is 10; and adding a charge of 1 gives the subtotal 101 and
stores the tax 10.100000000000001, which is neither 10.1 nor the double nearest to
it. -/
theorem invoice_tax_not_rounded :
    putAddCharges sampleStore envA 40 (some chargesCent) =
      (.json 200 invoiceCent, { sampleStore with invoices := [invoiceCent] }) ∧
    jsNumberString invoiceCent.subtotal = "100.01" ∧
    jsNumberString invoiceCent.tax = "10.001000000000001" ∧
    specRound2 ((7037578105208177 / 70368744177664) * (1 / 10)) = 10 ∧
    invoiceCent.subtotal = .finite (7037578105208177 / 70368744177664) ∧
    invoiceCent.tax ≠ .finite 10 ∧
    putAddCharges sampleStore envA 40 (some chargesOne) =
      (.json 200 invoiceOne, { sampleStore with invoices := [invoiceOne] }) ∧
    invoiceOne.subtotal = .finite 101 ∧
    jsNumberString invoiceOne.tax = "10.100000000000001" ∧
    invoiceOne.tax ≠ .finite (101 / 10) ∧ invoiceOne.tax ≠ toDouble (101 / 10) := by
  decide!

/-! ## Invoice on approval -/

/-- C9 (the code at the failing input). An admin approving the pending sample
appointment 50, which has no invoice, gets the 200 reply and the appointment is stored
as approved, but the set of invoices is unchanged: no invoice for appointment 50
exists afterwards. -/
theorem approval_creates_no_invoice :
    (putAppointment sampleStore envA .admin 50 ⟨none, .bool true⟩).1 = .json 200 approved50 ∧
    findAppointment (putAppointment sampleStore envA .admin 50 ⟨none, .bool true⟩).2 50 =
      some approved50 ∧
    findInvoiceByAppointment sampleStore 50 = none ∧
    (putAppointment sampleStore envA .admin 50 ⟨none, .bool true⟩).2.invoices =
      sampleStore.invoices ∧
    findInvoiceByAppointment (putAppointment sampleStore envA .admin 50 ⟨none, .bool true⟩).2 50 =
      none ∧
    insertInvoice sampleStore (approvalInvoice envA approved50) = none := by
  decide!

/-- C10. The appointment update leaves the invoices unchanged on every call in which
the actor is not an admin, or the requested status is not `true`, or the stored status
before the call was not `false`. -/
theorem appointment_update_invoice_guard (s : Store) (env : Env) (role : Role)
    (id : ObjectId) (body : AppointmentUpdate)
    (h : ¬ (role = .admin ∧ body.status = .bool true ∧
      (findAppointment s id).map (fun a => a.status) = some (some false))) :
    (putAppointment s env role id body).2.invoices = s.invoices := by
  unfold putAppointment
  split
  · rfl
  · rename_i appointment ha
    simp only
    split
    · split
      · have hg : ¬ (role = .admin ∧ body.status = .bool true ∧
            appointment.status = some false) := by
          intro hc
          apply h
          refine ⟨hc.1, hc.2.1, ?_⟩
          simp [ha, hc.2.2]
        rw [if_neg hg]
      · rfl
    · rfl

/-- Witness for C10: a doctor sends `status: true` for the pending sample
appointment. -/
theorem appointment_update_invoice_guard_witness :
    (putAppointment sampleStore envA .doctor 50 ⟨none, .bool true⟩).2.invoices =
      sampleStore.invoices :=
  appointment_update_invoice_guard sampleStore envA .doctor 50 ⟨none, .bool true⟩
    (by decide)


/-! ## Lemmas on runs of approval and generation -/

theorem insertInvoice_some {s s' : Store} {inv : Invoice} (h : insertInvoice s inv = some s') :
    ∃ inv', inv'.appointment = inv.appointment ∧ s'.invoices = s.invoices ++ [inv'] := by
  unfold insertInvoice at h
  split at h
  · simp only at h
    split at h
    · simp at h
    · split at h
      · simp at h
      · simp only [Option.some.injEq] at h
        subst h
        refine ⟨preSaveInvoice s.invoices.length inv, ?_, rfl⟩
        unfold preSaveInvoice
        split
        · rfl
        · split <;> rfl
  · simp at h

theorem invoicesFor_of_find_none {s : Store} {a : ObjectId}
    (h : findInvoiceByAppointment s a = none) : invoicesFor s a = [] := by
  unfold findInvoiceByAppointment at h
  unfold invoicesFor
  rw [List.find?_eq_none] at h
  rw [List.filter_eq_nil_iff]
  exact h

theorem autoCreateInvoice_adds (s : Store) (env : Env) (appointment : Appointment) :
    AddsAtMostOne s (autoCreateInvoice s env appointment) := by
  unfold autoCreateInvoice
  split
  · exact Or.inl rfl
  · rename_i hnone
    split
    · rename_i s' hins
      obtain ⟨inv', ha, hs⟩ := insertInvoice_some hins
      refine Or.inr ⟨inv', hs, ?_⟩
      rw [ha]
      exact invoicesFor_of_find_none hnone
    · exact Or.inl rfl

theorem putAppointment_adds (s : Store) (env : Env) (role : Role) (id : ObjectId)
    (body : AppointmentUpdate) : AddsAtMostOne s (putAppointment s env role id body).2 := by
  unfold putAppointment
  split
  · exact Or.inl rfl
  · simp only
    split
    · split
      · split
        · exact autoCreateInvoice_adds _ env _
        · exact Or.inl rfl
      · exact Or.inl rfl
    · exact Or.inl rfl

theorem putApprove_invoices (s : Store) (id : ObjectId) :
    (putApprove s id).2.invoices = s.invoices := by
  unfold putApprove
  split <;> rfl

theorem postGenerate_adds (strictPopulate : Bool) (s : Store) (env : Env)
    (body : GenerateBody) : AddsAtMostOne s (postGenerate strictPopulate s env body).2 := by
  unfold postGenerate
  split
  · exact Or.inl rfl
  · split
    · exact Or.inl rfl
    · split
      · exact Or.inl rfl
      · rename_i hnone
        split
        · simp only
          split
          · rename_i s' hins
            obtain ⟨inv', ha, hs⟩ := insertInvoice_some hins
            refine Or.inr ⟨inv', hs, ?_⟩
            rw [ha]
            exact invoicesFor_of_find_none hnone
          · exact Or.inl rfl
        · exact Or.inl rfl

theorem step_adds (strictPopulate : Bool) (s : Store) (c : Call) :
    AddsAtMostOne s (step strictPopulate s c) := by
  cases c with
  | update env role id body => exact putAppointment_adds s env role id body
  | approve id => exact Or.inl (putApprove_invoices s id)
  | generate env body => exact postGenerate_adds strictPopulate s env body

theorem invoicesFor_adds {s s' : Store} (h : AddsAtMostOne s s') (a : ObjectId) :
    ((invoicesFor s a).length ≤ 1 → (invoicesFor s' a).length ≤ 1) ∧
    (invoicesFor s a ≠ [] → invoicesFor s' a = invoicesFor s a) := by
  rcases h with h | ⟨inv, h, hnone⟩
  · simp [invoicesFor, h]
  · by_cases ha : inv.appointment = a
    · subst ha
      simp [invoicesFor, h] at hnone ⊢
      exact ⟨fun _ => hnone, hnone⟩
    · simp [invoicesFor, h, ha, List.filter_append]

theorem run_invoicesFor (strictPopulate : Bool) (calls : List Call) (s : Store) (a : ObjectId) :
    ((invoicesFor s a).length ≤ 1 → (invoicesFor (run strictPopulate s calls) a).length ≤ 1) ∧
    (invoicesFor s a ≠ [] → invoicesFor (run strictPopulate s calls) a = invoicesFor s a) := by
  induction calls generalizing s with
  | nil => simp [run]
  | cons c cs ih =>
    have h1 := invoicesFor_adds (step_adds strictPopulate s c) a
    have h2 := ih (step strictPopulate s c)
    simp only [run, List.foldl] at h2 ⊢
    refine ⟨fun h => h2.1 (h1.1 h), fun h => ?_⟩
    have e := h1.2 h
    rw [h2.2 (by rw [e]; exact h), e]


/-! ## One invoice per appointment, and the routes that should bill -/

/-- C11 (as amended). In every sequential run of appointment updates, approvals and
generate calls that starts with at most one invoice per appointment, every appointment
still has at most one invoice afterwards, and an appointment that has an invoice keeps
exactly the invoices it had: approving it again, re-approving it after a reset and
generating for it add none. A generate call for an appointment that has an invoice
leaves the store unchanged; it is answered 500 when `strictPopulate`, the default of
Mongoose, rejects the query, and 400 only when that option is off. -/
theorem one_invoice_per_appointment (strictPopulate : Bool) (s : Store) (calls : List Call)
    (h : ∀ a, (invoicesFor s a).length ≤ 1) :
    (∀ a, (invoicesFor (run strictPopulate s calls) a).length ≤ 1) ∧
    (∀ a, invoicesFor s a ≠ [] →
      invoicesFor (run strictPopulate s calls) a = invoicesFor s a) ∧
    (∀ (env : Env) (body : GenerateBody) (appointment : Appointment) (invoice : Invoice),
      findAppointment s body.appointmentId = some appointment →
      findInvoiceByAppointment s body.appointmentId = some invoice →
      postGenerate strictPopulate s env body =
        (if strictPopulate then .fail 500 "Server error"
          else .fail 400 "Invoice already exists for this appointment", s)) := by
  refine ⟨fun a => (run_invoicesFor strictPopulate calls s a).1 (h a),
    fun a => (run_invoicesFor strictPopulate calls s a).2, ?_⟩
  intro env body appointment invoice ha hi
  unfold postGenerate
  simp only [ha, hi]
  split <;> rfl

/-- Witness for C11: scenario C and its variants on the sample appointment 51, which
keeps its one invoice. -/
theorem one_invoice_per_appointment_witness :
    (invoicesFor (run true sampleStore sampleCalls) 51).length ≤ 1 ∧
    invoicesFor (run true sampleStore sampleCalls) 51 = [invoice40] ∧
    postGenerate false sampleStore envA ⟨51, []⟩ =
      (.fail 400 "Invoice already exists for this appointment", sampleStore) :=
  have h := one_invoice_per_appointment true sampleStore sampleCalls
    (fun a => (List.length_filter_le _ _).trans (by decide))
  have h' := one_invoice_per_appointment false sampleStore sampleCalls
    (fun a => (List.length_filter_le _ _).trans (by decide))
  ⟨h.1 51, (h.2.1 51 (by decide!)).trans (by decide!),
    h'.2.2 envA ⟨51, []⟩ ⟨51, 21, 10, "Cy Dow", "Bob Ray", 0, "follow-up", some true, 0⟩
      invoice40 (by decide!) (by decide!)⟩

/-- Counterexample to C11: with `strictPopulate` on, the generate call for the sample
appointment 51, which has the invoice 40, is answered 500, not 400; the store is
unchanged. -/
theorem generate_for_billed_appointment_is_500 :
    findInvoiceByAppointment sampleStore 51 = some invoice40 ∧
    postGenerate true sampleStore envA ⟨51, []⟩ = (.fail 500 "Server error", sampleStore) ∧
    (postGenerate true sampleStore envA ⟨51, []⟩).1.status ≠ 400 ∧
    (postGenerate true sampleStore envA ⟨51, []⟩).1.isClientError = false := by
  decide!

/-- C12 (the code at the failing input). The admin approves the pending sample
appointment 50 through `PUT /api/appointment/50/approve`: the stored status changes
from false to true and no invoice for the appointment exists afterwards. -/
theorem approve_route_creates_no_invoice :
    (findAppointment sampleStore 50).map (fun a => a.status) = some (some false) ∧
    (putApprove sampleStore 50).1 = .json 200 approved50 ∧
    findAppointment (putApprove sampleStore 50).2 50 = some approved50 ∧
    approved50.status = some true ∧
    findInvoiceByAppointment (putApprove sampleStore 50).2 50 = none ∧
    (putApprove sampleStore 50).2.invoices = sampleStore.invoices := by
  decide!

/-- C13 (the code at the failing input). For the existing sample appointment 50, which
has no invoice, `POST /api/invoices/generate` replies 500 and persists nothing, with
`strictPopulate` on or off. -/
theorem generate_fails_for_existing_appointment :
    (findAppointment sampleStore 50).isSome = true ∧
    findInvoiceByAppointment sampleStore 50 = none ∧
    postGenerate true sampleStore envA ⟨50, []⟩ = (.fail 500 "Server error", sampleStore) ∧
    postGenerate false sampleStore envA ⟨50, []⟩ = (.fail 500 "Server error", sampleStore) ∧
    postGenerate false sampleStore envA ⟨50, [⟨"X-ray", 50⟩]⟩ =
      (.fail 500 "Server error", sampleStore) := by
  decide!

/-! ## Access to the invoice routes -/

/-- C14 (the code at the failing input). A user with the role patient adds the charge
`X-ray` for 50 to the sample invoice: the reply is 200 and the stored invoice has the
new item and the totals 150, 15 and 165. -/
theorem patient_adds_charges :
    userAnn.role = .patient ∧
    addChargesAs sampleStore envA userAnn 40 (some chargesD) =
      (.json 200 invoiceD, { sampleStore with invoices := [invoiceD] }) ∧
    invoiceD.items ≠ invoice40.items ∧ invoiceD.total = 165 ∧ invoice40.total = 110 := by
  decide!

/-- C15 (the code at the failing input). A user with the role doctor marks the sample
invoice paid with a payment date: the reply is 200 and the stored status and
`paymentDate` are changed. -/
theorem doctor_sets_invoice_status :
    userBob.role = .doctor ∧
    putInvoiceStatus sampleStore envA userBob 40 ⟨"paid", .date 1000⟩ =
      (.json 200 "Invoice status updated successfully",
        { sampleStore with invoices := [invoicePaid] }) ∧
    invoice40.status = "pending" ∧ invoicePaid.status = "paid" ∧
    invoice40.paymentDate = none ∧ invoicePaid.paymentDate = some 1000 := by
  decide!

/-- C16 (the code at the failing input). The patient user whose own profile is patient
20 requests the invoices of patient 21 and receives that patient's invoice. -/
theorem patient_reads_other_invoices :
    userAnn.role = .patient ∧
    (findPatientByUser sampleStore userAnn.id).map (fun p => p.id) = some 20 ∧
    invoice40.patient = 21 ∧
    getPatientInvoices sampleStore userAnn 21 = .json 200 [invoice40] := by
  decide!




/-! ## Lemmas on the invoice status route -/

theorem preSaveInvoice_of_hasNumber {inv : Invoice} (h : hasInvoiceNumber inv = true)
    (count : Nat) : preSaveInvoice count inv = inv := by
  unfold hasInvoiceNumber at h
  unfold preSaveInvoice
  split
  · rename_i hn; simp [hn] at h
  · rename_i n hn
    simp only [hn, decide_eq_true_eq] at h
    simp [h]

theorem assignStatus_some {inv ch : Invoice} {body : StatusBody}
    (h : assignStatus inv body = some ch) :
    ch.status = body.status ∧
    (body.status = "paid" → ∀ t, body.paymentDate = .date t → ch.paymentDate = some t) ∧
    (body.status ≠ "paid" ∨ body.paymentDate = .absent → ch.paymentDate = inv.paymentDate) ∧
    ch = { inv with status := ch.status, paymentDate := ch.paymentDate } := by
  unfold assignStatus at h
  simp only at h
  split at h
  · rename_i hp
    split at h
    · rename_i ha
      simp only [Option.some.injEq] at h; subst h; simp [hp, ha]
    · rename_i t ht
      simp only [Option.some.injEq] at h; subst h; simp [hp, ht]
    · simp at h
  · rename_i hp
    simp only [Option.some.injEq] at h; subst h; simp [hp]

theorem assignStatus_again {inv ch : Invoice} {body : StatusBody}
    (h : assignStatus inv body = some ch) (t : Int) :
    assignStatus { ch with updatedAt := t } body = some { ch with updatedAt := t } := by
  unfold assignStatus at h ⊢
  simp only at h ⊢
  split at h
  · rename_i hp
    split at h
    · simp only [Option.some.injEq] at h; subst h; simp [hp]
    · rename_i t ht
      simp only [Option.some.injEq] at h; subst h; simp [hp]
    · simp at h
  · rename_i hp
    simp only [Option.some.injEq] at h; subst h; simp [hp]

theorem map_replace_again (l : List Invoice) (id : ObjectId) (x : Invoice) (hx : x.id = id) :
    (l.map (fun i => if i.id = id then x else i)).map (fun i => if i.id = id then x else i) =
      l.map (fun i => if i.id = id then x else i) := by
  rw [List.map_map]
  apply List.map_congr_left
  intro a _
  by_cases ha : a.id = id <;> simp [ha, hx]


theorem validInvoice_iff (inv : Invoice) :
    validInvoice inv = true ↔ validInvoicePaths inv = true ∧ inv.status ∈ invoiceStatuses := by
  unfold validInvoice
  simp only [Bool.and_eq_true, List.contains_iff_exists_mem_beq, beq_iff_eq, exists_eq_right']

theorem validInvoice_hasNumber {inv : Invoice} (h : validInvoice inv = true) :
    hasInvoiceNumber inv = true := by
  have h1 := ((validInvoice_iff inv).mp h).1
  unfold validInvoicePaths at h1
  simp only [Bool.and_eq_true] at h1
  exact h1.1.1.1.1.1.1.1

theorem validInvoicePaths_assign {inv ch : Invoice} {body : StatusBody}
    (h : assignStatus inv body = some ch) : validInvoicePaths ch = validInvoicePaths inv := by
  have h4 := (assignStatus_some h).2.2.2
  rw [h4]
  rfl

/-- The document the status route writes for the stored `inv` and its changed copy. -/
theorem updateInvoiceStatus_some {s s' : Store} {env : Env} {inv ch : Invoice}
    (h : updateInvoiceStatus s env inv ch = some s') :
    validInvoice ch = true ∧
    s' = { s with invoices := s.invoices.map (fun i =>
      if i.id = inv.id then (if ch = inv then ch else { ch with updatedAt := env.docNow })
      else i) } := by
  unfold updateInvoiceStatus at h
  split at h
  · rename_i hc
    simp only [Option.some.injEq] at h
    refine ⟨hc, ?_⟩
    rw [← h, preSaveInvoice_of_hasNumber (validInvoice_hasNumber hc)]
  · simp at h

theorem updateInvoiceStatus_of_valid (s : Store) (env : Env) {inv ch : Invoice}
    (hv : validInvoice ch = true) :
    updateInvoiceStatus s env inv ch = some { s with invoices := s.invoices.map (fun i =>
      if i.id = inv.id then (if ch = inv then ch else { ch with updatedAt := env.docNow })
      else i) } := by
  unfold updateInvoiceStatus
  rw [if_pos hv, preSaveInvoice_of_hasNumber (validInvoice_hasNumber hv)]

theorem updateInvoiceStatus_of_invalid (s : Store) (env : Env) {inv ch : Invoice}
    (hv : validInvoice ch = false) : updateInvoiceStatus s env inv ch = none := by
  unfold updateInvoiceStatus
  rw [if_neg (by simp [hv])]

theorem findInvoice_after_status {s : Store} {env : Env} {id : ObjectId} {inv ch : Invoice}
    (hf : findInvoice s id = some inv) (hid : ch.id = id) :
    findInvoice { s with invoices := s.invoices.map (fun i =>
      if i.id = inv.id then (if ch = inv then ch else { ch with updatedAt := env.docNow })
      else i) } id =
      some (if ch = inv then ch else { ch with updatedAt := env.docNow }) := by
  have hinv := findInvoice_id hf
  unfold findInvoice
  simp only [hinv]
  apply find_replace_invoice _ _ _ inv _ hf
  split <;> simp [hid]

theorem assignStatus_id {inv ch : Invoice} {body : StatusBody}
    (h : assignStatus inv body = some ch) :
    ch.id = inv.id ∧ ch.invoiceNumber = inv.invoiceNumber := by
  have h4 := (assignStatus_some h).2.2.2
  constructor
  · rw [h4]
  · rw [h4]

theorem putInvoiceStatus_ok {s : Store} (env : Env) (user : ReqUser) {id : ObjectId}
    {body : StatusBody} {inv ch : Invoice} (hf : findInvoice s id = some inv)
    (ha : assignStatus inv body = some ch) (hv : validInvoice ch = true) :
    putInvoiceStatus s env user id body =
      (.json 200 "Invoice status updated successfully",
        { s with invoices := s.invoices.map (fun i =>
          if i.id = inv.id then (if ch = inv then ch else { ch with updatedAt := env.docNow })
          else i) }) := by
  have hu := @updateInvoiceStatus_of_valid s env inv ch hv
  unfold putInvoiceStatus
  simp only [hf, ha, Option.some_bind, hu]

theorem putInvoiceStatus_invalid {s : Store} (env : Env) (user : ReqUser) {id : ObjectId}
    {body : StatusBody} {inv ch : Invoice} (hf : findInvoice s id = some inv)
    (ha : assignStatus inv body = some ch) (hv : validInvoice ch = false) :
    putInvoiceStatus s env user id body = (.fail 500 "Server error", s) := by
  have hu := @updateInvoiceStatus_of_invalid s env inv ch hv
  unfold putInvoiceStatus
  simp only [hf, ha, Option.some_bind, hu]

theorem assignStatus_isSome (inv : Invoice) (body : StatusBody)
    (h : ¬ (body.status = "paid" ∧ body.paymentDate = .invalid)) :
    ∃ ch, assignStatus inv body = some ch := by
  unfold assignStatus
  simp only
  split
  · rename_i hp
    split
    · exact ⟨_, rfl⟩
    · exact ⟨_, rfl⟩
    · rename_i hinv
      exact absurd ⟨hp, hinv⟩ h
  · exact ⟨_, rfl⟩

theorem assignStatus_invalid (inv : Invoice) (body : StatusBody)
    (h : body.status = "paid" ∧ body.paymentDate = .invalid) :
    assignStatus inv body = none := by
  unfold assignStatus
  simp [h.1, h.2]

/-! ## Invoice status -/

/-- C17 (as amended). A status outside {pending, paid, overdue} always makes the save
fail on the `enum` validator: the reply is 500 `Server error` and the store, so the
stored invoice, is unchanged. A status inside the set is stored, with the reply 200,
when the stored invoice passes the other validators that `save()` runs on every loaded
path and a payment date sent with `paid` casts to a date; when one of the two fails,
the reply is 500 as well and the store is unchanged. -/
theorem invoice_status_enum (s : Store) (env : Env) (user : ReqUser) (id : ObjectId)
    (body : StatusBody) (inv : Invoice) (hf : findInvoice s id = some inv) :
    (body.status ∉ invoiceStatuses →
      putInvoiceStatus s env user id body = (.fail 500 "Server error", s)) ∧
    (body.status ∈ invoiceStatuses → validInvoicePaths inv = true →
      ¬ (body.status = "paid" ∧ body.paymentDate = .invalid) →
      (putInvoiceStatus s env user id body).1 =
        .json 200 "Invoice status updated successfully" ∧
      (findInvoice (putInvoiceStatus s env user id body).2 id).map (fun i => i.status) =
        some body.status) ∧
    (validInvoicePaths inv = false ∨ (body.status = "paid" ∧ body.paymentDate = .invalid) →
      putInvoiceStatus s env user id body = (.fail 500 "Server error", s)) := by
  have hfail : ∀ ch, assignStatus inv body = some ch → validInvoice ch = false →
      putInvoiceStatus s env user id body = (.fail 500 "Server error", s) :=
    fun ch ha hv => putInvoiceStatus_invalid env user hf ha hv
  have hnone : assignStatus inv body = none →
      putInvoiceStatus s env user id body = (.fail 500 "Server error", s) := by
    intro ha
    unfold putInvoiceStatus
    simp only [hf, ha, Option.none_bind]
  refine ⟨?_, ?_, ?_⟩
  · intro hout
    cases ha : assignStatus inv body with
    | none => exact hnone ha
    | some ch =>
      apply hfail ch ha
      have hst := (assignStatus_some ha).1
      cases hv : validInvoice ch with
      | false => rfl
      | true =>
        exfalso
        have := ((validInvoice_iff ch).mp hv).2
        rw [hst] at this
        exact hout this
  · intro hin hpaths hpd
    obtain ⟨ch, ha⟩ := assignStatus_isSome inv body hpd
    have hst := (assignStatus_some ha).1
    obtain ⟨hid, -⟩ := assignStatus_id ha
    have hv : validInvoice ch = true := by
      rw [validInvoice_iff, validInvoicePaths_assign ha, hst]
      exact ⟨hpaths, hin⟩
    rw [putInvoiceStatus_ok env user hf ha hv]
    refine ⟨rfl, ?_⟩
    simp only
    rw [findInvoice_after_status hf (hid.trans (findInvoice_id hf))]
    split <;> simp [hst]
  · rintro (hpaths | hpd)
    · cases ha : assignStatus inv body with
      | none => exact hnone ha
      | some ch =>
        apply hfail ch ha
        cases hv : validInvoice ch with
        | false => rfl
        | true =>
          exfalso
          have := ((validInvoice_iff ch).mp hv).1
          rw [validInvoicePaths_assign ha, hpaths] at this
          simp at this
    · exact hnone (assignStatus_invalid inv body hpd)

/-- Witness for C17: on the sample invoice the status `void` is answered 500 with the
store unchanged, the status `overdue` is stored, and the status `paid` with a payment
date that does not cast is answered 500. -/
theorem invoice_status_enum_witness :
    putInvoiceStatus sampleStore envA userAdmin 40 ⟨"void", .absent⟩ =
      (.fail 500 "Server error", sampleStore) ∧
    (putInvoiceStatus sampleStore envA userAdmin 40 ⟨"overdue", .absent⟩).1 =
      .json 200 "Invoice status updated successfully" ∧
    (findInvoice (putInvoiceStatus sampleStore envA userAdmin 40 ⟨"overdue", .absent⟩).2
      40).map (fun i => i.status) = some "overdue" ∧
    putInvoiceStatus sampleStore envA userAdmin 40 ⟨"paid", .invalid⟩ =
      (.fail 500 "Server error", sampleStore) :=
  have h1 := (invoice_status_enum sampleStore envA userAdmin 40 ⟨"void", .absent⟩ invoice40
    (by decide!)).1 (by decide)
  have h2 := (invoice_status_enum sampleStore envA userAdmin 40 ⟨"overdue", .absent⟩ invoice40
    (by decide!)).2.1 (by decide) (by decide!) (by decide)
  have h3 := (invoice_status_enum sampleStore envA userAdmin 40 ⟨"paid", .invalid⟩ invoice40
    (by decide!)).2.2 (Or.inr ⟨rfl, rfl⟩)
  ⟨h1, h2.1, h2.2, h3⟩

/-- Counterexample to C17: the status `void` fails with the reply 500 `Server error`,
which is not a client (4xx) validation reply; and the status `paid`, which is inside
the set, is not stored when the payment date sent with it does not cast, nor is a
status of the set stored on an invoice with an item that has lost its description. -/
theorem invalid_status_is_server_error :
    "void" ∉ invoiceStatuses ∧
    (putInvoiceStatus sampleStore envA userAdmin 40 ⟨"void", .absent⟩).1 =
      .fail 500 "Server error" ∧
    (putInvoiceStatus sampleStore envA userAdmin 40 ⟨"void", .absent⟩).1.isClientError =
      false ∧
    "paid" ∈ invoiceStatuses ∧
    putInvoiceStatus sampleStore envA userAdmin 40 ⟨"paid", .invalid⟩ =
      (.fail 500 "Server error", sampleStore) ∧
    putInvoiceStatus storeBrokenInvoice envA userAdmin 40 ⟨"overdue", .absent⟩ =
      (.fail 500 "Server error", storeBrokenInvoice) := by
  decide!

/-- C18 (as amended). For a call with status `paid` on a stored invoice that passes
the validators `save()` runs on every loaded path: a payment date that is supplied and
casts to a date is stored together with the status `paid`; when the payment date is
missing the call is answered 200 all the same, the invoice is marked `paid` and its
`paymentDate` stays as it was. When the stored invoice does not pass the validators or
the payment date does not cast, the call is answered 500 and nothing is stored. -/
theorem paid_payment_date (s : Store) (env : Env) (user : ReqUser) (id : ObjectId)
    (paymentDate : PaymentDate) (inv : Invoice) (hf : findInvoice s id = some inv) :
    (validInvoicePaths inv = true → paymentDate ≠ .invalid →
      (putInvoiceStatus s env user id ⟨"paid", paymentDate⟩).1 =
        .json 200 "Invoice status updated successfully" ∧
      (∀ t, paymentDate = .date t →
        (findInvoice (putInvoiceStatus s env user id ⟨"paid", paymentDate⟩).2 id).map
          (fun i => (i.status, i.paymentDate)) = some ("paid", some t)) ∧
      (paymentDate = .absent →
        (findInvoice (putInvoiceStatus s env user id ⟨"paid", paymentDate⟩).2 id).map
          (fun i => (i.status, i.paymentDate)) = some ("paid", inv.paymentDate))) ∧
    (validInvoicePaths inv = false ∨ paymentDate = .invalid →
      putInvoiceStatus s env user id ⟨"paid", paymentDate⟩ = (.fail 500 "Server error", s)) := by
  constructor
  · intro hpaths hpd
    obtain ⟨ch, ha⟩ := assignStatus_isSome inv ⟨"paid", paymentDate⟩
      (fun hc => hpd hc.2)
    obtain ⟨hst, hdate, hkeep, -⟩ := assignStatus_some ha
    obtain ⟨hid, -⟩ := assignStatus_id ha
    have hmem : ch.status ∈ invoiceStatuses := by
      rw [hst]
      show "paid" ∈ invoiceStatuses
      decide
    have hv : validInvoice ch = true := by
      rw [validInvoice_iff, validInvoicePaths_assign ha]
      exact ⟨hpaths, hmem⟩
    rw [putInvoiceStatus_ok env user hf ha hv]
    have hst' : ch.status = "paid" := hst
    have hdate' : ∀ t, paymentDate = .date t → ch.paymentDate = some t := hdate rfl
    have hkeep' : paymentDate = .absent → ch.paymentDate = inv.paymentDate :=
      fun h => hkeep (Or.inr h)
    refine ⟨rfl, ?_, ?_⟩
    · intro t ht
      simp only
      rw [findInvoice_after_status hf (hid.trans (findInvoice_id hf))]
      split <;> simp [hst', hdate' t ht]
    · intro habs
      simp only
      rw [findInvoice_after_status hf (hid.trans (findInvoice_id hf))]
      split <;> simp [hst', hkeep' habs]
  · intro hbad
    have h3 := (invoice_status_enum s env user id ⟨"paid", paymentDate⟩ inv hf).2.2
    apply h3
    rcases hbad with hp | hd
    · exact Or.inl hp
    · exact Or.inr ⟨rfl, hd⟩

/-- Witness for C18: the sample invoice marked paid with the payment date 1000. -/
theorem paid_payment_date_witness :
    (putInvoiceStatus sampleStore envA userAdmin 40 ⟨"paid", .date 1000⟩).1 =
      .json 200 "Invoice status updated successfully" ∧
    (findInvoice (putInvoiceStatus sampleStore envA userAdmin 40 ⟨"paid", .date 1000⟩).2
      40).map (fun i => (i.status, i.paymentDate)) = some ("paid", some 1000) :=
  have h := (paid_payment_date sampleStore envA userAdmin 40 (.date 1000) invoice40
    (by decide!)).1 (by decide!) (by decide)
  ⟨h.1, h.2.1 1000 rfl⟩

/-- Counterexample to C18: with status `paid` and no payment date the call is answered
200 and the sample invoice is stored as paid, without a payment date. -/
theorem paid_without_date_is_accepted :
    putInvoiceStatus sampleStore envA userAdmin 40 ⟨"paid", .absent⟩ =
      (.json 200 "Invoice status updated successfully",
        { sampleStore with invoices := [invoicePaidUndated] }) ∧
    invoicePaidUndated.status = "paid" ∧ invoicePaidUndated.paymentDate = none := by
  decide!


/-- C19. Setting an invoice status is idempotent: for every store, invoice id, status
and payment date, a second call with the same body, at whatever later time, gives the
same reply and leaves the store exactly as the first call left it. -/
theorem invoice_status_idempotent (s : Store) (env1 env2 : Env) (user : ReqUser)
    (id : ObjectId) (body : StatusBody) :
    putInvoiceStatus (putInvoiceStatus s env1 user id body).2 env2 user id body =
      putInvoiceStatus s env1 user id body := by
  cases hf : findInvoice s id with
  | none =>
    have h1 : putInvoiceStatus s env1 user id body = (.fail 404 "Invoice not found", s) := by
      unfold putInvoiceStatus; simp only [hf]
    rw [h1]
    unfold putInvoiceStatus
    simp only [hf]
  | some inv =>
    cases ha : assignStatus inv body with
    | none =>
      have h1 : ∀ env, putInvoiceStatus s env user id body = (.fail 500 "Server error", s) := by
        intro env
        unfold putInvoiceStatus; simp only [hf, ha, Option.none_bind]
      rw [h1 env1]
      exact h1 env2
    | some ch =>
      cases hu : updateInvoiceStatus s env1 inv ch with
      | none =>
        have hu2 : updateInvoiceStatus s env2 inv ch = none := by
          unfold updateInvoiceStatus at hu ⊢
          split at hu
          · simp at hu
          · rename_i hc; rw [if_neg hc]
        have h1 : putInvoiceStatus s env1 user id body = (.fail 500 "Server error", s) := by
          unfold putInvoiceStatus; simp only [hf, ha, Option.some_bind, hu]
        rw [h1]
        unfold putInvoiceStatus
        simp only [hf, ha, Option.some_bind, hu2]
      | some s1 =>
        obtain ⟨hv, hs1⟩ := updateInvoiceStatus_some hu
        obtain ⟨hid, -⟩ := assignStatus_id ha
        have hinv := findInvoice_id hf
        have h1 := putInvoiceStatus_ok env1 user hf ha hv
        rw [h1]
        simp only
        have hsv : ∃ sv : Invoice, sv = (if ch = inv then ch
            else { ch with updatedAt := env1.docNow }) ∧ sv.id = id ∧
            validInvoice sv = true ∧ assignStatus sv body = some sv := by
          refine ⟨_, rfl, ?_, ?_, ?_⟩
          · split <;> simp [hid, hinv]
          · split
            · exact hv
            · exact hv
          · split
            · exact assignStatus_again ha ch.updatedAt
            · exact assignStatus_again ha env1.docNow
        obtain ⟨sv, hsv, hsvid, hsvn, hsva⟩ := hsv
        rw [← hsv]
        have hf2 : findInvoice { s with invoices := s.invoices.map (fun i =>
            if i.id = inv.id then sv else i) } id = some sv := by
          unfold findInvoice
          simp only [hinv]
          exact find_replace_invoice _ _ _ inv hsvid hf
        rw [putInvoiceStatus_ok env2 user hf2 hsva hsvn]
        simp only [if_true, hsvid, hinv]
        rw [map_replace_again _ _ _ hsvid]


/-! ## Frame of add-charges -/

theorem castCharges_some {cs : List Charge} {new : List InvoiceItem}
    (h : castCharges cs = some new) :
    cs = new.map (fun item => ⟨some item.description, some item.amount⟩) := by
  induction cs generalizing new with
  | nil =>
    simp only [castCharges, Option.some.injEq] at h
    subst h
    rfl
  | cons c rest ih =>
    unfold castCharges at h
    split at h
    · rename_i item items hc hrest
      simp only [Option.some.injEq] at h
      subst h
      have hc' : c = ⟨some item.description, some item.amount⟩ := by
        unfold castCharge at hc
        split at hc
        · rename_i d a hd hamt
          split at hc
          · simp at hc
          · simp only [Option.some.injEq] at hc
            subst hc
            cases c
            simp_all
        · simp at hc
      rw [List.map_cons, ← ih hrest, hc']
    · simp at h

/-- C20 (as amended). After a successful add-charges call the stored invoice has
`items` equal to the old items followed by the charges in order and
`additionalCharges` equal to the old ones followed by the charges in order; its id,
`invoiceNumber`, `appointment`, `patient`, `doctor`, `status`, `paymentDate`, the two
fee fields and `createdAt` are unchanged, and apart from `subtotal`, `tax` and `total`
the one other field written is the timestamp `updatedAt`, set to the time of the save
whenever a charge was added. No other invoice and no other collection is changed. -/
theorem add_charges_frame (s : Store) (env : Env) (id : ObjectId)
    (charges : Option (List Charge)) (st : Nat) (inv' : Invoice) (s' : Store)
    (h : putAddCharges s env id charges = (.json st inv', s')) :
    ∃ old new, findInvoice s id = some old ∧
      charges = some (new.map (fun item => ⟨some item.description, some item.amount⟩)) ∧
      inv'.items = old.items ++ new ∧
      inv'.additionalCharges = old.additionalCharges ++ new ∧
      inv'.id = old.id ∧ inv'.invoiceNumber = old.invoiceNumber ∧
      inv'.appointment = old.appointment ∧ inv'.patient = old.patient ∧
      inv'.doctor = old.doctor ∧ inv'.status = old.status ∧
      inv'.paymentDate = old.paymentDate ∧ inv'.appointmentFee = old.appointmentFee ∧
      inv'.consultationFee = old.consultationFee ∧ inv'.createdAt = old.createdAt ∧
      (inv'.updatedAt = old.updatedAt ∨ inv'.updatedAt = env.docNow) ∧
      (new ≠ [] → inv'.updatedAt = env.docNow) ∧
      s' = { s with invoices := s.invoices.map (fun i => if i.id = id then inv' else i) } := by
  unfold putAddCharges at h
  split at h
  · simp at h
  · rename_i old hold
    split at h
    · simp at h
    · rename_i new hnew
      simp only at h
      split at h
      · rename_i upd s1 hupd
        simp only [Prod.mk.injEq, Reply.json.injEq] at h
        obtain ⟨⟨-, rfl⟩, rfl⟩ := h
        unfold updateInvoiceItems at hupd
        split at hupd
        · rename_i hvalid
          rw [preSaveInvoice_of_hasNumber (validInvoice_hasNumber hvalid)] at hupd
          simp only [Option.some.injEq, Prod.mk.injEq] at hupd
          obtain ⟨rfl, rfl⟩ := hupd
          have hid := findInvoice_id hold
          have hcs : charges = some (new.map
              (fun item => ⟨some item.description, some item.amount⟩)) := by
            cases charges with
            | none => simp at hnew
            | some cs =>
              simp only [Option.some_bind] at hnew
              rw [castCharges_some hnew]
          refine ⟨old, new, hold, hcs, rfl, rfl, rfl, rfl, rfl, rfl, rfl, rfl, rfl, rfl, rfl, rfl,
            ?_, ?_, ?_⟩
          · simp only
            split
            · exact Or.inl rfl
            · exact Or.inr rfl
          · intro hne
            simp only
            rw [if_neg]
            rw [hid, hold]
            intro hc
            simp only [Option.some.injEq] at hc
            have := congrArg Invoice.items hc
            simp only [List.self_eq_append_right] at this
            exact hne this
          · simp only [hid]
        · simp at hupd
      · simp at h

/-- Witness for C20: scenario D on the sample invoice. -/
theorem add_charges_frame_witness :
    invoiceD.items = invoice40.items ++ [⟨"X-ray", 50⟩] ∧
    invoiceD.additionalCharges = invoice40.additionalCharges ++ [⟨"X-ray", 50⟩] ∧
    invoiceD.invoiceNumber = some "INV-000001" ∧ invoiceD.status = "pending" ∧
    ∃ old new, findInvoice sampleStore 40 = some old ∧
      some chargesD = some (new.map (fun item => ⟨some item.description, some item.amount⟩)) ∧
      invoiceD.items = old.items ++ new ∧
      invoiceD.additionalCharges = old.additionalCharges ++ new ∧
      invoiceD.id = old.id ∧ invoiceD.invoiceNumber = old.invoiceNumber ∧
      invoiceD.appointment = old.appointment ∧ invoiceD.patient = old.patient ∧
      invoiceD.doctor = old.doctor ∧ invoiceD.status = old.status ∧
      invoiceD.paymentDate = old.paymentDate ∧ invoiceD.appointmentFee = old.appointmentFee ∧
      invoiceD.consultationFee = old.consultationFee ∧ invoiceD.createdAt = old.createdAt ∧
      (invoiceD.updatedAt = old.updatedAt ∨ invoiceD.updatedAt = envA.docNow) ∧
      (new ≠ [] → invoiceD.updatedAt = envA.docNow) ∧
      ({ sampleStore with invoices := [invoiceD] } : Store) =
        { sampleStore with
          invoices := sampleStore.invoices.map (fun i => if i.id = 40 then invoiceD else i) } :=
  ⟨by decide!, by decide!, by decide, by decide,
    add_charges_frame sampleStore envA 40 (some chargesD) 200 invoiceD
      { sampleStore with invoices := [invoiceD] } (by decide!)⟩

/-- Counterexample to C20: in scenario D the field `updatedAt`, which is none of
`items`, `additionalCharges`, `subtotal`, `tax` and `total`, changes from 0 to the
time of the save. -/
theorem add_charges_touches_updatedAt :
    findInvoice sampleStore 40 = some invoice40 ∧
    putAddCharges sampleStore envA 40 (some chargesD) =
      (.json 200 invoiceD, { sampleStore with invoices := [invoiceD] }) ∧
    invoice40.updatedAt = 0 ∧ invoiceD.updatedAt = 432000000 ∧
    invoiceD.updatedAt ≠ invoice40.updatedAt := by
  decide!



theorem makeInvoiceNumber_data (count : Nat) :
    (makeInvoiceNumber count).data =
      ['I', 'N', 'V', '-'] ++
        (List.replicate (6 - (toString (count + 1)).length) '0' ++ (toString (count + 1)).data) := by
  simp [makeInvoiceNumber, padStart, String.data_append]

theorem invoiceNumberValue_make (count : Nat) :
    invoiceNumberValue (makeInvoiceNumber count) = some (count + 1) := by
  unfold invoiceNumberValue
  rw [makeInvoiceNumber_data]
  simp only [List.drop_left' (by rfl : ['I', 'N', 'V', '-'].length = 4)]
  exact readDigits_zeros _ _ _

theorem makeInvoiceNumber_injective (a b : Nat) (h : makeInvoiceNumber a = makeInvoiceNumber b) :
    a = b := by
  have ha := invoiceNumberValue_make a
  rw [h, invoiceNumberValue_make b] at ha
  simpa using ha.symm

/-! ## Invoice numbers -/

/-- C21 (as amended). The `pre('save')` hook gives a document that has no invoice number
the number `INV-` followed by the decimal digits of `count + 1`, where `count` is the
number of stored invoices, padded with zeros on the left to at least six digits: the
part after `INV-` consists of digits, reads as `count + 1`, has at least six of them
and exactly six while `count + 1 < 1000000`. -/
theorem invoice_number_from_hook (count : Nat) (inv : Invoice)
    (h : inv.invoiceNumber = none ∨ inv.invoiceNumber = some "") :
    (preSaveInvoice count inv).invoiceNumber = some (makeInvoiceNumber count) ∧
    (makeInvoiceNumber count).data.take 4 = ['I', 'N', 'V', '-'] ∧
    (∀ c ∈ (makeInvoiceNumber count).data.drop 4, c.isDigit = true) ∧
    invoiceNumberValue (makeInvoiceNumber count) = some (count + 1) ∧
    6 ≤ ((makeInvoiceNumber count).data.drop 4).length ∧
    (count + 1 < 10 ^ 6 → ((makeInvoiceNumber count).data.drop 4).length = 6) := by
  have hdrop : (makeInvoiceNumber count).data.drop 4 =
      List.replicate (6 - (toString (count + 1)).length) '0' ++ (toString (count + 1)).data := by
    rw [makeInvoiceNumber_data]
    exact List.drop_left' (by rfl)
  have hlen : ((makeInvoiceNumber count).data.drop 4).length =
      (6 - (toString (count + 1)).length) + (toString (count + 1)).length := by
    rw [hdrop, List.length_append, List.length_replicate]
    rfl
  refine ⟨?_, ?_, ?_, invoiceNumberValue_make count, ?_, ?_⟩
  · unfold preSaveInvoice
    rcases h with h | h
    · simp [h]
    · simp [h]
  · rw [makeInvoiceNumber_data]
    rfl
  · intro c hc
    rw [hdrop] at hc
    rcases List.mem_append.mp hc with hc | hc
    · rw [List.eq_of_mem_replicate hc]
      decide
    · obtain ⟨d, hd, rfl⟩ := (toString_nat_spec (count + 1)).2.2.1 c hc
      exact isDigit_digitChar d hd
  · omega
  · intro hsmall
    have hle : (toString (count + 1)).length ≤ 6 :=
      Nat.repr_length (count + 1) 6 (by decide) hsmall
    omega

/-- Witness for C21: with 41 invoices stored, the draft built on approval would get the
number `INV-000042`. -/
theorem invoice_number_from_hook_witness :
    (preSaveInvoice 41 (approvalInvoice envA approved50)).invoiceNumber = some "INV-000042" ∧
    invoiceNumberValue (makeInvoiceNumber 41) = some 42 ∧
    ((makeInvoiceNumber 41).data.drop 4).length = 6 :=
  have h := invoice_number_from_hook 41 (approvalInvoice envA approved50) (Or.inl rfl)
  ⟨h.1.trans (by decide), h.2.2.2.1, h.2.2.2.2.2 (by decide)⟩

/-- Counterexample to C21: with no invoice stored the hook's number is `INV-000001`, not
the padded count `INV-000000`; with 999999 stored it is `INV-1000000`, seven digits. -/
theorem invoice_number_not_padded_count :
    (preSaveInvoice 0 (approvalInvoice envA approved50)).invoiceNumber = some "INV-000001" ∧
    "INV-000001" ≠ "INV-" ++ padStart 6 (toString 0) ∧
    (preSaveInvoice 999999 (approvalInvoice envA approved50)).invoiceNumber =
      some "INV-1000000" ∧
    ("INV-1000000".data.drop 4).length = 7 := by
  decide!


theorem putAppointment_invoices (s : Store) (env : Env) (role : Role) (id : ObjectId)
    (body : AppointmentUpdate) : (putAppointment s env role id body).2.invoices = s.invoices := by
  unfold putAppointment
  split
  · rfl
  · simp only
    split
    · split
      · split
        · rw [autoCreateInvoice_invoices]
        · rfl
      · rfl
    · rfl

theorem postGenerate_store (strictPopulate : Bool) (s : Store) (env : Env)
    (body : GenerateBody) : (postGenerate strictPopulate s env body).2 = s := by
  unfold postGenerate
  split
  · rfl
  · split
    · rfl
    · split
      · rfl
      · simp [Appointment.patient]

theorem step_invoices (strictPopulate : Bool) (s : Store) (c : Call) :
    (step strictPopulate s c).invoices = s.invoices := by
  cases c with
  | update env role id body => exact putAppointment_invoices s env role id body
  | approve id => exact putApprove_invoices s id
  | generate env body =>
    show (postGenerate strictPopulate s env body).2.invoices = s.invoices
    rw [postGenerate_store]

theorem putAddCharges_resaves (s : Store) (env : Env) (id : ObjectId)
    (charges : Option (List Charge)) : ResavesInvoice s (putAddCharges s env id charges).2 := by
  unfold putAddCharges
  split
  · exact Or.inl rfl
  · rename_i old hold
    split
    · exact Or.inl rfl
    · rename_i new hnew
      simp only
      split
      · rename_i upd s1 hupd
        unfold updateInvoiceItems at hupd
        split at hupd
        · rename_i hvalid
          rw [preSaveInvoice_of_hasNumber (validInvoice_hasNumber hvalid)] at hupd
          simp only [Option.some.injEq, Prod.mk.injEq] at hupd
          obtain ⟨rfl, rfl⟩ := hupd
          have hid := findInvoice_id hold
          subst hid
          refine Or.inr ⟨old.id, old, _, hold, ?_, ?_, rfl⟩
          · rfl
          · rfl
        · simp at hupd
      · exact Or.inl rfl

theorem putInvoiceStatus_resaves (s : Store) (env : Env) (user : ReqUser) (id : ObjectId)
    (body : StatusBody) : ResavesInvoice s (putInvoiceStatus s env user id body).2 := by
  unfold putInvoiceStatus
  split
  · exact Or.inl rfl
  · rename_i old hold
    split
    · rename_i s1 hs1
      cases ha : assignStatus old body with
      | none => simp [ha] at hs1
      | some ch =>
        simp only [ha, Option.some_bind] at hs1
        obtain ⟨-, hs⟩ := updateInvoiceStatus_some hs1
        obtain ⟨hid, hnum⟩ := assignStatus_id ha
        have hold_id := findInvoice_id hold
        refine Or.inr ⟨id, old,
          (if ch = old then ch else { ch with updatedAt := env.docNow }), hold, ?_, ?_, ?_⟩
        · split <;> simp [hid]
        · split <;> simp [hnum]
        · rw [hs, hold_id]
    · exact Or.inl rfl

theorem invoiceNumbers_resave {s s' : Store} (h : ResavesInvoice s s')
    (hid : (s.invoices.map (fun i => i.id)).Nodup) : invoiceNumbers s' = invoiceNumbers s := by
  rcases h with h | ⟨id, old, inv', hold, hi, hn, hs⟩
  · simp [invoiceNumbers, h]
  · unfold invoiceNumbers
    rw [hs, List.map_map]
    apply List.map_congr_left
    intro i hi_mem
    simp only [Function.comp]
    by_cases hc : i.id = id
    · have hold_mem : old ∈ s.invoices := by
        unfold findInvoice at hold
        exact List.mem_of_find?_eq_some hold
      have hold_id := findInvoice_id hold
      have : i = old :=
        List.inj_on_of_nodup_map hid hi_mem hold_mem (hc.trans hold_id.symm)
      rw [if_pos hc, hi, hn, this]
    · rw [if_neg hc]

theorem invoiceNumbers_ids (s : Store) :
    (invoiceNumbers s).map Prod.fst = s.invoices.map (fun i => i.id) := by
  simp [invoiceNumbers, List.map_map, Function.comp]

theorem invoiceNumbers_numbers (s : Store) :
    (invoiceNumbers s).map Prod.snd = s.invoices.map (fun i => i.invoiceNumber) := by
  simp [invoiceNumbers, List.map_map, Function.comp]

/-- What an accepted insert tells: the document passed the validation, it is stored
as it was, after the invoices stored before, and neither its id nor its number was in
the store. -/
theorem insertInvoice_spec {s s' : Store} {inv : Invoice} (h : insertInvoice s inv = some s') :
    validInvoice inv = true ∧ s'.invoices = s.invoices ++ [inv] ∧
    (∀ o ∈ s.invoices, o.id ≠ inv.id) ∧
    (∀ o ∈ s.invoices, o.invoiceNumber ≠ inv.invoiceNumber) := by
  unfold insertInvoice at h
  split at h
  · rename_i hv
    rw [preSaveInvoice_of_hasNumber (validInvoice_hasNumber hv)] at h
    simp only at h
    split at h
    · simp at h
    · rename_i hid
      split at h
      · simp at h
      · rename_i hnum
        simp only [Option.some.injEq] at h
        subst h
        refine ⟨hv, rfl, ?_, ?_⟩
        · intro o ho hc
          apply hid
          simp only [List.any_eq_true, decide_eq_true_eq]
          exact ⟨o, ho, hc⟩
        · intro o ho hc
          apply hnum
          simp only [List.any_eq_true, decide_eq_true_eq]
          exact ⟨o, ho, hc⟩
  · simp at h

theorem insertInvoice_of_fresh (s : Store) (inv : Invoice) (hv : validInvoice inv = true)
    (hid : ∀ o ∈ s.invoices, o.id ≠ inv.id)
    (hnum : ∀ o ∈ s.invoices, o.invoiceNumber ≠ inv.invoiceNumber) :
    insertInvoice s inv = some { s with invoices := s.invoices ++ [inv] } := by
  unfold insertInvoice
  rw [if_pos hv, preSaveInvoice_of_hasNumber (validInvoice_hasNumber hv)]
  simp only
  have h1 : ¬ (s.invoices.any (fun other => other.id = inv.id) = true) := by
    simp only [List.any_eq_true, decide_eq_true_eq]
    rintro ⟨o, ho, hc⟩
    exact hid o ho hc
  have h2 : ¬ (s.invoices.any (fun other => other.invoiceNumber = inv.invoiceNumber) = true) := by
    simp only [List.any_eq_true, decide_eq_true_eq]
    rintro ⟨o, ho, hc⟩
    exact hnum o ho hc
  rw [if_neg h1, if_neg h2]

theorem insertInvoice_without_number (s : Store) (inv : Invoice)
    (h : hasInvoiceNumber inv = false) : insertInvoice s inv = none := by
  unfold insertInvoice
  have hv : ¬ (validInvoice inv = true) := by
    intro hc
    rw [validInvoice_hasNumber hc] at h
    simp at h
  rw [if_neg hv]

/-- One operation keeps the ids and the numbers of the stored invoices distinct, and
leaves every stored invoice its id and number, new invoices coming after them. -/
theorem stepInvoiceOp_numbers (strictPopulate : Bool) (s : Store) (op : InvoiceOp)
    (hid : (s.invoices.map (fun i => i.id)).Nodup)
    (hn : (s.invoices.map (fun i => i.invoiceNumber)).Nodup) :
    ((stepInvoiceOp strictPopulate s op).invoices.map (fun i => i.id)).Nodup ∧
    ((stepInvoiceOp strictPopulate s op).invoices.map (fun i => i.invoiceNumber)).Nodup ∧
    invoiceNumbers s <+: invoiceNumbers (stepInvoiceOp strictPopulate s op) := by
  have same : ∀ s' : Store, invoiceNumbers s' = invoiceNumbers s →
      (s'.invoices.map (fun i => i.id)).Nodup ∧
      (s'.invoices.map (fun i => i.invoiceNumber)).Nodup ∧
      invoiceNumbers s <+: invoiceNumbers s' := by
    intro s' h
    refine ⟨?_, ?_, ?_⟩
    · rw [← invoiceNumbers_ids, h, invoiceNumbers_ids]
      exact hid
    · rw [← invoiceNumbers_numbers, h, invoiceNumbers_numbers]
      exact hn
    · rw [h]
  cases op with
  | creating call =>
    apply same
    show invoiceNumbers (step strictPopulate s call) = invoiceNumbers s
    unfold invoiceNumbers
    rw [step_invoices]
  | saveNew invoice =>
    show ((((insertInvoice s invoice).getD s).invoices.map (fun i => i.id)).Nodup ∧
      (((insertInvoice s invoice).getD s).invoices.map (fun i => i.invoiceNumber)).Nodup ∧
      invoiceNumbers s <+: invoiceNumbers ((insertInvoice s invoice).getD s))
    cases hins : insertInvoice s invoice with
    | none => exact same s rfl
    | some s' =>
      obtain ⟨-, hs, hfid, hfnum⟩ := insertInvoice_spec hins
      simp only [Option.getD_some]
      refine ⟨?_, ?_, ?_⟩
      · rw [hs, List.map_append, List.nodup_append]
        refine ⟨hid, by simp, ?_⟩
        intro a ha hb
        simp only [List.map_cons, List.map_nil, List.mem_singleton] at hb
        simp only [List.mem_map] at ha
        obtain ⟨o, ho, heq⟩ := ha
        exact hfid o ho (heq.trans hb)
      · rw [hs, List.map_append, List.nodup_append]
        refine ⟨hn, by simp, ?_⟩
        intro a ha hb
        simp only [List.map_cons, List.map_nil, List.mem_singleton] at hb
        simp only [List.mem_map] at ha
        obtain ⟨o, ho, heq⟩ := ha
        exact hfnum o ho (heq.trans hb)
      · unfold invoiceNumbers
        rw [hs, List.map_append]
        exact List.prefix_append _ _
  | addCharges env user id charges =>
    exact same _ (invoiceNumbers_resave (putAddCharges_resaves s env id charges) hid)
  | setStatus env user id body =>
    exact same _ (invoiceNumbers_resave (putInvoiceStatus_resaves s env user id body) hid)

theorem runInvoiceOps_numbers (strictPopulate : Bool) (ops : List InvoiceOp) (s : Store)
    (hid : (s.invoices.map (fun i => i.id)).Nodup)
    (hn : (s.invoices.map (fun i => i.invoiceNumber)).Nodup) :
    ((runInvoiceOps strictPopulate s ops).invoices.map (fun i => i.id)).Nodup ∧
    ((runInvoiceOps strictPopulate s ops).invoices.map (fun i => i.invoiceNumber)).Nodup ∧
    invoiceNumbers s <+: invoiceNumbers (runInvoiceOps strictPopulate s ops) := by
  induction ops generalizing s with
  | nil => exact ⟨hid, hn, List.prefix_refl _⟩
  | cons op rest ih =>
    obtain ⟨h1, h2, h3⟩ := stepInvoiceOp_numbers strictPopulate s op hid hn
    obtain ⟨k1, k2, k3⟩ := ih (stepInvoiceOp strictPopulate s op) h1 h2
    simp only [runInvoiceOps, List.foldl] at k1 k2 k3 ⊢
    exact ⟨k1, k2, h3.trans k3⟩

/-- C22 (as amended). Over every run of invoice-creating calls (appointment updates,
approvals, generate calls), of saves of new invoice documents and of saves of stored
invoices (add-charges, set-status), from a store whose invoices have distinct ids and
numbers, no two stored invoices carry the same number, and every stored invoice keeps
its id and number, new invoices being stored after them; a call of a route never
changes a number. An accepted save stores the document with the number it came with:
the hook gives the number `count + 1`, which grows strictly with the count and never
repeats, only to a document that has none, and such a document is rejected by the
validation before the hook runs. -/
theorem invoice_numbers_unique (strictPopulate : Bool) (s : Store) (ops : List InvoiceOp)
    (hid : (s.invoices.map (fun i => i.id)).Nodup)
    (hn : (s.invoices.map (fun i => i.invoiceNumber)).Nodup) :
    ((runInvoiceOps strictPopulate s ops).invoices.map (fun i => i.invoiceNumber)).Nodup ∧
    ((runInvoiceOps strictPopulate s ops).invoices.map (fun i => i.id)).Nodup ∧
    invoiceNumbers s <+: invoiceNumbers (runInvoiceOps strictPopulate s ops) ∧
    (∀ (env : Env) (user : ReqUser) (id : ObjectId) (charges : Option (List Charge)),
      invoiceNumbers (stepInvoiceOp strictPopulate s (.addCharges env user id charges)) =
        invoiceNumbers s) ∧
    (∀ (env : Env) (user : ReqUser) (id : ObjectId) (body : StatusBody),
      invoiceNumbers (stepInvoiceOp strictPopulate s (.setStatus env user id body)) =
        invoiceNumbers s) ∧
    (∀ call : Call,
      invoiceNumbers (stepInvoiceOp strictPopulate s (.creating call)) = invoiceNumbers s) ∧
    (∀ (s0 s1 : Store) (inv : Invoice), insertInvoice s0 inv = some s1 →
      hasInvoiceNumber inv = true ∧ s1.invoices = s0.invoices ++ [inv] ∧
      (∀ o ∈ s0.invoices, o.invoiceNumber ≠ inv.invoiceNumber)) ∧
    (∀ (s0 : Store) (inv : Invoice), validInvoice inv = true →
      (∀ o ∈ s0.invoices, o.id ≠ inv.id) →
      (∀ o ∈ s0.invoices, o.invoiceNumber ≠ inv.invoiceNumber) →
      insertInvoice s0 inv = some { s0 with invoices := s0.invoices ++ [inv] }) ∧
    (∀ (s0 : Store) (inv : Invoice), hasInvoiceNumber inv = false →
      insertInvoice s0 inv = none ∧
      (preSaveInvoice s0.invoices.length inv).invoiceNumber =
        some (makeInvoiceNumber s0.invoices.length) ∧
      invoiceNumberValue (makeInvoiceNumber s0.invoices.length) =
        some (s0.invoices.length + 1)) ∧
    (∀ a b : Nat, a < b →
      ∃ x y, invoiceNumberValue (makeInvoiceNumber a) = some x ∧
        invoiceNumberValue (makeInvoiceNumber b) = some y ∧ x < y) ∧
    (∀ a b : Nat, makeInvoiceNumber a = makeInvoiceNumber b → a = b) := by
  obtain ⟨r1, r2, r3⟩ := runInvoiceOps_numbers strictPopulate ops s hid hn
  refine ⟨r2, r1, r3, ?_, ?_, ?_, ?_, ?_, ?_, ?_, makeInvoiceNumber_injective⟩
  · intro env user id charges
    exact invoiceNumbers_resave (putAddCharges_resaves s env id charges) hid
  · intro env user id body
    exact invoiceNumbers_resave (putInvoiceStatus_resaves s env user id body) hid
  · intro call
    show invoiceNumbers (step strictPopulate s call) = invoiceNumbers s
    unfold invoiceNumbers
    rw [step_invoices]
  · intro s0 s1 inv hins
    obtain ⟨hv, hs, -, hnum⟩ := insertInvoice_spec hins
    exact ⟨validInvoice_hasNumber hv, hs, hnum⟩
  · intro s0 inv hv h1 h2
    exact insertInvoice_of_fresh s0 inv hv h1 h2
  · intro s0 inv hno
    refine ⟨insertInvoice_without_number s0 inv hno, ?_, invoiceNumberValue_make _⟩
    unfold hasInvoiceNumber at hno
    unfold preSaveInvoice
    split
    · rfl
    · rename_i n hn'
      simp only [hn', decide_eq_false_iff_not, not_not] at hno
      simp [hno]
  · intro a b hab
    exact ⟨a + 1, b + 1, invoiceNumberValue_make a, invoiceNumberValue_make b, by omega⟩

/-- Witness for C22: from the sample store without invoices, three documents with
numbers are saved, the second with the number of the first, then a document without a
number; the first is saved again by add-charges and the third by a status change, and
an appointment is approved. Two invoices are stored, with their own numbers. -/
theorem invoice_numbers_unique_witness :
    invoiceNumbers (runInvoiceOps true storeNoInvoices sampleSaves) =
      [(60, some "INV-000007"), (62, some "INV-000003")] ∧
    ((runInvoiceOps true storeNoInvoices sampleSaves).invoices.map
      (fun i => i.invoiceNumber)).Nodup ∧
    ((runInvoiceOps true storeNoInvoices sampleSaves).invoices.map (fun i => i.id)).Nodup :=
  have h := invoice_numbers_unique true storeNoInvoices sampleSaves (by decide) (by decide)
  ⟨by decide!, h.1, h.2.1⟩

/-- Counterexample to C22: two invoice documents are saved one after the other, the
first with the number `INV-000007` and the second with `INV-000003`; both are stored,
in the order of their creation, so the numbers do not grow with it. The approval of an
appointment, whose document has no number, stores no invoice. -/
theorem invoice_numbers_not_in_creation_order :
    storeNoInvoices.invoices = [] ∧
    invoiceNumbers (runInvoiceOps true storeNoInvoices
      [.saveNew invoiceSeven, .saveNew invoiceThree]) =
      [(60, some "INV-000007"), (62, some "INV-000003")] ∧
    invoiceNumberValue "INV-000007" = some 7 ∧ invoiceNumberValue "INV-000003" = some 3 ∧
    ¬ (7 < 3) ∧
    (runInvoiceOps true storeNoInvoices
      [.creating (.update envA .admin 50 ⟨none, .bool true⟩)]).invoices = [] := by
  decide!



/-! ## Frame of the discharge -/

/-- C23. A discharge call changes no user, doctor or patient record, whether it
succeeds or fails, and no appointment or invoice either; when it succeeds the store
afterwards is the store before with the one new discharge document added, and when it
fails the store is unchanged. -/
theorem discharge_frame (s : Store) (env : Env) (pid : ObjectId) (body : DischargeBody) :
    (postDischarge s env pid body).2.users = s.users ∧
    (postDischarge s env pid body).2.doctors = s.doctors ∧
    (postDischarge s env pid body).2.patients = s.patients ∧
    (postDischarge s env pid body).2.appointments = s.appointments ∧
    (postDischarge s env pid body).2.invoices = s.invoices ∧
    (∀ st doc, (postDischarge s env pid body).1 = .json st doc →
      (postDischarge s env pid body).2 = { s with discharges := s.discharges ++ [doc] }) ∧
    (∀ st message, (postDischarge s env pid body).1 = .fail st message →
      (postDischarge s env pid body).2 = s) := by
  cases hr : postDischarge s env pid body with
  | mk reply s' =>
    cases reply with
    | json st doc =>
      obtain ⟨_, -, -, -, -, -, -, -, -, -, -, -, -, hs⟩ := postDischarge_json hr
      subst hs
      refine ⟨rfl, rfl, rfl, rfl, rfl, ?_, ?_⟩
      · intro st' doc' h
        simp only [Reply.json.injEq] at h
        rw [h.2]
      · intro st' message h
        simp at h
    | fail st message =>
      have hs : s' = s := by
        unfold postDischarge at hr
        split at hr
        · simp only [Prod.mk.injEq] at hr; exact hr.2.symm
        · split at hr
          · simp only [Prod.mk.injEq] at hr; exact hr.2.symm
          · simp only at hr
            split at hr
            · split at hr
              · simp at hr
              · simp only [Prod.mk.injEq] at hr; exact hr.2.symm
            · simp only [Prod.mk.injEq] at hr; exact hr.2.symm
      subst hs
      refine ⟨rfl, rfl, rfl, rfl, rfl, ?_, ?_⟩
      · intro st' doc h
        simp at h
      · intro _ _ _
        rfl


/-- Witness for C23: scenario A adds its one document, and a discharge of the unassigned
sample patient 21 leaves the store as it was. -/
theorem discharge_frame_witness :
    (postDischarge sampleStore envA 20 bodyA).2 =
      { sampleStore with discharges := sampleStore.discharges ++ [docA] } ∧
    (postDischarge sampleStore envA 21 bodyA).2 = sampleStore :=
  ⟨(discharge_frame sampleStore envA 20 bodyA).2.2.2.2.2.1 200 docA (by decide!),
    (discharge_frame sampleStore envA 21 bodyA).2.2.2.2.2.2 404 "Assigned doctor not found"
      (by decide!)⟩

/-! ## Lemmas on the latest discharge document -/

theorem newestDischargeFirst_head {docs : List PatientDischargeDetails}
    {d : PatientDischargeDetails} (h : (newestDischargeFirst docs).head? = some d) :
    d ∈ docs ∧ ∀ d' ∈ docs, d'.createdAt ≤ d.createdAt := by
  haveI : IsTotal PatientDischargeDetails (fun a b => a.createdAt ≥ b.createdAt) :=
    ⟨fun a b => le_total b.createdAt a.createdAt⟩
  haveI : IsTrans PatientDischargeDetails (fun a b => a.createdAt ≥ b.createdAt) :=
    ⟨fun a b c hab hbc => le_trans hbc hab⟩
  have hsorted := List.sorted_insertionSort (fun a b : PatientDischargeDetails =>
    a.createdAt ≥ b.createdAt) docs
  have hperm := List.perm_insertionSort (fun a b : PatientDischargeDetails =>
    a.createdAt ≥ b.createdAt) docs
  unfold newestDischargeFirst at h
  cases hl : docs.insertionSort (fun a b => a.createdAt ≥ b.createdAt) with
  | nil => rw [hl] at h; simp at h
  | cons x xs =>
    rw [hl] at h hsorted hperm
    simp only [List.head?_cons, Option.some.injEq] at h
    subst h
    refine ⟨hperm.subset (List.mem_cons_self _ _), ?_⟩
    intro d' hd'
    have hmem : d' ∈ x :: xs := hperm.symm.subset hd'
    rcases List.mem_cons.mp hmem with heq | hxs
    · rw [heq]
    · exact List.rel_of_sorted_cons hsorted d' hxs

theorem newestDischargeFirst_head_none {docs : List PatientDischargeDetails}
    (h : (newestDischargeFirst docs).head? = none) : docs = [] := by
  have hperm := List.perm_insertionSort (fun a b : PatientDischargeDetails =>
    a.createdAt ≥ b.createdAt) docs
  unfold newestDischargeFirst at h
  rw [List.head?_eq_none_iff] at h
  rw [h] at hperm
  exact List.Perm.eq_nil hperm.symm

/-- The document the `findOne(...).sort('-createdAt')` query returns belongs to the
patient and none of the patient's documents was created later. -/
theorem latestDischarge_some {s : Store} {pid : ObjectId} {d : PatientDischargeDetails}
    (h : latestDischarge s pid = some d) :
    d ∈ s.discharges ∧ d.patientId = pid ∧
    ∀ d' ∈ s.discharges, d'.patientId = pid → d'.createdAt ≤ d.createdAt := by
  obtain ⟨hmem, hmax⟩ := newestDischargeFirst_head h
  simp only [List.mem_filter, decide_eq_true_eq] at hmem hmax
  exact ⟨hmem.1, hmem.2, fun d' hd' hp => hmax d' ⟨hd', hp⟩⟩

theorem latestDischarge_none_iff (s : Store) (pid : ObjectId) :
    latestDischarge s pid = none ↔ ∀ d ∈ s.discharges, d.patientId ≠ pid := by
  constructor
  · intro h d hd hp
    have hnil := newestDischargeFirst_head_none h
    have : d ∈ s.discharges.filter (fun d => d.patientId = pid) := by
      simp [List.mem_filter, hd, hp]
    rw [hnil] at this
    simp at this
  · intro h
    have hnil : s.discharges.filter (fun d => d.patientId = pid) = [] := by
      rw [List.filter_eq_nil_iff]
      intro d hd
      simpa using h d hd
    unfold latestDischarge
    rw [hnil]
    rfl


/-! ## Discharge views -/

/-- C24 (as amended). For a patient with a discharge document, the address, mobile,
symptoms and admit date that `GET /api/patient/discharge` returns are those of the
patient's profile as it is now, so they equal the snapshot in the most recent discharge
document as long as the profile still holds the snapshotted values; the assigned
doctor's name, release date, day count and charges are those of that document. -/
theorem patient_view_values (s : Store) (userId : ObjectId) (patient : Patient)
    (d : PatientDischargeDetails) (hp : findPatientByUser s userId = some patient)
    (hd : latestDischarge s patient.id = some d) :
    ∃ f, getPatientDischarge s userId =
        .json 200 { isDischarged := true, patient := patient, fields := some f } ∧
      f.address = patient.address ∧ f.mobile = patient.mobile ∧
      f.symptoms = patient.symptoms ∧ f.admitDate = patient.admitDate ∧
      (patient.address = d.address → patient.mobile = d.mobile →
        patient.symptoms = d.symptoms → patient.admitDate = d.admitDate →
        f.address = d.address ∧ f.mobile = d.mobile ∧ f.symptoms = d.symptoms ∧
          f.admitDate = d.admitDate) ∧
      f.assignedDoctorName = d.assignedDoctorName ∧ f.releaseDate = d.releaseDate ∧
      f.daySpent = d.daySpent ∧ f.roomCharge = d.roomCharge ∧
      f.medicineCost = d.medicineCost ∧ f.doctorFee = d.doctorFee ∧
      f.otherCharge = d.otherCharge ∧ f.total = d.total := by
  unfold getPatientDischarge
  simp only [hp, hd]
  refine ⟨_, rfl, rfl, rfl, rfl, rfl, ?_, rfl, rfl, rfl, rfl, rfl, rfl, rfl, rfl⟩
  intro h1 h2 h3 h4
  exact ⟨h1, h2, h3, h4⟩

/-- Witness for C24: the view of the sample patient right after scenario A. -/
theorem patient_view_values_witness :
    ∃ f, getPatientDischarge storeAfterA 1 =
        .json 200
          { isDischarged := true
            patient := ⟨20, 1, "1 Main St", "555-0100", "cough", some 10, 0, true, 0⟩
            fields := some f } ∧
      f.address = docA.address ∧ f.mobile = docA.mobile ∧ f.symptoms = docA.symptoms ∧
      f.admitDate = docA.admitDate ∧ f.total = docA.total :=
  have h := patient_view_values storeAfterA 1
    ⟨20, 1, "1 Main St", "555-0100", "cough", some 10, 0, true, 0⟩ docA (by decide!) (by decide!)
  h.elim fun f hf =>
    have hsnap := hf.2.2.2.2.2.1 (by decide) (by decide) (by decide) (by decide)
    ⟨f, hf.1, hsnap.1, hsnap.2.1, hsnap.2.2.1, hsnap.2.2.2, hf.2.2.2.2.2.2.2.2.2.2.2.2.2⟩

/-- Counterexample to C24: after scenario A the sample patient changes the address
through `PUT /api/patient/profile`; the discharge view then returns the new address
`9 New Rd`, not the snapshotted `1 Main St`, and its `patientName` is not the
snapshotted `Ann Lee`. -/
theorem patient_view_not_snapshot :
    postDischarge sampleStore envA 20 bodyA = (.json 200 docA, storeAfterA) ∧
    putProfile storeAfterA 1 bodyMove = (.json 200 patientMoved, storeMoved) ∧
    latestDischarge storeMoved 20 = some docA ∧
    docA.address = "1 Main St" ∧ docA.patientName = "Ann Lee" ∧
    ((getPatientDischarge storeMoved 1).body?.bind (fun view => view.fields)).map
      (fun f => (f.address, f.patientName)) = some ("9 New Rd", "undefined undefined") := by
  decide!


theorem validHeaderValue_contentDisposition (d : PatientDischargeDetails) :
    validHeaderValue (contentDisposition d) = d.patientName.data.all validHeaderChar := by
  unfold validHeaderValue contentDisposition
  simp only [String.data_append, List.all_append]
  have h1 : "attachment; filename=bill-".data.all validHeaderChar = true := by decide
  have h2 : ".pdf".data.all validHeaderChar = true := by decide
  rw [h1, h2]
  simp

/-- C25 (as amended). The patient's discharge view is built from the discharge document
that the query returns for the patient, which is one of the patient's documents with
the greatest creation time, and so is the PDF bill when every character of the
document's `patientName` is one that a header value may hold (the tab, `U+0020` to
`U+007E`, `U+0080` to `U+00FF`); when the name holds another character the PDF request
is answered 500 `Server error`. When the patient has no document, the PDF request is
answered 404 and the patient view reports `isDischarged = false`. -/
theorem latest_discharge_is_used (toDateString : Int → String) (s : Store) (userId : ObjectId)
    (patient : Patient) (hp : findPatientByUser s userId = some patient) :
    (∀ d, latestDischarge s patient.id = some d →
      d ∈ s.discharges ∧ d.patientId = patient.id ∧
      (∀ d' ∈ s.discharges, d'.patientId = patient.id → d'.createdAt ≤ d.createdAt) ∧
      (d.patientName.data.all validHeaderChar = true →
        getDischargePdf toDateString s patient.id = .json 200 (renderBill toDateString d)) ∧
      (d.patientName.data.all validHeaderChar = false →
        getDischargePdf toDateString s patient.id = .fail 500 "Server error") ∧
      ∃ f, getPatientDischarge s userId =
          .json 200 { isDischarged := true, patient := patient, fields := some f } ∧
        f.assignedDoctorName = d.assignedDoctorName ∧ f.releaseDate = d.releaseDate ∧
        f.daySpent = d.daySpent ∧ f.roomCharge = d.roomCharge ∧
        f.medicineCost = d.medicineCost ∧ f.doctorFee = d.doctorFee ∧
        f.otherCharge = d.otherCharge ∧ f.total = d.total) ∧
    ((∃ d ∈ s.discharges, d.patientId = patient.id) →
      ∃ d, latestDischarge s patient.id = some d) ∧
    ((∀ d ∈ s.discharges, d.patientId ≠ patient.id) →
      getDischargePdf toDateString s patient.id = .fail 404 "Discharge details not found" ∧
      getPatientDischarge s userId =
        .json 200 { isDischarged := false, patient := patient, fields := none }) := by
  refine ⟨?_, ?_, ?_⟩
  · intro d hd
    obtain ⟨h1, h2, h3⟩ := latestDischarge_some hd
    refine ⟨h1, h2, h3, ?_, ?_, ?_⟩
    · intro hv
      rw [← validHeaderValue_contentDisposition] at hv
      unfold getDischargePdf
      simp only [hd, hv, if_true]
    · intro hv
      rw [← validHeaderValue_contentDisposition] at hv
      unfold getDischargePdf
      simp only [hd, hv]
      rfl
    · unfold getPatientDischarge
      simp only [hp, hd]
      exact ⟨_, rfl, rfl, rfl, rfl, rfl, rfl, rfl, rfl, rfl⟩
  · rintro ⟨d, hd, hpid⟩
    cases hl : latestDischarge s patient.id with
    | some d' => exact ⟨d', rfl⟩
    | none =>
      exact absurd hpid ((latestDischarge_none_iff s patient.id).mp hl d hd)
  · intro hnone
    have hl := (latestDischarge_none_iff s patient.id).mpr hnone
    constructor
    · unfold getDischargePdf
      simp only [hl]
    · unfold getPatientDischarge
      simp only [hp, hl]

/-- Witness for C25: of the two discharge documents of the sample patient 20 the later
one is used, and the sample patient 21, who has none, gets 404 and `isDischarged =
false`. -/
theorem latest_discharge_is_used_witness :
    docA.createdAt ≤ docLater.createdAt ∧
    getDischargePdf sampleDate storeTwoDischarges 20 = .json 200 (renderBill sampleDate docLater) ∧
    getDischargePdf sampleDate storeTwoDischarges 21 =
      .fail 404 "Discharge details not found" ∧
    getPatientDischarge storeTwoDischarges 3 =
      .json 200
        { isDischarged := false
          patient := ⟨21, 3, "2 Side St", "555-0101", "fever", none, 0, true, 0⟩
          fields := none } ∧
    getDischargePdf sampleDate storeNowakAfter 20 = .fail 500 "Server error" :=
  have h20 := latest_discharge_is_used sampleDate storeTwoDischarges 1
    ⟨20, 1, "1 Main St", "555-0100", "cough", some 10, 0, true, 0⟩ (by decide!)
  have h21 := latest_discharge_is_used sampleDate storeTwoDischarges 3
    ⟨21, 3, "2 Side St", "555-0101", "fever", none, 0, true, 0⟩ (by decide!)
  have hN := latest_discharge_is_used sampleDate storeNowakAfter 1
    ⟨20, 1, "1 Main St", "555-0100", "cough", some 10, 0, true, 0⟩ (by decide!)
  have hA := h20.1 docLater (by decide!)
  have hnone := h21.2.2 (by decide!)
  ⟨hA.2.2.1 docA (by decide!) (by decide!), hA.2.2.2.1 (by decide!), hnone.1, hnone.2,
    (hN.1 docNowak (by decide!)).2.2.2.2.1 (by decide!)⟩

/-- Counterexample to C25: the first sample patient is called Łukasz Nowak. The
discharge stores that name; the PDF request for the patient, whose latest discharge
document it is, is answered 500 `Server error` and no bill, because `Ł` (`U+0141`) is
not a character a header value may hold, while the patient view is built from the
document. -/
theorem pdf_fails_for_name_outside_latin1 :
    postDischarge storeNowak envA 20 bodyA = (.json 200 docNowak, storeNowakAfter) ∧
    latestDischarge storeNowakAfter 20 = some docNowak ∧
    docNowak.patientName = "Łukasz Nowak" ∧
    validHeaderChar 'Ł' = false ∧
    validHeaderValue (contentDisposition docNowak) = false ∧
    getDischargePdf sampleDate storeNowakAfter 20 = .fail 500 "Server error" ∧
    getDischargePdf sampleDate storeNowakAfter 20 ≠
      .json 200 (renderBill sampleDate docNowak) ∧
    ((getPatientDischarge storeNowakAfter 1).body?.map (fun view => view.isDischarged)) =
      some true := by
  decide!

/-! ## The rendered bill -/

/-- The digits of a natural number hold no decimal point. -/
theorem toString_nat_no_point (n : Nat) : ∀ c ∈ (toString n).data, c ≠ '.' := by
  intro c hc hdot
  subst hdot
  obtain ⟨-, -, hall, -⟩ := toString_nat_spec n
  have hno : ∀ k, k < 10 → Nat.digitChar k ≠ '.' := by
    intro k hk
    interval_cases k <;> decide
  obtain ⟨k, hk, he⟩ := hall '.' hc
  exact hno k hk he.symm

/-- The string of an integer of magnitude at most `2 ^ 53` reads back as that integer
and holds no decimal point. -/
theorem jsNumberString_integer (n : Int) (h : n.natAbs ≤ 2 ^ 53) :
    jsNumberString (.finite (n : ℚ)) = (if n < 0 then "-" else "") ++ toString n.natAbs ∧
    parseIntString (jsNumberString (.finite (n : ℚ))).data = .finite (n : ℚ) ∧
    ∀ c ∈ (jsNumberString (.finite (n : ℚ))).data, c ≠ '.' := by
  have hs := jsNumberString_intCast n h
  refine ⟨hs, ?_, ?_⟩
  · rw [hs]
    simp only [parseIntString, parseIntChars_intString, toDouble_intCast n h]
  · rw [hs]
    intro c hc
    split at hc
    · simp only [String.data_append, List.mem_append] at hc
      rcases hc with hc | hc
      · revert hc
        intro hc hdot
        subst hdot
        revert hc
        decide
      · exact toString_nat_no_point _ c hc
    · simp only [String.data_append, List.mem_append] at hc
      rcases hc with hc | hc
      · simp at hc
      · exact toString_nat_no_point _ c hc

/-- On integers of magnitude at most `2 ^ 53` the search for the shortest digits gives
the decimal digits that `jsNumberString` takes directly; evaluated on sample values,
among them the greatest such integer. -/
theorem searchedNumberString_integers :
    searchedNumberString 250 = "250" ∧ searchedNumberString 380 = "380" ∧
    searchedNumberString (-150) = "-150" ∧ searchedNumberString 100 = "100" ∧
    searchedNumberString 1 = "1" ∧
    searchedNumberString 9007199254740992 = "9007199254740992" ∧
    searchedNumberString 9007199254740991 = "9007199254740991" ∧
    searchedNumberString 123456789012 = "123456789012" := by
  decide!

/-- C26 (as amended). The bill lines for room charge, medicine cost, doctor fee, other
charges and total show `$` followed by the string JavaScript gives the stored number,
without a fixed number of decimal places. For a stored integer of magnitude at most
`2 ^ 53` that string is the plain decimal string of the number, holds no decimal point
and reads back as the stored value; a stored fraction is printed with its own digits
(`10.5`), a larger number with its shortest digits (`2 ^ 60` as `1152921504606847000`)
and from `10 ^ 21` in exponent notation (`1e+21`), an infinity as `Infinity`. The bill
is a function of the record's content: two records that agree on the printed fields
give the same bill. -/
theorem bill_shows_record_values (toDateString : Int → String) (d : PatientDischargeDetails) :
    (renderBill toDateString d).lines.drop 10 =
      [ "Room Charge (" ++ jsNumberString (.finite d.daySpent) ++ " days): $" ++
          jsNumberString d.roomCharge,
        "Medicine Cost: $" ++ jsNumberString d.medicineCost,
        "Doctor Fee: $" ++ jsNumberString d.doctorFee,
        "Other Charges: $" ++ jsNumberString d.otherCharge,
        "TOTAL: $" ++ jsNumberString d.total ] ∧
    (∀ x ∈ [d.roomCharge, d.medicineCost, d.doctorFee, d.otherCharge, d.total],
      ∀ n : Int, n.natAbs ≤ 2 ^ 53 → x = .finite (n : ℚ) →
        jsNumberString x = (if n < 0 then "-" else "") ++ toString n.natAbs ∧
        parseIntString (jsNumberString x).data = x ∧
        ∀ c ∈ (jsNumberString x).data, c ≠ '.') ∧
    jsNumberString (toDouble (21 / 2)) = "10.5" ∧
    jsNumberString (toDouble (2 ^ 60)) = "1152921504606847000" ∧
    jsNumberString (toDouble (10 ^ 21)) = "1e+21" ∧
    jsNumberString (.infinity false) = "Infinity" ∧
    (∀ d' : PatientDischargeDetails,
      { d' with id := d.id, patientId := d.patientId, createdAt := d.createdAt } = d →
      renderBill toDateString d' = renderBill toDateString d) := by
  refine ⟨rfl, ?_, by decide!, by decide!, by decide!, rfl, ?_⟩
  · intro x _ n hn hx
    subst hx
    exact jsNumberString_integer n hn
  · intro d' h
    rw [← h]
    rfl

/-- Counterexample to C26: the bill of scenario A shows `$250` and `$380`; no line shows
an amount with two decimal places such as `$250.00` or `$380.00`. -/
theorem bill_has_no_decimals :
    (renderBill sampleDate docA).lines.drop 10 =
      ["Room Charge (5 days): $250", "Medicine Cost: $20", "Doctor Fee: $100",
        "Other Charges: $10", "TOTAL: $380"] ∧
    "Room Charge (5 days): $250.00" ∉ (renderBill sampleDate docA).lines ∧
    "TOTAL: $380.00" ∉ (renderBill sampleDate docA).lines ∧
    (renderBill sampleDate docA).lines.all (fun line => !line.contains '.') = true := by
  decide!

/-- Witness for C26: the lines of the bill of scenario A, whose total 380 is printed
with its decimal digits and reads back. -/
theorem bill_shows_record_values_witness :
    (renderBill sampleDate docA).lines.drop 10 =
      ["Room Charge (5 days): $250", "Medicine Cost: $20", "Doctor Fee: $100",
        "Other Charges: $10", "TOTAL: $380"] ∧
    jsNumberString docA.total = "380" ∧
    parseIntString (jsNumberString docA.total).data = docA.total :=
  have h := bill_shows_record_values sampleDate docA
  have ht := h.2.1 docA.total (by decide) 380 (by decide) (by decide)
  ⟨h.1.trans (by decide!), ht.1.trans (by decide), ht.2.1⟩


/-! ## Lemmas on appointments -/

theorem find_replace_appointment (l : List Appointment) (id : ObjectId) (x y : Appointment)
    (hx : x.id = id) (h : l.find? (fun a => a.id = id) = some y) :
    (l.map (fun a => if a.id = id then x else a)).find? (fun a => a.id = id) = some x := by
  induction l with
  | nil => simp at h
  | cons a as ih =>
    by_cases ha : a.id = id
    · simp [List.find?, ha, hx]
    · have h' : as.find? (fun a => a.id = id) = some y := by
        simpa [List.find?, ha] using h
      simp [List.find?, ha, ih h']

theorem autoCreateInvoice_eq (s : Store) (env : Env) (appointment : Appointment) :
    autoCreateInvoice s env appointment = s := by
  unfold autoCreateInvoice
  split
  · rfl
  · rw [insertInvoice_approvalInvoice]

/-- The store after an appointment update that was saved. -/
theorem putAppointment_saved {s : Store} {env : Env} {role : Role} {id : ObjectId}
    {body : AppointmentUpdate} {st : Nat} {saved : Appointment} {s' : Store}
    (h : putAppointment s env role id body = (.json st saved, s')) :
    ∃ appointment, findAppointment s id = some appointment ∧ st = 200 ∧
      saved = { appointment with status := saved.status, description := saved.description } ∧
      (role ≠ .admin → saved.status = appointment.status) ∧
      s' = { s with appointments := s.appointments.map (fun a => if a.id = id then saved else a) } := by
  unfold putAppointment at h
  split at h
  · simp at h
  · rename_i appointment hfind
    simp only at h
    split at h
    · rename_i status hstatus
      split at h
      · simp only [autoCreateInvoice_eq, ite_self, Prod.mk.injEq, Reply.json.injEq] at h
        obtain ⟨⟨rfl, rfl⟩, rfl⟩ := h
        refine ⟨appointment, hfind, rfl, rfl, ?_, rfl⟩
        intro hrole
        simp only [hrole, false_and, if_false, Option.some.injEq] at hstatus
        exact hstatus.symm
      · simp at h
    · simp at h

theorem putAppointment_failed {s : Store} {env : Env} {role : Role} {id : ObjectId}
    {body : AppointmentUpdate} {st : Nat} {message : String} {s' : Store}
    (h : putAppointment s env role id body = (.fail st message, s')) : s' = s := by
  unfold putAppointment at h
  split at h
  · simp only [Prod.mk.injEq] at h; exact h.2.symm
  · simp only at h
    split at h
    · split at h
      · simp at h
      · simp only [Prod.mk.injEq] at h; exact h.2.symm
    · simp only [Prod.mk.injEq] at h; exact h.2.symm

/-! ## Appointment update by other roles -/

/-- C27. When the actor is not an admin, whatever the body, the appointment update
creates no invoice and leaves the status of every appointment as it was: apart from the
description of the addressed appointment nothing in the store changes (the ids of the
stored appointments being distinct). -/
theorem non_admin_update_frame (s : Store) (env : Env) (role : Role) (id : ObjectId)
    (body : AppointmentUpdate) (hrole : role ≠ .admin)
    (hid : (s.appointments.map (fun a => a.id)).Nodup) :
    (putAppointment s env role id body).2.invoices = s.invoices ∧
    (putAppointment s env role id body).2.appointments.map (fun a => (a.id, a.status)) =
      s.appointments.map (fun a => (a.id, a.status)) ∧
    (putAppointment s env role id body).2.appointments.map
        (fun a => { a with description := "" }) =
      s.appointments.map (fun a => { a with description := "" }) ∧
    (∀ a ∈ (putAppointment s env role id body).2.appointments, a.id ≠ id →
      a ∈ s.appointments) ∧
    { (putAppointment s env role id body).2 with appointments := s.appointments } = s := by
  cases hr : putAppointment s env role id body with
  | mk reply s' =>
    cases reply with
    | fail st message =>
      have hs := putAppointment_failed hr
      subst hs
      exact ⟨rfl, rfl, rfl, fun a ha _ => ha, rfl⟩
    | json st saved =>
      obtain ⟨appointment, hfind, -, hsaved, hstatus, hs⟩ := putAppointment_saved hr
      subst hs
      have hst := hstatus hrole
      have hmem : appointment ∈ s.appointments := by
        unfold findAppointment at hfind
        exact List.mem_of_find?_eq_some hfind
      have happ_id : appointment.id = id := by
        unfold findAppointment at hfind
        simpa using List.find?_some hfind
      have hsame : ∀ a ∈ s.appointments, a.id = id → a = appointment := by
        intro a ha haid
        exact List.inj_on_of_nodup_map hid ha hmem (haid.trans happ_id.symm)
      refine ⟨rfl, ?_, ?_, ?_, rfl⟩
      · simp only [List.map_map]
        apply List.map_congr_left
        intro a ha
        simp only [Function.comp]
        by_cases hc : a.id = id
        · rw [if_pos hc, hsame a ha hc, hsaved, hst]
        · rw [if_neg hc]
      · simp only [List.map_map]
        apply List.map_congr_left
        intro a ha
        simp only [Function.comp]
        by_cases hc : a.id = id
        · rw [if_pos hc, hsame a ha hc, hsaved, hst]
        · rw [if_neg hc]
      · intro a ha hne
        simp only [List.mem_map] at ha
        obtain ⟨b, hb, hab⟩ := ha
        by_cases hc : b.id = id
        · rw [if_pos hc] at hab
          rw [← hab, hsaved] at hne
          exact absurd happ_id hne
        · rw [if_neg hc] at hab
          rw [← hab]
          exact hb

/-- Witness for C27: a doctor sends status `true` and a new description for the pending
sample appointment 50; it stays pending and no invoice is created. -/
theorem non_admin_update_frame_witness :
    (putAppointment sampleStore envA .doctor 50 ⟨some "moved", .bool true⟩).2.invoices =
      sampleStore.invoices ∧
    (putAppointment sampleStore envA .doctor 50 ⟨some "moved", .bool true⟩).2.appointments.map
      (fun a => (a.id, a.status)) = [(50, some false), (51, some true)] :=
  have h := non_admin_update_frame sampleStore envA .doctor 50 ⟨some "moved", .bool true⟩
    (by decide) (by decide)
  ⟨h.1, h.2.1.trans (by decide)⟩


/-! ## Deleting a patient user -/

/-- C28 (the code at the failing input). The admin deletes the sample patient user 1,
whose profile is patient 20: the user and the profile are removed, and with them every
appointment of the store, among them appointment 51 of patient 21. -/
theorem delete_patient_removes_all_appointments :
    (findAppointment sampleStore 51).map (fun a => a.patientId) = some 21 ∧
    (findPatientByUser sampleStore 1).map (fun p => p.id) = some 20 ∧
    (deleteUser sampleStore 9 1).1 = .json 200 "User deleted successfully" ∧
    findUser (deleteUser sampleStore 9 1).2 1 = none ∧
    findPatient (deleteUser sampleStore 9 1).2 20 = none ∧
    (findPatient (deleteUser sampleStore 9 1).2 21).isSome = true ∧
    findAppointment (deleteUser sampleStore 9 1).2 51 = none ∧
    (deleteUser sampleStore 9 1).2.appointments = [] := by
  decide!

/-! ## Discharged patients of a doctor -/

theorem postDischarge_doctor {s : Store} {env : Env} {pid : ObjectId} {body : DischargeBody}
    {st : Nat} {doc : PatientDischargeDetails} {s' : Store}
    (h : postDischarge s env pid body = (.json st doc, s')) :
    ∃ patient doctor doctorUser, findPatient s pid = some patient ∧
      patient.assignedDoctorId.bind (findDoctor s) = some doctor ∧
      findUser s doctor.user = some doctorUser ∧
      doc.assignedDoctorName = fullName doctorUser ∧
      s'.discharges = s.discharges ++ [doc] := by
  unfold postDischarge at h
  split at h
  · simp at h
  · rename_i patient hp
    split at h
    · simp at h
    · rename_i doctor hd
      simp only at h
      split at h
      · rename_i patientUser doctorUser hpu hdu
        split at h
        · rename_i doc0 s0 hsave
          simp only [Prod.mk.injEq, Reply.json.injEq] at h
          obtain ⟨⟨-, rfl⟩, rfl⟩ := h
          refine ⟨patient, doctor, doctorUser, hp, hd, hdu, ?_, ?_⟩
          · exact (saveDischarge_some hsave).2.2.2.2.2.2.2.2.2.2.1
          · rw [(saveDischarge_some hsave).2.2.2.2.2.2.2.2.2.1]
        · simp at h
      · simp at h

/-- C29 (as amended). The discharged-patients list of a doctor and the dashboard's
`patientDischarged` count cover exactly the discharge documents whose snapshotted
`assignedDoctorName` equals the requesting user's `firstName lastName`: a document
stored by a discharge is listed for a user exactly when that user's name equals the
name of the user of the patient's assigned doctor. -/
theorem discharged_patients_by_name (s : Store) (env : Env) (pid : ObjectId)
    (body : DischargeBody) (st : Nat) (doc : PatientDischargeDetails) (s' : Store)
    (reqUser : User) (h : postDischarge s env pid body = (.json st doc, s')) :
    ∃ patient doctor doctorUser listed, findPatient s pid = some patient ∧
      patient.assignedDoctorId.bind (findDoctor s) = some doctor ∧
      findUser s doctor.user = some doctorUser ∧
      getDischargedPatients s' reqUser = .json 200 listed ∧
      (∀ d, d ∈ listed ↔ d ∈ s'.discharges ∧ d.assignedDoctorName = fullName reqUser) ∧
      listed.length = (dischargesNamed s' reqUser).length ∧
      (doc ∈ listed ↔ fullName reqUser = fullName doctorUser) ∧
      (∀ profile, findDoctorByUser s' reqUser.id = some profile →
        (getDoctorDashboard s' reqUser).body?.map (fun b => b.patientDischarged) =
          some listed.length) := by
  obtain ⟨patient, doctor, doctorUser, hp, hd, hdu, hname, hs⟩ := postDischarge_doctor h
  have hperm := List.perm_insertionSort (fun a b : PatientDischargeDetails =>
    a.createdAt ≥ b.createdAt) (dischargesNamed s' reqUser)
  have hmem : ∀ d, d ∈ newestDischargeFirst (dischargesNamed s' reqUser) ↔
      d ∈ s'.discharges ∧ d.assignedDoctorName = fullName reqUser := by
    intro d
    unfold newestDischargeFirst
    rw [hperm.mem_iff]
    simp [dischargesNamed, List.mem_filter]
  refine ⟨patient, doctor, doctorUser, newestDischargeFirst (dischargesNamed s' reqUser),
    hp, hd, hdu, rfl, hmem, hperm.length_eq, ?_, ?_⟩
  · rw [hmem, hs, hname]
    constructor
    · intro hd'
      exact hd'.2.symm
    · intro he
      exact ⟨by simp, he.symm⟩
  · intro profile hprofile
    unfold getDoctorDashboard
    simp only [hprofile, Reply.body?, Option.map_some', Option.some.injEq]
    exact hperm.length_eq.symm

/-- Witness for C29: after scenario A the one doctor Bob Ray of the sample store sees the
discharge of his patient. -/
theorem discharged_patients_by_name_witness :
    getDischargedPatients storeAfterA ⟨2, "Bob", "Ray", .doctor⟩ = .json 200 [docA] ∧
    (getDoctorDashboard storeAfterA ⟨2, "Bob", "Ray", .doctor⟩).body?.map
      (fun b => b.patientDischarged) = some 1 :=
  have h := discharged_patients_by_name sampleStore envA 20 bodyA 200 docA storeAfterA
    ⟨2, "Bob", "Ray", .doctor⟩ (by decide!)
  h.elim fun _ h1 => h1.elim fun _ h2 => h2.elim fun _ h3 => h3.elim fun listed hl =>
    have hlist : getDischargedPatients storeAfterA ⟨2, "Bob", "Ray", .doctor⟩ =
        .json 200 [docA] := by decide!
    have hlen : listed.length = 1 := by
      have := hl.2.2.2.1.symm.trans hlist
      simp only [Reply.json.injEq, true_and] at this
      rw [this]
      rfl
    ⟨hlist, (hl.2.2.2.2.2.2.2 ⟨10, 2, true⟩ (by decide!)).trans (by rw [hlen])⟩

/-- Counterexample to C29: two doctors are called Bob Ray. The sample patient 20 is
assigned to the first (doctor 10, user 2); after the discharge the second (doctor 11,
user 4) finds that discharge in his list and counted on his dashboard. -/
theorem same_name_doctor_sees_discharge :
    (findPatient storeTwoBobs 20).map (fun p => p.assignedDoctorId) = some (some 10) ∧
    (findDoctorByUser storeTwoBobs secondBob.id).map (fun d => d.id) = some 11 ∧
    (postDischarge storeTwoBobs envA 20 bodyA).1 = .json 200 docA ∧
    getDischargedPatients (postDischarge storeTwoBobs envA 20 bodyA).2 secondBob =
      .json 200 [docA] ∧
    (getDoctorDashboard (postDischarge storeTwoBobs envA 20 bodyA).2 secondBob).body?.map
      (fun b => (b.patientCount, b.patientDischarged)) = some (0, 1) := by
  decide!

/-! ## Approval when the invoice cannot be created -/

/-- C30. When an admin approves a pending appointment and the appointment with the new
status and description passes the validation of its save (the stored names and the
description it then carries are within the lengths of the schema), the appointment is
saved with the status `true` and the description, and the reply is the 200 reply with
it, although the invoice built for it cannot be saved: the save of that invoice is
rejected and no invoice is added. -/
theorem approval_survives_invoice_failure (s : Store) (env : Env) (id : ObjectId)
    (body : AppointmentUpdate) (appointment : Appointment)
    (hf : findAppointment s id = some appointment)
    (hprev : appointment.status = some false) (hstatus : body.status = .bool true)
    (hvalid : validAppointment
      { appointment with
        status := some true
        description := orCurrent body.description appointment.description } = true) :
    ∃ saved, putAppointment s env .admin id body =
        (.json 200 saved,
          { s with appointments := s.appointments.map (fun a => if a.id = id then saved else a) }) ∧
      saved.status = some true ∧
      saved.description = orCurrent body.description appointment.description ∧
      findAppointment (putAppointment s env .admin id body).2 id = some saved ∧
      insertInvoice
        { s with appointments := s.appointments.map (fun a => if a.id = id then saved else a) }
        (approvalInvoice env saved) = none ∧
      (putAppointment s env .admin id body).2 =
        autoCreateInvoice
          { s with appointments := s.appointments.map (fun a => if a.id = id then saved else a) }
          env saved ∧
      (putAppointment s env .admin id body).2.invoices = s.invoices := by
  have hid : appointment.id = id := by
    unfold findAppointment at hf
    simpa using List.find?_some hf
  have hput : putAppointment s env .admin id body =
      (.json 200
        { appointment with
          status := some true
          description := orCurrent body.description appointment.description },
        { s with appointments := s.appointments.map (fun a => if a.id = id then
          { appointment with
            status := some true
            description := orCurrent body.description appointment.description } else a) }) := by
    unfold putAppointment
    simp only [hf, hstatus, hprev, castBoolean, autoCreateInvoice_eq, and_self, if_true]
    simp [hvalid]
  refine ⟨_, hput, rfl, rfl, ?_, insertInvoice_approvalInvoice _ _ _, ?_, ?_⟩
  · rw [hput]
    exact find_replace_appointment _ _ _ appointment hid hf
  · rw [hput, autoCreateInvoice_eq]
  · rw [hput]

/-- Witness for C30: the admin approves the pending sample appointment 50 with a new
description. -/
theorem approval_survives_invoice_failure_witness :
    ∃ saved, putAppointment sampleStore envA .admin 50 ⟨some "confirmed", .bool true⟩ =
        (.json 200 saved,
          { sampleStore with
            appointments := sampleStore.appointments.map
              (fun a => if a.id = 50 then saved else a) }) ∧
      saved.status = some true ∧
      saved.description = "confirmed" ∧
      (putAppointment sampleStore envA .admin 50 ⟨some "confirmed", .bool true⟩).2.invoices =
        sampleStore.invoices :=
  have h := approval_survives_invoice_failure sampleStore envA 50
    ⟨some "confirmed", .bool true⟩
    ⟨50, 20, 10, "Ann Lee", "Bob Ray", 0, "check-up", some false, 0⟩ (by decide!) rfl rfl
    (by decide!)
  h.elim fun saved hs => ⟨saved, hs.1, hs.2.1, hs.2.2.1.trans (by decide), hs.2.2.2.2.2.2⟩

end Hospital
